import Mathlib

/-!
SLAC protocol dissectors (AXISP and RSSI).

A shallow embedding of the two dissectors of the repository,
`src/ws_dissectors/src/axisp/packet-axisp.c` and
`src/ws_dissectors/src/rssi/packet-rssi.c`, together with the part of the
epan dissection API (tvbuff accessors and `proto_tree_add_*`) that they call.

The embedding describes a dissection pass that builds the protocol tree
(`tree != NULL`, items visible).  The column updates (`col_set_str`,
`col_clear`) only touch the packet-list columns and are left out.  `gint` and
`guint` values are unbounded integers: every length that occurs is a length
of a captured frame, far below `2^31`.

A buffer has its captured octets and a reported length, which is larger when
the capture was cut short.  A library call that needs octets outside the
captured ones throws an exception; it ends the dissector, and the items added
before it stay in the tree.  A length argument of -1 means "to the end of the
buffer" for byte-string and protocol items, as `dissect_regular_rssi_packet`
uses it for its payload.
-/

namespace Slac

/-! ## Buffers -/

/-- One octet of wire data. -/
abbrev Byte := Fin 256

/-- Exceptions that the epan library throws into a dissector:
`BoundsError` (the data is missing from the capture but lies inside the
reported length), `ReportedBoundsError` (the data lies beyond the reported
length, shown as a malformed packet) and `DissectorError` (a failed
`DISSECTOR_ASSERT`). -/
inductive Exn where
  | BoundsError
  | ReportedBoundsError
  | DissectorError
deriving DecidableEq

/-- A `tvbuff_t`: the captured octets (`tvb->length` is `data.length`), the
reported length of the frame, and the offset of this view in the frame it
was cut from (`raw_offset`). -/
structure Tvb where
  data : List Byte
  reported_length : Nat
  raw_offset : Nat
deriving DecidableEq

/-- A top-level buffer whose octets are all captured. -/
def Tvb.ofBytes (bs : List Byte) : Tvb := ⟨bs, bs.length, 0⟩

/-- Captured length never exceeds the reported length. -/
def Tvb.wf (tvb : Tvb) : Prop := tvb.data.length ≤ tvb.reported_length

instance (tvb : Tvb) : Decidable tvb.wf := by unfold Tvb.wf; infer_instance

/-- The octet at index `i` as a number (0 when `i` is not captured). -/
def Tvb.byte (tvb : Tvb) (i : Nat) : Nat := (tvb.data.getD i 0).val

/-- Library function `tvb_reported_length`. -/
def tvb_reported_length (tvb : Tvb) : Int := tvb.reported_length

/-- Library function `tvb_captured_length`. -/
def tvb_captured_length (tvb : Tvb) : Int := tvb.data.length

/-- The exception for an absolute offset that is not inside the captured data;
contained length and reported length coincide for the buffers used here. -/
def bounds_exception (tvb : Tvb) (abs_offset : Nat) : Exn :=
  if abs_offset ≤ tvb.reported_length then .BoundsError else .ReportedBoundsError

/-- Library function `compute_offset` of tvbuff.c: a non-negative offset counts from the start,
a negative one from the end of the captured data. -/
def compute_offset (tvb : Tvb) (offset : Int) : Except Exn Nat :=
  if 0 ≤ offset then
    if offset.toNat ≤ tvb.data.length then .ok offset.toNat
    else .error (bounds_exception tvb offset.toNat)
  else
    if (-offset).toNat ≤ tvb.data.length then .ok (tvb.data.length - (-offset).toNat)
    else .error (bounds_exception tvb (-offset).toNat)

/-- Library function `validate_offset` of tvbuff.c, for the end of a range. -/
def validate_offset (tvb : Tvb) (abs_offset : Nat) : Except Exn Unit :=
  if abs_offset ≤ tvb.data.length then .ok ()
  else .error (bounds_exception tvb abs_offset)

/-- Library function `check_offset_length_no_exception` of tvbuff.c: a length of -1 means
"to the end of the captured data", a smaller length is a `BoundsError`. -/
def check_offset_length (tvb : Tvb) (offset length_val : Int) : Except Exn (Nat × Nat) :=
  match compute_offset tvb offset with
  | .error e => .error e
  | .ok abs_offset =>
    if length_val < -1 then .error .BoundsError
    else
      let abs_length := if length_val = -1 then tvb.data.length - abs_offset else length_val.toNat
      match validate_offset tvb (abs_offset + abs_length) with
      | .error e => .error e
      | .ok _ => .ok (abs_offset, abs_length)

/-- Library function `tvb_ensure_bytes_exist`: here a negative length is always an error. -/
def tvb_ensure_bytes_exist (tvb : Tvb) (offset length_val : Int) : Except Exn Unit :=
  if length_val < 0 then .error .ReportedBoundsError
  else
    match check_offset_length tvb offset length_val with
    | .error e => .error e
    | .ok _ => .ok ()

/-- Library function `tvb_reported_length_remaining`: 0 when the offset is not inside the
captured data. -/
def tvb_reported_length_remaining (tvb : Tvb) (offset : Int) : Int :=
  match compute_offset tvb offset with
  | .error _ => 0
  | .ok abs_offset =>
    if abs_offset ≤ tvb.reported_length then ((tvb.reported_length - abs_offset : Nat) : Int) else 0

/-- Library function `tvb_ensure_captured_length_remaining`: the number of captured octets from
the offset on, an exception when there is none. -/
def tvb_ensure_captured_length_remaining (tvb : Tvb) (offset : Int) : Except Exn Nat :=
  match compute_offset tvb offset with
  | .error e => .error e
  | .ok abs_offset =>
    if tvb.data.length - abs_offset = 0 then
      .error (if abs_offset < tvb.reported_length then .BoundsError else .ReportedBoundsError)
    else .ok (tvb.data.length - abs_offset)

/-- Library function `tvb_get_ptr`: the octets of a range, after the bounds check. -/
def tvb_get_ptr (tvb : Tvb) (offset length_val : Int) : Except Exn (List Byte) :=
  match check_offset_length tvb offset length_val with
  | .error e => .error e
  | .ok (abs_offset, abs_length) => .ok ((tvb.data.drop abs_offset).take abs_length)

/-- Library function `tvb_get_guint8`. -/
def tvb_get_guint8 (tvb : Tvb) (offset : Int) : Except Exn Nat :=
  match check_offset_length tvb offset 1 with
  | .error e => .error e
  | .ok (o, _) => .ok (tvb.byte o)

/-- Library function `tvb_get_ntohs`: 16 bits, big-endian. -/
def tvb_get_ntohs (tvb : Tvb) (offset : Int) : Except Exn Nat :=
  match check_offset_length tvb offset 2 with
  | .error e => .error e
  | .ok (o, _) => .ok (tvb.byte o * 256 + tvb.byte (o + 1))

/-- Library function `tvb_get_letohs`: 16 bits, little-endian. -/
def tvb_get_letohs (tvb : Tvb) (offset : Int) : Except Exn Nat :=
  match check_offset_length tvb offset 2 with
  | .error e => .error e
  | .ok (o, _) => .ok (tvb.byte o + 256 * tvb.byte (o + 1))

/-- Library function `tvb_get_ntoh24`: 24 bits, big-endian. -/
def tvb_get_ntoh24 (tvb : Tvb) (offset : Int) : Except Exn Nat :=
  match check_offset_length tvb offset 3 with
  | .error e => .error e
  | .ok (o, _) => .ok (tvb.byte o * 65536 + tvb.byte (o + 1) * 256 + tvb.byte (o + 2))

/-- Library function `tvb_get_letoh24`: 24 bits, little-endian. -/
def tvb_get_letoh24 (tvb : Tvb) (offset : Int) : Except Exn Nat :=
  match check_offset_length tvb offset 3 with
  | .error e => .error e
  | .ok (o, _) => .ok (tvb.byte o + 256 * tvb.byte (o + 1) + 65536 * tvb.byte (o + 2))

/-- Library function `tvb_get_ntohl`: 32 bits, big-endian. -/
def tvb_get_ntohl (tvb : Tvb) (offset : Int) : Except Exn Nat :=
  match check_offset_length tvb offset 4 with
  | .error e => .error e
  | .ok (o, _) =>
    .ok (tvb.byte o * 16777216 + tvb.byte (o + 1) * 65536 + tvb.byte (o + 2) * 256
      + tvb.byte (o + 3))

/-- Library function `tvb_get_letohl`: 32 bits, little-endian. -/
def tvb_get_letohl (tvb : Tvb) (offset : Int) : Except Exn Nat :=
  match check_offset_length tvb offset 4 with
  | .error e => .error e
  | .ok (o, _) =>
    .ok (tvb.byte o + 256 * tvb.byte (o + 1) + 65536 * tvb.byte (o + 2)
      + 16777216 * tvb.byte (o + 3))

/-- Library function `tvb_new_subset_remaining`: the view from `backing_offset` to the end. -/
def tvb_new_subset_remaining (backing : Tvb) (backing_offset : Int) : Except Exn Tvb :=
  match check_offset_length backing backing_offset (-1) with
  | .error e => .error e
  | .ok (o, _) =>
    .ok ⟨backing.data.drop o, backing.reported_length - o, backing.raw_offset + o⟩

/-! ## Protocol tree -/

/-- Field types of the registered fields (ftenum_t). -/
inductive FType where
  | FT_PROTOCOL
  | FT_BOOLEAN
  | FT_UINT8
  | FT_UINT16
  | FT_UINT32
  | FT_BYTES
deriving DecidableEq

/-- The part of a `header_field_info` that dissection depends on. -/
structure HfInfo where
  ftype : FType
  bitmask : Nat
deriving DecidableEq

/-- Byte order argument of the `proto_tree_add_*` calls. -/
inductive Enc where
  | ENC_NA
  | ENC_BIG_ENDIAN
  | ENC_LITTLE_ENDIAN
deriving DecidableEq

/-- Value stored in a tree item. -/
inductive Value where
  | none
  | uint (v : Nat)
  | boolean (b : Bool)
  | bytes (bs : List Byte)
deriving DecidableEq

/-- Library function `ftype_wire_size`: the width of an integral field type in octets. -/
def ftype_wire_size : FType → Int
  | .FT_UINT8 => 1
  | .FT_UINT16 => 2
  | .FT_UINT32 => 4
  | _ => 0

/-- Number of trailing zero bits of a mask, at most `fuel`. -/
def ctz : Nat → Nat → Nat
  | 0, _ => 0
  | fuel + 1, m => if m % 2 = 1 then 0 else 1 + ctz fuel (m / 2)

/-- Library function `hfinfo_bitshift`: position of the lowest set bit of a 64-bit mask. -/
def hfinfo_bitshift (bitmask : Nat) : Nat := ctz 64 bitmask

/-- The masking step of `proto_tree_set_uint` and `proto_tree_set_uint64`: with
a non-zero mask the value is masked and shifted down. -/
def apply_bitmask (bitmask value : Nat) : Nat :=
  if bitmask = 0 then value else (value &&& bitmask) >>> hfinfo_bitshift bitmask

/-- Library function `get_uint_value` (and `get_uint64_value` up to 4 octets): an integer of
`length` octets in the byte order of `encoding`; a length below 1 is an error
and a length above 4 reads 4 octets. -/
def get_uint_value (tvb : Tvb) (offset length : Int) (encoding : Enc) : Except Exn Nat :=
  let little := encoding = .ENC_LITTLE_ENDIAN
  if length = 1 then tvb_get_guint8 tvb offset
  else if length = 2 then (if little then tvb_get_letohs tvb offset else tvb_get_ntohs tvb offset)
  else if length = 3 then (if little then tvb_get_letoh24 tvb offset else tvb_get_ntoh24 tvb offset)
  else if length < 1 then .error .ReportedBoundsError
  else (if little then tvb_get_letohl tvb offset else tvb_get_ntohl tvb offset)

/-- Library function `get_hfi_length`: the length of the item to add.  A length of -1 means
"to the end of the captured data" for protocol and byte-string fields and is
an error for the other types; any other negative length is a
`ReportedBoundsError`; a protocol item is cut at the end of the captured
data. -/
def get_hfi_length (hfi : HfInfo) (tvb : Tvb) (start length : Int) : Except Exn Int :=
  if length = -1 then
    match hfi.ftype with
    | .FT_PROTOCOL | .FT_BYTES =>
      if tvb.data.length = 0 then .ok 0
      else
        match tvb_ensure_captured_length_remaining tvb start with
        | .error e => .error e
        | .ok n => .ok n
    | _ => .error .ReportedBoundsError
  else if hfi.ftype = .FT_PROTOCOL then
    let length_remaining : Int :=
      match compute_offset tvb start with
      | .error _ => 0
      | .ok o => ((tvb.data.length - o : Nat) : Int)
    if length < 0 ∨ (0 < length ∧ length_remaining < length) then
      (if length_remaining < 0 then .error .ReportedBoundsError else .ok length_remaining)
    else .ok length
  else if length < 0 then .error .ReportedBoundsError
  else .ok length

/-- Handles of the registered protocols and fields: `packet-axisp.c` lines
16-35, `packet-rssi.c` lines 26-83, and the items of the epan data dissector. -/
inductive Hf where
  | proto_axisp
  | hf_axisp_version
  | hf_axisp_crc_type
  | hf_axisp_tuser
  | hf_axisp_channel
  | hf_axisp_tid
  | hf_axisp_seq
  | hf_axisp_header_flags
  | hf_axisp_sof
  | hf_axisp_payload
  | hf_axisp_tuser_last
  | hf_axisp_tail_flags
  | hf_axisp_eof
  | hf_axisp_last_byte_cnt
  | hf_axisp_crc
  | proto_asp
  | hf_rssi_control_flags
  | hf_rssi_flag_busy
  | hf_rssi_flag_null
  | hf_rssi_flag_rst
  | hf_rssi_flag_eac
  | hf_rssi_flag_ack
  | hf_rssi_flag_syn
  | hf_rssi_header_length
  | hf_rssi_sequence_number
  | hf_rssi_ack_number
  | hf_rssi_checksum
  | hf_rssi_version
  | hf_rssi_syn_flags
  | hf_rssi_syn_checksum_flag
  | hf_rssi_max_outstanding_segments
  | hf_rssi_max_segment_size
  | hf_rssi_retransmission_timeout
  | hf_rssi_cumulative_ack_timeout
  | hf_rssi_null_timeout
  | hf_rssi_max_retransmissions
  | hf_rssi_max_cumulative_acks
  | hf_rssi_max_out_of_seq_ack
  | hf_rssi_timeout_unit
  | hf_rssi_conn_id
  | hf_rssi_payload
  | proto_data
  | hf_data_data
  | hf_data_len
deriving DecidableEq

/-- Flag masks of `axisp_flags` (packet-axisp.c lines 9-13). -/
def axisp_FLAG_SOF : Nat := 0x80
/-- End-of-frame mask of `axisp_flags`. -/
def axisp_FLAG_EOF : Nat := 1

/-- Flag masks of `rssi_flags` (packet-rssi.c lines 9-17). -/
def RSSI_FLAG_BUSY : Nat := 1
/-- Mask `1 << 3`. -/
def RSSI_FLAG_NULL : Nat := 1 <<< 3
/-- Mask `1 << 4`. -/
def RSSI_FLAG_RST : Nat := 1 <<< 4
/-- Mask `1 << 5`. -/
def RSSI_FLAG_EAC : Nat := 1 <<< 5
/-- Mask `1 << 6`. -/
def RSSI_FLAG_ACK : Nat := 1 <<< 6
/-- Mask `1 << 7`. -/
def RSSI_FLAG_SYN : Nat := 1 <<< 7
/-- Mask of `rssi_syn_flags` (packet-rssi.c lines 20-23). -/
def RSSI_SYN_FLAG_CHECKSUM : Nat := 1 <<< 2

/-- The field tables `hf[]` of `proto_register_axisp` and
`proto_register_rssi`: type and bitmask of every field. -/
def hfinfo : Hf → HfInfo
  | .proto_axisp => ⟨.FT_PROTOCOL, 0⟩
  | .hf_axisp_version => ⟨.FT_UINT8, 0⟩
  | .hf_axisp_crc_type => ⟨.FT_UINT8, 0⟩
  | .hf_axisp_tuser => ⟨.FT_UINT8, 0⟩
  | .hf_axisp_channel => ⟨.FT_UINT8, 0⟩
  | .hf_axisp_tid => ⟨.FT_UINT8, 0⟩
  | .hf_axisp_seq => ⟨.FT_UINT16, 0⟩
  | .hf_axisp_header_flags => ⟨.FT_UINT8, 0⟩
  | .hf_axisp_sof => ⟨.FT_BOOLEAN, axisp_FLAG_SOF⟩
  | .hf_axisp_payload => ⟨.FT_BYTES, 0⟩
  | .hf_axisp_tuser_last => ⟨.FT_UINT8, 0⟩
  | .hf_axisp_tail_flags => ⟨.FT_UINT8, 0⟩
  | .hf_axisp_eof => ⟨.FT_BOOLEAN, axisp_FLAG_EOF⟩
  | .hf_axisp_last_byte_cnt => ⟨.FT_UINT16, 0⟩
  | .hf_axisp_crc => ⟨.FT_UINT32, 0⟩
  | .proto_asp => ⟨.FT_PROTOCOL, 0⟩
  | .hf_rssi_control_flags => ⟨.FT_UINT8, 0⟩
  | .hf_rssi_flag_busy => ⟨.FT_BOOLEAN, RSSI_FLAG_BUSY⟩
  | .hf_rssi_flag_null => ⟨.FT_BOOLEAN, RSSI_FLAG_NULL⟩
  | .hf_rssi_flag_rst => ⟨.FT_BOOLEAN, RSSI_FLAG_RST⟩
  | .hf_rssi_flag_eac => ⟨.FT_BOOLEAN, RSSI_FLAG_EAC⟩
  | .hf_rssi_flag_ack => ⟨.FT_BOOLEAN, RSSI_FLAG_ACK⟩
  | .hf_rssi_flag_syn => ⟨.FT_BOOLEAN, RSSI_FLAG_SYN⟩
  | .hf_rssi_header_length => ⟨.FT_UINT8, 0⟩
  | .hf_rssi_sequence_number => ⟨.FT_UINT8, 0⟩
  | .hf_rssi_ack_number => ⟨.FT_UINT8, 0⟩
  | .hf_rssi_checksum => ⟨.FT_UINT16, 0⟩
  | .hf_rssi_version => ⟨.FT_UINT8, 0⟩
  | .hf_rssi_syn_flags => ⟨.FT_UINT8, 0⟩
  | .hf_rssi_syn_checksum_flag => ⟨.FT_BOOLEAN, RSSI_SYN_FLAG_CHECKSUM⟩
  | .hf_rssi_max_outstanding_segments => ⟨.FT_UINT8, 0⟩
  | .hf_rssi_max_segment_size => ⟨.FT_UINT16, 0⟩
  | .hf_rssi_retransmission_timeout => ⟨.FT_UINT16, 0⟩
  | .hf_rssi_cumulative_ack_timeout => ⟨.FT_UINT16, 0⟩
  | .hf_rssi_null_timeout => ⟨.FT_UINT16, 0⟩
  | .hf_rssi_max_retransmissions => ⟨.FT_UINT8, 0⟩
  | .hf_rssi_max_cumulative_acks => ⟨.FT_UINT8, 0⟩
  | .hf_rssi_max_out_of_seq_ack => ⟨.FT_UINT8, 0⟩
  | .hf_rssi_timeout_unit => ⟨.FT_UINT8, 0⟩
  | .hf_rssi_conn_id => ⟨.FT_UINT32, 0⟩
  | .hf_rssi_payload => ⟨.FT_BYTES, 0⟩
  | .proto_data => ⟨.FT_PROTOCOL, 0⟩
  | .hf_data_data => ⟨.FT_BYTES, 0⟩
  | .hf_data_len => ⟨.FT_UINT32, 0⟩

/-- One item of the protocol tree (a `field_info`): the field, the start and
length of its byte range in the buffer it was read from, and its value. -/
structure Item where
  hf : Hf
  start : Int
  length : Int
  value : Value
deriving DecidableEq

/-- What a piece of dissection leaves behind: the items added to the tree so
far, in order, and either a value or the exception that stopped it.  Items
added before an exception stay in the tree. -/
structure Outcome (α : Type) where
  tree : List Item
  result : Except Exn α

/-- A dissection step: it runs on the tree built so far. -/
def Dis (α : Type) : Type := List Item → Outcome α

/-- Sequencing: an exception of the first step ends the run and keeps the tree
as that step left it. -/
def Dis.bind {α β : Type} (m : Dis α) (f : α → Dis β) : Dis β := fun t =>
  match m t with
  | ⟨t1, .ok a⟩ => f a t1
  | ⟨t1, .error e⟩ => ⟨t1, .error e⟩

instance : Monad Dis where
  pure a := fun t => ⟨t, .ok a⟩
  bind := Dis.bind

/-- A library call that throws or returns without touching the tree. -/
def Dis.lift {α : Type} (r : Except Exn α) : Dis α := fun t => ⟨t, r⟩

/-- Append one item to the tree (`proto_tree_add_node`). -/
def Dis.add (it : Item) : Dis Unit := fun t => ⟨t ++ [it], .ok ()⟩

/-- Run a piece of dissection on an empty tree. -/
def Dis.run {α : Type} (m : Dis α) : Outcome α := m []

/-- A dissector handle as `call_dissector` sees it: for each buffer, the items
the registered function adds to the tree and its result. -/
abbrev Dissector := Tvb → Outcome Int

/-- Library function `create_dissector_handle`: the handle of a dissector function. -/
def create_dissector_handle (dissector : Tvb → Dis Int) : Dissector :=
  fun tvb => (dissector tvb).run

/-- Run a handle below the current tree: its items are appended. -/
def Dis.call {α : Type} (o : Outcome α) : Dis α := fun t => ⟨t ++ o.tree, o.result⟩

/-! ## The `proto_tree_add_*` calls -/

/-- The value `proto_tree_new_item` fetches for a field of the given type. -/
def fetch_value (hfi : HfInfo) (tvb : Tvb) (start length : Int) (encoding : Enc) :
    Except Exn Value :=
  match hfi.ftype with
  | .FT_PROTOCOL => .ok .none
  | .FT_BYTES =>
    match tvb_get_ptr tvb start length with
    | .error e => .error e
    | .ok bs => .ok (.bytes bs)
  | .FT_BOOLEAN =>
    match get_uint_value tvb start length encoding with
    | .error e => .error e
    | .ok v => .ok (.boolean (decide (apply_bitmask hfi.bitmask v ≠ 0)))
  | _ =>
    match get_uint_value tvb start length encoding with
    | .error e => .error e
    | .ok v => .ok (.uint (apply_bitmask hfi.bitmask v))

/-- Library function `proto_tree_add_item`: length check (`get_hfi_length`), bounds check
(`test_length`), then the value is read from the buffer and the item added. -/
def proto_tree_add_item (hf : Hf) (tvb : Tvb) (start length : Int) (encoding : Enc) :
    Dis Unit := do
  let item_length ← Dis.lift (get_hfi_length (hfinfo hf) tvb start length)
  Dis.lift (tvb_ensure_bytes_exist tvb start item_length)
  let value ← Dis.lift (fetch_value (hfinfo hf) tvb start item_length encoding)
  Dis.add ⟨hf, start, item_length, value⟩

/-- Library function `proto_tree_add_item_ret_uint`: as `proto_tree_add_item` for an unsigned
field, and the value is handed back to the caller. -/
def proto_tree_add_item_ret_uint (hf : Hf) (tvb : Tvb) (start length : Int)
    (encoding : Enc) : Dis Nat := do
  if length < -1 ∨ length = 0 then Dis.lift (.error .DissectorError)
  let value ← Dis.lift (get_uint_value tvb start length encoding)
  Dis.add ⟨hf, start, length, .uint (apply_bitmask (hfinfo hf).bitmask value)⟩
  return apply_bitmask (hfinfo hf).bitmask value

/-- Library function `proto_tree_add_uint`: an item with a value computed by the caller; the
buffer is not read. -/
def proto_tree_add_uint (hf : Hf) (tvb : Tvb) (start length : Int) (value : Nat) :
    Dis Unit := do
  let item_length ← Dis.lift (get_hfi_length (hfinfo hf) tvb start length)
  Dis.add ⟨hf, start, item_length, .uint (apply_bitmask (hfinfo hf).bitmask value)⟩

/-- Library function `proto_tree_add_boolean64`: a flag item whose value is the masked bit of
`value`. -/
def proto_tree_add_boolean64 (hf : Hf) (tvb : Tvb) (start length : Int) (value : Nat) :
    Dis Unit := do
  let item_length ← Dis.lift (get_hfi_length (hfinfo hf) tvb start length)
  Dis.add ⟨hf, start, item_length, .boolean (decide (apply_bitmask (hfinfo hf).bitmask value ≠ 0))⟩

/-- Library function `proto_item_add_bitmask_tree`: one item per flag field whose mask fits in
the `len` octets read (with `len = 0` every bit counts as read), all decoded
from the same `value`. -/
def proto_item_add_bitmask_tree (tvb : Tvb) (offset len : Int) (value : Nat) :
    List Hf → Dis Unit
  | [] => pure ()
  | f :: fields => do
    let available_bits : Nat := if 0 < len then 2 ^ (8 * len.toNat) - 1 else 2 ^ 64 - 1
    if available_bits &&& (hfinfo f).bitmask = (hfinfo f).bitmask then
      match (hfinfo f).ftype with
      | .FT_BOOLEAN => proto_tree_add_boolean64 f tvb offset len value
      | _ => proto_tree_add_uint f tvb offset len value
    proto_item_add_bitmask_tree tvb offset len value fields

/-- Library function `proto_tree_add_bitmask` (with a tree): the flags field itself, then its
flag items. -/
def proto_tree_add_bitmask (tvb : Tvb) (offset : Int) (hf_hdr : Hf) (fields : List Hf)
    (encoding : Enc) : Dis Unit := do
  let len := ftype_wire_size (hfinfo hf_hdr).ftype
  proto_tree_add_item hf_hdr tvb offset len encoding
  let value ← Dis.lift (get_uint_value tvb offset len encoding)
  proto_item_add_bitmask_tree tvb offset len value fields

/-- Library function `proto_tree_add_bitmask_ret_uint64`: the value is read first and handed
back (masked when the flags field has a mask of its own). -/
def proto_tree_add_bitmask_ret_uint64 (tvb : Tvb) (offset : Int) (hf_hdr : Hf)
    (fields : List Hf) (encoding : Enc) : Dis Nat := do
  let len := ftype_wire_size (hfinfo hf_hdr).ftype
  let value ← Dis.lift (get_uint_value tvb offset len encoding)
  proto_tree_add_item hf_hdr tvb offset len encoding
  proto_item_add_bitmask_tree tvb offset len value fields
  return apply_bitmask (hfinfo hf_hdr).bitmask value

/-- Library function `proto_tree_add_bytes_format` with a null `start_ptr`: the range is fetched
with `tvb_get_ptr` and added as a byte-string item (`proto_tree_add_bytes`);
the format string only sets the label. -/
def proto_tree_add_bytes_format (hf : Hf) (tvb : Tvb) (start length : Int) : Dis Unit := do
  let _ ← Dis.lift (tvb_get_ptr tvb start length)
  let item_length ← Dis.lift (get_hfi_length (hfinfo hf) tvb start length)
  Dis.lift (tvb_ensure_bytes_exist tvb start item_length)
  let bs ← Dis.lift (tvb_get_ptr tvb start item_length)
  Dis.add ⟨hf, start, item_length, .bytes bs⟩

/-- The epan data dissector, which displays octets no dissector accepted. -/
def dissect_data (tvb : Tvb) : Dis Unit := do
  if tvb.data.length ≠ 0 then
    Dis.add ⟨.proto_data, 0, tvb.data.length, .none⟩
    Dis.add ⟨.hf_data_data, 0, tvb.data.length, .bytes tvb.data⟩
    Dis.add ⟨.hf_data_len, 0, 0, .uint tvb.data.length⟩

/-- Library function `call_dissector`: a null handle fails the assertion on the handle; a
callee that returns 0 has rejected the data, which then go to the data
dissector and count as consumed. -/
def call_dissector (handle : Option Dissector) (tvb : Tvb) : Dis Int :=
  match handle with
  | none => Dis.lift (.error .DissectorError)
  | some h => do
    let ret ← Dis.call (h tvb)
    if ret = 0 then
      dissect_data tvb
      return tvb_captured_length tvb
    else
      return ret

/-! ## packet-axisp.c -/

/-- The list `header_flags` of `dissect_axisp` (lines 71-75). -/
def header_flags : List Hf := [.hf_axisp_sof]

/-- The list `tail_flags` of `dissect_axisp` (lines 90-94). -/
def tail_flags : List Hf := [.hf_axisp_eof]

/-- Source function `dissect_axisp` (packet-axisp.c lines 39-105). -/
def dissect_axisp (tvb : Tvb) : Dis Int := do
  proto_tree_add_item .proto_axisp tvb 0 (-1) .ENC_NA
  let mut offset : Int := 0
  -- CRC type and version are contained in the same byte
  let version_and_crc ← Dis.lift (tvb_get_guint8 tvb offset)
  proto_tree_add_uint .hf_axisp_crc_type tvb offset 1 (version_and_crc >>> 4)
  proto_tree_add_uint .hf_axisp_version tvb offset 1 (version_and_crc &&& 0xf)
  offset := offset + 1
  proto_tree_add_item .hf_axisp_tuser tvb offset 1 .ENC_LITTLE_ENDIAN
  offset := offset + 1
  proto_tree_add_item .hf_axisp_channel tvb offset 1 .ENC_LITTLE_ENDIAN
  offset := offset + 1
  proto_tree_add_item .hf_axisp_tid tvb offset 1 .ENC_LITTLE_ENDIAN
  offset := offset + 1
  proto_tree_add_item .hf_axisp_seq tvb offset 2 .ENC_LITTLE_ENDIAN
  offset := offset + 2
  -- there is an unused byte here
  offset := offset + 1
  proto_tree_add_bitmask tvb offset .hf_axisp_header_flags header_flags .ENC_LITTLE_ENDIAN
  offset := offset + 1
  -- now comes the payload, and after that, 8 bytes of tail
  let remaining_len := tvb_reported_length_remaining tvb offset
  proto_tree_add_bytes_format .hf_axisp_payload tvb offset (remaining_len - 8)
  offset := offset + (remaining_len - 8)
  proto_tree_add_item .hf_axisp_tuser_last tvb offset 1 .ENC_LITTLE_ENDIAN
  offset := offset + 1
  proto_tree_add_bitmask tvb offset .hf_axisp_tail_flags tail_flags .ENC_LITTLE_ENDIAN
  offset := offset + 1
  proto_tree_add_item .hf_axisp_last_byte_cnt tvb offset 1 .ENC_LITTLE_ENDIAN
  offset := offset + 2
  proto_tree_add_item .hf_axisp_crc tvb offset 2 .ENC_LITTLE_ENDIAN
  return tvb_reported_length tvb

/-! ## packet-rssi.c -/

/-- The list `syn_flags` of `dissect_syn_rssi_packet` (lines 90-94). -/
def syn_flags : List Hf := [.hf_rssi_syn_checksum_flag]

/-- The list `flags` of `dissect_rssi` (lines 167-176). -/
def flags : List Hf :=
  [.hf_rssi_flag_busy, .hf_rssi_flag_null, .hf_rssi_flag_rst, .hf_rssi_flag_eac,
   .hf_rssi_flag_ack, .hf_rssi_flag_syn]

/-- Source function `dissect_syn_rssi_packet` (packet-rssi.c lines 87-132). -/
def dissect_syn_rssi_packet (tvb : Tvb) (offset0 : Int) : Dis Int := do
  let mut offset := offset0
  -- 4 bits of version info are followed by 4 flag bits
  let flag_int ← proto_tree_add_bitmask_ret_uint64 tvb offset .hf_rssi_syn_flags syn_flags
    .ENC_BIG_ENDIAN
  proto_tree_add_uint .hf_rssi_version tvb offset 1 ((flag_int % 2 ^ 32) >>> 4)
  offset := offset + 1
  proto_tree_add_item .hf_rssi_max_outstanding_segments tvb offset 1 .ENC_BIG_ENDIAN
  offset := offset + 1
  proto_tree_add_item .hf_rssi_max_segment_size tvb offset 2 .ENC_BIG_ENDIAN
  offset := offset + 2
  proto_tree_add_item .hf_rssi_retransmission_timeout tvb offset 2 .ENC_BIG_ENDIAN
  offset := offset + 2
  proto_tree_add_item .hf_rssi_cumulative_ack_timeout tvb offset 2 .ENC_BIG_ENDIAN
  offset := offset + 2
  proto_tree_add_item .hf_rssi_null_timeout tvb offset 2 .ENC_BIG_ENDIAN
  offset := offset + 2
  proto_tree_add_item .hf_rssi_max_retransmissions tvb offset 1 .ENC_BIG_ENDIAN
  offset := offset + 1
  proto_tree_add_item .hf_rssi_max_cumulative_acks tvb offset 1 .ENC_BIG_ENDIAN
  offset := offset + 1
  proto_tree_add_item .hf_rssi_max_out_of_seq_ack tvb offset 1 .ENC_BIG_ENDIAN
  offset := offset + 1
  proto_tree_add_item .hf_rssi_timeout_unit tvb offset 1 .ENC_BIG_ENDIAN
  offset := offset + 1
  proto_tree_add_item .hf_rssi_conn_id tvb offset 4 .ENC_BIG_ENDIAN
  return tvb_reported_length tvb

/-- Source function `dissect_regular_rssi_packet` (packet-rssi.c lines 134-154); the result is
the offset of the payload. -/
def dissect_regular_rssi_packet (tvb : Tvb) (offset0 : Int) : Dis Int := do
  let mut offset := offset0
  -- there are 2 spare bytes after the ack number
  offset := offset + 2
  proto_tree_add_item .hf_rssi_checksum tvb offset 2 .ENC_BIG_ENDIAN
  offset := offset + 2
  -- all the remaining bytes in the packet are payload
  let remaining_len := tvb_reported_length_remaining tvb offset
  if remaining_len > 0 then
    proto_tree_add_bytes_format .hf_rssi_payload tvb offset (-1)
  -- the offset is not incremented: the payload goes to the next dissector
  return offset

/-- Source function `dissect_rssi` (packet-rssi.c lines 156-214).  `asp_handle` is the file's
static handle, set by `proto_reg_handoff_rssi` to `find_dissector("axisp")`:
`none` when no dissector of that name is registered. -/
def dissect_rssi (asp_handle : Option Dissector) (tvb : Tvb) : Dis Int := do
  proto_tree_add_item .proto_asp tvb 0 (-1) .ENC_NA
  let mut offset : Int := 0
  let flag_int ← proto_tree_add_bitmask_ret_uint64 tvb offset .hf_rssi_control_flags flags
    .ENC_BIG_ENDIAN
  offset := offset + 1
  -- the format of the remaining header differs between Syn and other packets
  let is_syn_packet : Bool := decide (flag_int &&& RSSI_FLAG_SYN ≠ 0)
  let _header_len ← proto_tree_add_item_ret_uint .hf_rssi_header_length tvb offset 1
    .ENC_BIG_ENDIAN
  offset := offset + 1
  proto_tree_add_item .hf_rssi_sequence_number tvb offset 1 .ENC_BIG_ENDIAN
  offset := offset + 1
  proto_tree_add_item .hf_rssi_ack_number tvb offset 1 .ENC_BIG_ENDIAN
  offset := offset + 1
  if is_syn_packet then
    dissect_syn_rssi_packet tvb offset
  else
    offset ← dissect_regular_rssi_packet tvb offset
    -- pass remaining data to the ASP dissector
    let next_tvb ← Dis.lift (tvb_new_subset_remaining tvb offset)
    if tvb_reported_length next_tvb > 0 then
      call_dissector asp_handle next_tvb
    else
      return tvb_reported_length tvb

/-- Source function `proto_reg_handoff_rssi` (packet-rssi.c lines 332-339): `asp_handle` is
what `find_dissector("axisp")` yields in the given registry of dissector
names. -/
def proto_reg_handoff_rssi (find_dissector : String → Option Dissector) : Option Dissector :=
  find_dissector "axisp"

/-- The registry after `proto_register_axisp` (packet-axisp.c line 174):
`dissect_axisp` is registered under the name "axisp". -/
def proto_register_axisp (registry : String → Option Dissector) : String → Option Dissector :=
  fun name => if name = "axisp" then some (create_dissector_handle dissect_axisp) else registry name

/-! ## Vocabulary of the statements -/

/-- The value `get_uint_value` yields when the octets are captured. -/
def read_uint (tvb : Tvb) (o : Nat) (length : Int) (encoding : Enc) : Nat :=
  let little := encoding = .ENC_LITTLE_ENDIAN
  if length = 1 then tvb.byte o
  else if length = 2 then
    (if little then tvb.byte o + 256 * tvb.byte (o + 1) else tvb.byte o * 256 + tvb.byte (o + 1))
  else if length = 3 then
    (if little then tvb.byte o + 256 * tvb.byte (o + 1) + 65536 * tvb.byte (o + 2)
      else tvb.byte o * 65536 + tvb.byte (o + 1) * 256 + tvb.byte (o + 2))
  else
    (if little then
        tvb.byte o + 256 * tvb.byte (o + 1) + 65536 * tvb.byte (o + 2) + 16777216 * tvb.byte (o + 3)
      else
        tvb.byte o * 16777216 + tvb.byte (o + 1) * 65536 + tvb.byte (o + 2) * 256 + tvb.byte (o + 3))

/-- The exception of a range check that fails: decided by the start of the range
when that is already outside the captured data, by its end otherwise. -/
def range_exn (tvb : Tvb) (offset len : Int) : Exn :=
  if offset.toNat ≤ tvb.data.length then bounds_exception tvb (offset.toNat + len.toNat)
  else bounds_exception tvb offset.toNat

/-- The flag item that `proto_item_add_bitmask_tree` adds for a one-octet flag. -/
def flag_item (offset : Int) (value : Nat) (f : Hf) : Item :=
  ⟨f, offset, 1, .boolean (decide (apply_bitmask (hfinfo f).bitmask value ≠ 0))⟩

/-- The items of one field in a tree, in order. -/
def fields_of (hf : Hf) (tree : List Item) : List Item :=
  tree.filter (fun it => decide (it.hf = hf))

/-- A piece of dissection only appends items, all of fields in `S`, whether it
ends with a value or with an exception. -/
def Adds (S : Hf → Prop) {α : Type} (m : Dis α) : Prop :=
  ∀ t, ∃ post, (m t).tree = t ++ post ∧ ∀ it ∈ post, S it.hf

/-- The byte range `[start, start + length)` of an item contains offset `i`. -/
def Item.covers (it : Item) (i : Int) : Prop := it.start ≤ i ∧ i < it.start + it.length

instance (it : Item) (i : Int) : Decidable (it.covers i) := by
  unfold Item.covers; infer_instance

/-- Header items of `dissect_axisp` for a buffer with 8 captured octets. -/
def axisp_header_items (tvb : Tvb) : List Item :=
  [⟨.proto_axisp, 0, tvb.data.length, .none⟩,
   ⟨.hf_axisp_crc_type, 0, 1, .uint (tvb.byte 0 >>> 4)⟩,
   ⟨.hf_axisp_version, 0, 1, .uint (tvb.byte 0 &&& 0xf)⟩,
   ⟨.hf_axisp_tuser, 1, 1, .uint (tvb.byte 1)⟩,
   ⟨.hf_axisp_channel, 2, 1, .uint (tvb.byte 2)⟩,
   ⟨.hf_axisp_tid, 3, 1, .uint (tvb.byte 3)⟩,
   ⟨.hf_axisp_seq, 4, 2, .uint (tvb.byte 4 + 256 * tvb.byte 5)⟩,
   ⟨.hf_axisp_header_flags, 7, 1, .uint (tvb.byte 7)⟩,
   ⟨.hf_axisp_sof, 7, 1, .boolean (decide (tvb.byte 7 &&& 0x80 ≠ 0))⟩]

/-- Payload and tail items of `dissect_axisp` for a payload of `n` octets. -/
def axisp_tail_items (tvb : Tvb) (n : Nat) : List Item :=
  [⟨.hf_axisp_payload, 8, n, .bytes ((tvb.data.drop 8).take n)⟩,
   ⟨.hf_axisp_tuser_last, n + 8, 1, .uint (tvb.byte (n + 8))⟩,
   ⟨.hf_axisp_tail_flags, n + 9, 1, .uint (tvb.byte (n + 9))⟩,
   ⟨.hf_axisp_eof, n + 9, 1, .boolean (decide (tvb.byte (n + 9) &&& 1 ≠ 0))⟩,
   ⟨.hf_axisp_last_byte_cnt, n + 10, 1, .uint (tvb.byte (n + 10))⟩,
   ⟨.hf_axisp_crc, n + 12, 2, .uint (tvb.byte (n + 12) + 256 * tvb.byte (n + 13))⟩]

/-- All items of a complete `dissect_axisp` run. -/
def axisp_items (tvb : Tvb) (n : Nat) : List Item :=
  axisp_header_items tvb ++ axisp_tail_items tvb n

/-- The fields of the AXISP payload and tail. -/
def axisp_tail_fields : List Hf :=
  [.hf_axisp_payload, .hf_axisp_tuser_last, .hf_axisp_tail_flags, .hf_axisp_eof,
   .hf_axisp_last_byte_cnt, .hf_axisp_crc]

/-- The seven items of the RSSI control-flags octet `b`, all at offset 0. -/
def rssi_flag_items (b : Nat) : List Item :=
  [⟨.hf_rssi_control_flags, 0, 1, .uint b⟩,
   ⟨.hf_rssi_flag_busy, 0, 1, .boolean (decide (b &&& 0x01 ≠ 0))⟩,
   ⟨.hf_rssi_flag_null, 0, 1, .boolean (decide (b &&& 0x08 ≠ 0))⟩,
   ⟨.hf_rssi_flag_rst, 0, 1, .boolean (decide (b &&& 0x10 ≠ 0))⟩,
   ⟨.hf_rssi_flag_eac, 0, 1, .boolean (decide (b &&& 0x20 ≠ 0))⟩,
   ⟨.hf_rssi_flag_ack, 0, 1, .boolean (decide (b &&& 0x40 ≠ 0))⟩,
   ⟨.hf_rssi_flag_syn, 0, 1, .boolean (decide (b &&& 0x80 ≠ 0))⟩]

/-- Items of the RSSI common header for a buffer with 4 captured octets. -/
def rssi_header_items (tvb : Tvb) : List Item :=
  ⟨.proto_asp, 0, tvb.data.length, .none⟩ :: rssi_flag_items (tvb.byte 0) ++
  [⟨.hf_rssi_header_length, 1, 1, .uint (tvb.byte 1)⟩,
   ⟨.hf_rssi_sequence_number, 2, 1, .uint (tvb.byte 2)⟩,
   ⟨.hf_rssi_ack_number, 3, 1, .uint (tvb.byte 3)⟩]

/-- Items of the SYN branch for a buffer with 22 captured octets. -/
def rssi_syn_items (tvb : Tvb) : List Item :=
  [⟨.hf_rssi_syn_flags, 4, 1, .uint (tvb.byte 4)⟩,
   ⟨.hf_rssi_syn_checksum_flag, 4, 1, .boolean (decide (tvb.byte 4 &&& 0x04 ≠ 0))⟩,
   ⟨.hf_rssi_version, 4, 1, .uint (tvb.byte 4 >>> 4)⟩,
   ⟨.hf_rssi_max_outstanding_segments, 5, 1, .uint (tvb.byte 5)⟩,
   ⟨.hf_rssi_max_segment_size, 6, 2, .uint (tvb.byte 6 * 256 + tvb.byte 7)⟩,
   ⟨.hf_rssi_retransmission_timeout, 8, 2, .uint (tvb.byte 8 * 256 + tvb.byte 9)⟩,
   ⟨.hf_rssi_cumulative_ack_timeout, 10, 2, .uint (tvb.byte 10 * 256 + tvb.byte 11)⟩,
   ⟨.hf_rssi_null_timeout, 12, 2, .uint (tvb.byte 12 * 256 + tvb.byte 13)⟩,
   ⟨.hf_rssi_max_retransmissions, 14, 1, .uint (tvb.byte 14)⟩,
   ⟨.hf_rssi_max_cumulative_acks, 15, 1, .uint (tvb.byte 15)⟩,
   ⟨.hf_rssi_max_out_of_seq_ack, 16, 1, .uint (tvb.byte 16)⟩,
   ⟨.hf_rssi_timeout_unit, 17, 1, .uint (tvb.byte 17)⟩,
   ⟨.hf_rssi_conn_id, 18, 4,
     .uint (tvb.byte 18 * 16777216 + tvb.byte 19 * 65536 + tvb.byte 20 * 256 + tvb.byte 21)⟩]

/-- The fields of the RSSI common header. -/
def rssi_header_fields : List Hf :=
  [.proto_asp, .hf_rssi_control_flags, .hf_rssi_flag_busy, .hf_rssi_flag_null,
   .hf_rssi_flag_rst, .hf_rssi_flag_eac, .hf_rssi_flag_ack, .hf_rssi_flag_syn,
   .hf_rssi_header_length, .hf_rssi_sequence_number, .hf_rssi_ack_number]

/-- The fields of the RSSI SYN branch. -/
def rssi_syn_fields : List Hf :=
  [.hf_rssi_syn_flags, .hf_rssi_syn_checksum_flag, .hf_rssi_version,
   .hf_rssi_max_outstanding_segments, .hf_rssi_max_segment_size,
   .hf_rssi_retransmission_timeout, .hf_rssi_cumulative_ack_timeout, .hf_rssi_null_timeout,
   .hf_rssi_max_retransmissions, .hf_rssi_max_cumulative_acks, .hf_rssi_max_out_of_seq_ack,
   .hf_rssi_timeout_unit, .hf_rssi_conn_id]

/-- The else branch of `dissect_rssi` (packet-rssi.c lines 199-213), entered
with the cursor at `offset0`. -/
def rssi_regular_branch (asp_handle : Option Dissector) (tvb : Tvb) (offset0 : Int) :
    Dis Int := do
  let offset ← dissect_regular_rssi_packet tvb offset0
  let next_tvb ← Dis.lift (tvb_new_subset_remaining tvb offset)
  if tvb_reported_length next_tvb > 0 then
    call_dissector asp_handle next_tvb
  else
    return tvb_reported_length tvb

/-- The residual view that `dissect_rssi` hands to the next dissector. -/
def rssi_next_tvb (tvb : Tvb) : Tvb :=
  ⟨tvb.data.drop 8, tvb.reported_length - 8, tvb.raw_offset + 8⟩

/-- An exception of the two bounds kinds. -/
def Exn.isBounds : Exn → Bool
  | .BoundsError => true
  | .ReportedBoundsError => true
  | .DissectorError => false

/-- A result that is an exception of a bounds kind. -/
def failsBounds {α : Type} (r : Except Exn α) : Prop :=
  ∃ e, r = .error e ∧ e.isBounds = true

/-! ### Sample buffers -/

/-- A 20-octet frame of which the capture holds the first 18 octets. -/
def axisp_cut18 : Tvb :=
  ⟨[0x14, 0, 0, 0, 1, 0x23, 0, 0x80, 0xAA, 0xBB, 0xCC, 0xDD, 0, 1, 0, 0, 0, 0], 20, 0⟩

/-- A completely captured frame of 15 octets. -/
def axisp_frame15 : Tvb :=
  Tvb.ofBytes [0x14, 0, 0, 0, 1, 0x23, 0, 0x80, 1, 2, 3, 4, 5, 6, 7]

/-- A frame of 12 octets of which 9 are captured. -/
def axisp_short12 : Tvb := ⟨[0x14, 0, 0, 0, 1, 0x23, 0, 0x80, 1], 12, 0⟩

/-- A completely captured SYN packet of 20 octets: the common header
`80 0c 00 00` and 16 more octets. -/
def rssi_syn20 : Tvb :=
  Tvb.ofBytes [0x80, 0x0c, 0, 0, 0x14, 1, 2, 3, 4, 5, 6, 7, 8, 9, 10, 11, 12, 13, 14, 15]

/-- A completely captured SYN packet of 22 octets. -/
def rssi_syn22 : Tvb :=
  Tvb.ofBytes [0x80, 0x0c, 0, 0, 0x14, 1, 2, 3, 4, 5, 6, 7, 8, 9, 10, 11, 12, 13, 14, 15,
    16, 17]

/-- A completely captured SYN packet of 22 octets followed by 3 more octets. -/
def rssi_syn25 : Tvb :=
  Tvb.ofBytes [0x80, 0x0c, 0, 0, 0x14, 1, 2, 3, 4, 5, 6, 7, 8, 9, 10, 11, 12, 13, 14, 15,
    16, 17, 0xAA, 0xBB, 0xCC]

/-- A completely captured regular packet of 8 octets (ACK set, no payload). -/
def rssi_reg8 : Tvb := Tvb.ofBytes [0x40, 8, 1, 2, 0, 0, 0x12, 0x34]

/-- A completely captured regular packet with a payload of one octet. -/
def rssi_reg9 : Tvb := Tvb.ofBytes [0x40, 8, 1, 2, 0, 0, 0x12, 0x34, 7]

/-- A completely captured buffer of 3 octets. -/
def rssi_short3 : Tvb := Tvb.ofBytes [0x40, 8, 1]

/-- The 20-octet AXISP frame of the specification's scenario: header
`14 00 00 00 01 23 00 80`, payload `AA BB CC DD`, tail `00 01 00 00 00 00 12 34`. -/
def axisp_frame20 : Tvb :=
  Tvb.ofBytes [0x14, 0, 0, 0, 1, 0x23, 0, 0x80, 0xAA, 0xBB, 0xCC, 0xDD, 0, 1, 0, 0, 0, 0,
    0x12, 0x34]

/-- A completely captured regular packet that carries `axisp_frame20`. -/
def rssi_reg28 : Tvb := Tvb.ofBytes ([0x40, 8, 1, 2, 0, 0, 0x12, 0x34] ++ axisp_frame20.data)

/-- The OR of the masks of the flag items that are decoded as true. -/
def or_masks (items : List Item) : Nat :=
  items.foldl (fun acc it =>
    match it.value with
    | .boolean true => acc ||| (hfinfo it.hf).bitmask
    | _ => acc) 0

/-- The items `dissect_rssi` adds itself for a regular packet with payload. -/
def rssi_regular_items (tvb : Tvb) : List Item :=
  rssi_header_items tvb ++
    [⟨.hf_rssi_checksum, 6, 2, .uint (tvb.byte 6 * 256 + tvb.byte 7)⟩,
     ⟨.hf_rssi_payload, 8, (tvb.data.length : Int) - 8, .bytes (tvb.data.drop 8)⟩]

/-- The byte range of an item lies inside a buffer of reported length `L`. -/
def Item.in_range (it : Item) (L : Nat) : Prop :=
  0 ≤ it.start ∧ 0 ≤ it.length ∧ it.start + it.length ≤ L

instance (it : Item) (L : Nat) : Decidable (it.in_range L) := by
  unfold Item.in_range; infer_instance

/-- Payload and tail items of `dissect_axisp` on a buffer of reported length 15:
the payload runs to the end of the captured octets and the tail is read from
offset 7 on. -/
def axisp_tail_items15 (tvb : Tvb) : List Item :=
  [⟨.hf_axisp_payload, 8, (tvb.data.length : Int) - 8, .bytes (tvb.data.drop 8)⟩,
   ⟨.hf_axisp_tuser_last, 7, 1, .uint (tvb.byte 7)⟩,
   ⟨.hf_axisp_tail_flags, 8, 1, .uint (tvb.byte 8)⟩,
   ⟨.hf_axisp_eof, 8, 1, .boolean (decide (tvb.byte 8 &&& 1 ≠ 0))⟩,
   ⟨.hf_axisp_last_byte_cnt, 9, 1, .uint (tvb.byte 9)⟩,
   ⟨.hf_axisp_crc, 11, 2, .uint (tvb.byte 11 + 256 * tvb.byte 12)⟩]

/-- A frame of 20 octets of which the first 10 are captured. -/
def axisp_cut10 : Tvb := ⟨[0x14, 0, 0, 0, 1, 0x23, 0, 0x80, 0xAA, 0xBB], 20, 0⟩

/-- A completely captured SYN packet of 21 octets. -/
def rssi_syn21 : Tvb :=
  Tvb.ofBytes [0x80, 0x0c, 0, 0, 0x14, 1, 2, 3, 4, 5, 6, 7, 8, 9, 10, 11, 12, 13, 14, 15, 16]

/-- The part of `dissect_rssi` before the branch (packet-rssi.c lines 162-193):
the common header; the result is the flag `is_syn_packet`. -/
def rssi_common_header (tvb : Tvb) : Dis Bool := do
  proto_tree_add_item .proto_asp tvb 0 (-1) .ENC_NA
  let flag_int ← proto_tree_add_bitmask_ret_uint64 tvb 0 .hf_rssi_control_flags flags
    .ENC_BIG_ENDIAN
  let _header_len ← proto_tree_add_item_ret_uint .hf_rssi_header_length tvb 1 1 .ENC_BIG_ENDIAN
  proto_tree_add_item .hf_rssi_sequence_number tvb 2 1 .ENC_BIG_ENDIAN
  proto_tree_add_item .hf_rssi_ack_number tvb 3 1 .ENC_BIG_ENDIAN
  return decide (flag_int &&& RSSI_FLAG_SYN ≠ 0)

/-- The part of `dissect_axisp` up to the header flags (packet-axisp.c lines
45-78). -/
def axisp_header_part (tvb : Tvb) : Dis Unit := do
  proto_tree_add_item .proto_axisp tvb 0 (-1) .ENC_NA
  let version_and_crc ← Dis.lift (tvb_get_guint8 tvb 0)
  proto_tree_add_uint .hf_axisp_crc_type tvb 0 1 (version_and_crc >>> 4)
  proto_tree_add_uint .hf_axisp_version tvb 0 1 (version_and_crc &&& 0xf)
  proto_tree_add_item .hf_axisp_tuser tvb 1 1 .ENC_LITTLE_ENDIAN
  proto_tree_add_item .hf_axisp_channel tvb 2 1 .ENC_LITTLE_ENDIAN
  proto_tree_add_item .hf_axisp_tid tvb 3 1 .ENC_LITTLE_ENDIAN
  proto_tree_add_item .hf_axisp_seq tvb 4 2 .ENC_LITTLE_ENDIAN
  proto_tree_add_bitmask tvb 7 .hf_axisp_header_flags header_flags .ENC_LITTLE_ENDIAN

/-- The part of `dissect_axisp` from the payload on (packet-axisp.c lines
80-104), with the cursor at 8. -/
def axisp_tail_part (tvb : Tvb) : Dis Int := do
  let mut offset : Int := 8
  let remaining_len := tvb_reported_length_remaining tvb offset
  proto_tree_add_bytes_format .hf_axisp_payload tvb offset (remaining_len - 8)
  offset := offset + (remaining_len - 8)
  proto_tree_add_item .hf_axisp_tuser_last tvb offset 1 .ENC_LITTLE_ENDIAN
  offset := offset + 1
  proto_tree_add_bitmask tvb offset .hf_axisp_tail_flags tail_flags .ENC_LITTLE_ENDIAN
  offset := offset + 1
  proto_tree_add_item .hf_axisp_last_byte_cnt tvb offset 1 .ENC_LITTLE_ENDIAN
  offset := offset + 2
  proto_tree_add_item .hf_axisp_crc tvb offset 2 .ENC_LITTLE_ENDIAN
  return tvb_reported_length tvb


/-! ## The local `offset` of the dissector functions

The same functions once more, with every value the local variable `offset`
takes recorded in a log: its initial value, and its value after each
assignment. -/

/-- A dissection step that also records the values of `offset`. -/
def Tr (α : Type) : Type := List Item → List Int × Outcome α

/-- Sequencing: the log of the second step follows that of the first; an
exception ends the run. -/
def Tr.bind {α β : Type} (m : Tr α) (f : α → Tr β) : Tr β := fun t =>
  match m t with
  | (c1, ⟨t1, .ok a⟩) => (c1 ++ (f a t1).1, (f a t1).2)
  | (c1, ⟨t1, .error e⟩) => (c1, ⟨t1, .error e⟩)

instance : Monad Tr where
  pure a := fun t => ([], ⟨t, .ok a⟩)
  bind := Tr.bind

/-- A step that does not touch `offset`. -/
def Tr.lift {α : Type} (m : Dis α) : Tr α := fun t => ([], m t)

/-- Record a value of `offset`. -/
def Tr.cursor (offset : Int) : Tr Unit := fun t => ([offset], ⟨t, .ok ()⟩)

/-- The dissection without the log. -/
def Tr.erase {α : Type} (m : Tr α) : Dis α := fun t => (m t).2

/-- The values of `offset` during a run on an empty tree. -/
def Tr.log {α : Type} (m : Tr α) : List Int := (m []).1

/-- Source function `dissect_axisp` (packet-axisp.c lines 39-105) with the values of `offset`
recorded. -/
def dissect_axisp_cursor (tvb : Tvb) : Tr Int := do
  Tr.lift (proto_tree_add_item .proto_axisp tvb 0 (-1) .ENC_NA)
  let mut offset : Int := 0
  Tr.cursor offset
  let version_and_crc ← Tr.lift (Dis.lift (tvb_get_guint8 tvb offset))
  Tr.lift (proto_tree_add_uint .hf_axisp_crc_type tvb offset 1 (version_and_crc >>> 4))
  Tr.lift (proto_tree_add_uint .hf_axisp_version tvb offset 1 (version_and_crc &&& 0xf))
  offset := offset + 1
  Tr.cursor offset
  Tr.lift (proto_tree_add_item .hf_axisp_tuser tvb offset 1 .ENC_LITTLE_ENDIAN)
  offset := offset + 1
  Tr.cursor offset
  Tr.lift (proto_tree_add_item .hf_axisp_channel tvb offset 1 .ENC_LITTLE_ENDIAN)
  offset := offset + 1
  Tr.cursor offset
  Tr.lift (proto_tree_add_item .hf_axisp_tid tvb offset 1 .ENC_LITTLE_ENDIAN)
  offset := offset + 1
  Tr.cursor offset
  Tr.lift (proto_tree_add_item .hf_axisp_seq tvb offset 2 .ENC_LITTLE_ENDIAN)
  offset := offset + 2
  Tr.cursor offset
  offset := offset + 1
  Tr.cursor offset
  Tr.lift (proto_tree_add_bitmask tvb offset .hf_axisp_header_flags header_flags
    .ENC_LITTLE_ENDIAN)
  offset := offset + 1
  Tr.cursor offset
  let remaining_len := tvb_reported_length_remaining tvb offset
  Tr.lift (proto_tree_add_bytes_format .hf_axisp_payload tvb offset (remaining_len - 8))
  offset := offset + (remaining_len - 8)
  Tr.cursor offset
  Tr.lift (proto_tree_add_item .hf_axisp_tuser_last tvb offset 1 .ENC_LITTLE_ENDIAN)
  offset := offset + 1
  Tr.cursor offset
  Tr.lift (proto_tree_add_bitmask tvb offset .hf_axisp_tail_flags tail_flags
    .ENC_LITTLE_ENDIAN)
  offset := offset + 1
  Tr.cursor offset
  Tr.lift (proto_tree_add_item .hf_axisp_last_byte_cnt tvb offset 1 .ENC_LITTLE_ENDIAN)
  offset := offset + 2
  Tr.cursor offset
  Tr.lift (proto_tree_add_item .hf_axisp_crc tvb offset 2 .ENC_LITTLE_ENDIAN)
  return tvb_reported_length tvb

/-- Source function `dissect_syn_rssi_packet` (packet-rssi.c lines 87-132) with the values of
its `offset` recorded. -/
def dissect_syn_rssi_packet_cursor (tvb : Tvb) (offset0 : Int) : Tr Int := do
  let mut offset := offset0
  Tr.cursor offset
  let flag_int ← Tr.lift (proto_tree_add_bitmask_ret_uint64 tvb offset .hf_rssi_syn_flags
    syn_flags .ENC_BIG_ENDIAN)
  Tr.lift (proto_tree_add_uint .hf_rssi_version tvb offset 1 ((flag_int % 2 ^ 32) >>> 4))
  offset := offset + 1
  Tr.cursor offset
  Tr.lift (proto_tree_add_item .hf_rssi_max_outstanding_segments tvb offset 1 .ENC_BIG_ENDIAN)
  offset := offset + 1
  Tr.cursor offset
  Tr.lift (proto_tree_add_item .hf_rssi_max_segment_size tvb offset 2 .ENC_BIG_ENDIAN)
  offset := offset + 2
  Tr.cursor offset
  Tr.lift (proto_tree_add_item .hf_rssi_retransmission_timeout tvb offset 2 .ENC_BIG_ENDIAN)
  offset := offset + 2
  Tr.cursor offset
  Tr.lift (proto_tree_add_item .hf_rssi_cumulative_ack_timeout tvb offset 2 .ENC_BIG_ENDIAN)
  offset := offset + 2
  Tr.cursor offset
  Tr.lift (proto_tree_add_item .hf_rssi_null_timeout tvb offset 2 .ENC_BIG_ENDIAN)
  offset := offset + 2
  Tr.cursor offset
  Tr.lift (proto_tree_add_item .hf_rssi_max_retransmissions tvb offset 1 .ENC_BIG_ENDIAN)
  offset := offset + 1
  Tr.cursor offset
  Tr.lift (proto_tree_add_item .hf_rssi_max_cumulative_acks tvb offset 1 .ENC_BIG_ENDIAN)
  offset := offset + 1
  Tr.cursor offset
  Tr.lift (proto_tree_add_item .hf_rssi_max_out_of_seq_ack tvb offset 1 .ENC_BIG_ENDIAN)
  offset := offset + 1
  Tr.cursor offset
  Tr.lift (proto_tree_add_item .hf_rssi_timeout_unit tvb offset 1 .ENC_BIG_ENDIAN)
  offset := offset + 1
  Tr.cursor offset
  Tr.lift (proto_tree_add_item .hf_rssi_conn_id tvb offset 4 .ENC_BIG_ENDIAN)
  return tvb_reported_length tvb

/-- Source function `dissect_regular_rssi_packet` (packet-rssi.c lines 134-154) with the values
of its `offset` recorded. -/
def dissect_regular_rssi_packet_cursor (tvb : Tvb) (offset0 : Int) : Tr Int := do
  let mut offset := offset0
  Tr.cursor offset
  offset := offset + 2
  Tr.cursor offset
  Tr.lift (proto_tree_add_item .hf_rssi_checksum tvb offset 2 .ENC_BIG_ENDIAN)
  offset := offset + 2
  Tr.cursor offset
  let remaining_len := tvb_reported_length_remaining tvb offset
  if remaining_len > 0 then
    Tr.lift (proto_tree_add_bytes_format .hf_rssi_payload tvb offset (-1))
  return offset

/-- Source function `dissect_rssi` (packet-rssi.c lines 156-214) with the values of `offset`
recorded, those of the branch helpers included. -/
def dissect_rssi_cursor (asp_handle : Option Dissector) (tvb : Tvb) : Tr Int := do
  Tr.lift (proto_tree_add_item .proto_asp tvb 0 (-1) .ENC_NA)
  let mut offset : Int := 0
  Tr.cursor offset
  let flag_int ← Tr.lift (proto_tree_add_bitmask_ret_uint64 tvb offset .hf_rssi_control_flags
    flags .ENC_BIG_ENDIAN)
  offset := offset + 1
  Tr.cursor offset
  let is_syn_packet : Bool := decide (flag_int &&& RSSI_FLAG_SYN ≠ 0)
  let _header_len ← Tr.lift (proto_tree_add_item_ret_uint .hf_rssi_header_length tvb offset 1
    .ENC_BIG_ENDIAN)
  offset := offset + 1
  Tr.cursor offset
  Tr.lift (proto_tree_add_item .hf_rssi_sequence_number tvb offset 1 .ENC_BIG_ENDIAN)
  offset := offset + 1
  Tr.cursor offset
  Tr.lift (proto_tree_add_item .hf_rssi_ack_number tvb offset 1 .ENC_BIG_ENDIAN)
  offset := offset + 1
  Tr.cursor offset
  if is_syn_packet then
    dissect_syn_rssi_packet_cursor tvb offset
  else
    offset ← dissect_regular_rssi_packet_cursor tvb offset
    Tr.cursor offset
    let next_tvb ← Tr.lift (Dis.lift (tvb_new_subset_remaining tvb offset))
    if tvb_reported_length next_tvb > 0 then
      Tr.lift (call_dissector asp_handle next_tvb)
    else
      return tvb_reported_length tvb

/-- The log of a step is non-decreasing and starts at `lo` or above. -/
def Tr.Mono {α : Type} (lo : Int) (m : Tr α) : Prop :=
  ∀ t, (m t).1.Pairwise (fun a b => a ≤ b) ∧ ∀ x ∈ (m t).1, lo ≤ x

/-! ## Evaluation lemmas for the library calls -/

theorem compute_offset_ok (tvb : Tvb) (offset : Int) (h0 : 0 ≤ offset)
    (h : offset ≤ tvb.data.length) : compute_offset tvb offset = .ok offset.toNat := by
  unfold compute_offset
  rw [if_pos h0, if_pos (by omega)]

theorem check_offset_length_ok (tvb : Tvb) (offset len : Int) (h0 : 0 ≤ offset) (hl : 0 ≤ len)
    (h : offset + len ≤ tvb.data.length) :
    check_offset_length tvb offset len = .ok (offset.toNat, len.toNat) := by
  unfold check_offset_length
  rw [compute_offset_ok tvb offset h0 (by omega)]
  have h1 : ¬ len < -1 := by omega
  have h2 : ¬ len = -1 := by omega
  have h3 : offset.toNat + len.toNat ≤ tvb.data.length := by omega
  simp [h1, h2, h3, validate_offset]

theorem tvb_ensure_bytes_exist_ok (tvb : Tvb) (offset len : Int) (h0 : 0 ≤ offset)
    (hl : 0 ≤ len) (h : offset + len ≤ tvb.data.length) :
    tvb_ensure_bytes_exist tvb offset len = .ok () := by
  unfold tvb_ensure_bytes_exist
  rw [if_neg (by omega), check_offset_length_ok tvb offset len h0 hl h]

theorem get_uint_value_ok (tvb : Tvb) (offset length : Int) (encoding : Enc) (h0 : 0 ≤ offset)
    (hl : 1 ≤ length) (h : offset + length ≤ tvb.data.length) :
    get_uint_value tvb offset length encoding = .ok (read_uint tvb offset.toNat length encoding) := by
  unfold get_uint_value read_uint
  by_cases h1 : length = 1
  · simp [h1, tvb_get_guint8, check_offset_length_ok tvb offset 1 h0 (by omega) (by omega)]
  by_cases h2 : length = 2
  · simp [h2, tvb_get_letohs, tvb_get_ntohs,
      check_offset_length_ok tvb offset 2 h0 (by omega) (by omega)]
    split <;> rfl
  by_cases h3 : length = 3
  · simp [h3, tvb_get_letoh24, tvb_get_ntoh24,
      check_offset_length_ok tvb offset 3 h0 (by omega) (by omega)]
    split <;> rfl
  have h4 : ¬ length < 1 := by omega
  simp [h1, h2, h3, h4, tvb_get_letohl, tvb_get_ntohl,
    check_offset_length_ok tvb offset 4 h0 (by omega) (by omega)]
  split <;> rfl

theorem proto_tree_add_item_uint_ok (hf : Hf) (tvb : Tvb) (start length : Int) (encoding : Enc)
    (t : List Item)
    (hty : (hfinfo hf).ftype = .FT_UINT8 ∨ (hfinfo hf).ftype = .FT_UINT16 ∨
      (hfinfo hf).ftype = .FT_UINT32)
    (hm : (hfinfo hf).bitmask = 0) (h0 : 0 ≤ start) (hl : 1 ≤ length)
    (h : start + length ≤ tvb.data.length) :
    proto_tree_add_item hf tvb start length encoding t =
      ⟨t ++ [⟨hf, start, length, .uint (read_uint tvb start.toNat length encoding)⟩], .ok ()⟩ := by
  have hg : get_hfi_length (hfinfo hf) tvb start length = .ok length := by
    unfold get_hfi_length
    have h1 : ¬ length = -1 := by omega
    have h2 : ¬ length < 0 := by omega
    have h3 : ¬ (hfinfo hf).ftype = .FT_PROTOCOL := by
      rcases hty with h | h | h <;> simp [h]
    simp [h1, h2, h3]
  have hv : fetch_value (hfinfo hf) tvb start length encoding
      = .ok (.uint (read_uint tvb start.toNat length encoding)) := by
    unfold fetch_value
    rcases hty with h1 | h1 | h1 <;>
      simp [h1, get_uint_value_ok tvb start length encoding h0 hl h, apply_bitmask, hm]
  simp [proto_tree_add_item, bind, Dis.bind, Dis.lift, Dis.add, hg, hv,
    tvb_ensure_bytes_exist_ok tvb start length h0 (by omega) h]

theorem proto_tree_add_item_proto_ok (hf : Hf) (tvb : Tvb) (t : List Item)
    (hty : (hfinfo hf).ftype = .FT_PROTOCOL) :
    proto_tree_add_item hf tvb 0 (-1) .ENC_NA t =
      ⟨t ++ [⟨hf, 0, tvb.data.length, .none⟩], .ok ()⟩ := by
  have hg : get_hfi_length (hfinfo hf) tvb 0 (-1) = .ok (tvb.data.length : Int) := by
    unfold get_hfi_length
    by_cases hc : tvb.data.length = 0
    · simp [hty, hc]
    · simp [hty, hc, tvb_ensure_captured_length_remaining, compute_offset]
  have hv : fetch_value (hfinfo hf) tvb 0 (tvb.data.length : Int) .ENC_NA = .ok .none := by
    simp [fetch_value, hty]
  simp [proto_tree_add_item, bind, Dis.bind, Dis.lift, Dis.add, hg, hv,
    tvb_ensure_bytes_exist_ok tvb 0 (tvb.data.length : Int) (by omega) (by omega) (by omega)]

theorem proto_tree_add_uint_ok (hf : Hf) (tvb : Tvb) (start length : Int) (value : Nat)
    (t : List Item)
    (hty : (hfinfo hf).ftype = .FT_UINT8 ∨ (hfinfo hf).ftype = .FT_UINT16 ∨
      (hfinfo hf).ftype = .FT_UINT32)
    (hm : (hfinfo hf).bitmask = 0) (hl : 0 ≤ length) :
    proto_tree_add_uint hf tvb start length value t =
      ⟨t ++ [⟨hf, start, length, .uint value⟩], .ok ()⟩ := by
  have hg : get_hfi_length (hfinfo hf) tvb start length = .ok length := by
    unfold get_hfi_length
    have h1 : ¬ length = -1 := by omega
    have h2 : ¬ length < 0 := by omega
    have h3 : ¬ (hfinfo hf).ftype = .FT_PROTOCOL := by
      rcases hty with h | h | h <;> simp [h]
    simp [h1, h2, h3]
  simp [proto_tree_add_uint, bind, Dis.bind, Dis.lift, Dis.add, hg, apply_bitmask, hm]

theorem proto_tree_add_boolean64_ok (hf : Hf) (tvb : Tvb) (start length : Int) (value : Nat)
    (t : List Item) (hty : (hfinfo hf).ftype = .FT_BOOLEAN) (hl : 0 ≤ length) :
    proto_tree_add_boolean64 hf tvb start length value t =
      ⟨t ++ [⟨hf, start, length,
        .boolean (decide (apply_bitmask (hfinfo hf).bitmask value ≠ 0))⟩], .ok ()⟩ := by
  have hg : get_hfi_length (hfinfo hf) tvb start length = .ok length := by
    unfold get_hfi_length
    have h1 : ¬ length = -1 := by omega
    have h2 : ¬ length < 0 := by omega
    simp [h1, h2, hty]
  simp [proto_tree_add_boolean64, bind, Dis.bind, Dis.lift, Dis.add, hg]

theorem proto_item_add_bitmask_tree_ok (tvb : Tvb) (offset : Int) (value : Nat)
    (fields : List Hf) (t : List Item)
    (hf : ∀ f ∈ fields, (hfinfo f).ftype = .FT_BOOLEAN ∧
      255 &&& (hfinfo f).bitmask = (hfinfo f).bitmask) :
    proto_item_add_bitmask_tree tvb offset 1 value fields t =
      ⟨t ++ fields.map (flag_item offset value), .ok ()⟩ := by
  induction fields generalizing t with
  | nil => simp [proto_item_add_bitmask_tree, pure]
  | cons f fs ih =>
    have h1 := hf f (List.mem_cons_self f fs)
    have h2 : ∀ g ∈ fs, (hfinfo g).ftype = .FT_BOOLEAN ∧
        255 &&& (hfinfo g).bitmask = (hfinfo g).bitmask :=
      fun g hg => hf g (List.mem_cons_of_mem f hg)
    simp [proto_item_add_bitmask_tree, bind, Dis.bind, h1.1, h1.2,
      proto_tree_add_boolean64_ok f tvb offset 1 value _ h1.1 (by omega), ih _ h2, flag_item]


theorem proto_tree_add_bitmask_ok (tvb : Tvb) (offset : Int) (hf_hdr : Hf) (fields : List Hf)
    (encoding : Enc) (t : List Item)
    (hty : (hfinfo hf_hdr).ftype = .FT_UINT8) (hm : (hfinfo hf_hdr).bitmask = 0)
    (hfl : ∀ f ∈ fields, (hfinfo f).ftype = .FT_BOOLEAN ∧
      255 &&& (hfinfo f).bitmask = (hfinfo f).bitmask)
    (h0 : 0 ≤ offset) (h : offset + 1 ≤ tvb.data.length) :
    proto_tree_add_bitmask tvb offset hf_hdr fields encoding t =
      ⟨t ++ ⟨hf_hdr, offset, 1, .uint (tvb.byte offset.toNat)⟩ ::
        fields.map (flag_item offset (tvb.byte offset.toNat)), .ok ()⟩ := by
  have hr : read_uint tvb offset.toNat 1 encoding = tvb.byte offset.toNat := by
    simp [read_uint]
  simp [proto_tree_add_bitmask, bind, Dis.bind, Dis.lift, hty, ftype_wire_size,
    proto_tree_add_item_uint_ok hf_hdr tvb offset 1 encoding t (Or.inl hty) hm h0 (by omega) h,
    get_uint_value_ok tvb offset 1 encoding h0 (by omega) h, hr,
    proto_item_add_bitmask_tree_ok tvb offset _ fields _ hfl]

theorem proto_tree_add_bitmask_ret_uint64_ok (tvb : Tvb) (offset : Int) (hf_hdr : Hf)
    (fields : List Hf) (encoding : Enc) (t : List Item)
    (hty : (hfinfo hf_hdr).ftype = .FT_UINT8) (hm : (hfinfo hf_hdr).bitmask = 0)
    (hfl : ∀ f ∈ fields, (hfinfo f).ftype = .FT_BOOLEAN ∧
      255 &&& (hfinfo f).bitmask = (hfinfo f).bitmask)
    (h0 : 0 ≤ offset) (h : offset + 1 ≤ tvb.data.length) :
    proto_tree_add_bitmask_ret_uint64 tvb offset hf_hdr fields encoding t =
      ⟨t ++ ⟨hf_hdr, offset, 1, .uint (tvb.byte offset.toNat)⟩ ::
        fields.map (flag_item offset (tvb.byte offset.toNat)),
        .ok (tvb.byte offset.toNat)⟩ := by
  have hr : read_uint tvb offset.toNat 1 encoding = tvb.byte offset.toNat := by
    simp [read_uint]
  simp [proto_tree_add_bitmask_ret_uint64, bind, Dis.bind, Dis.lift, hty, ftype_wire_size,
    proto_tree_add_item_uint_ok hf_hdr tvb offset 1 encoding t (Or.inl hty) hm h0 (by omega) h,
    get_uint_value_ok tvb offset 1 encoding h0 (by omega) h, hr,
    proto_item_add_bitmask_tree_ok tvb offset _ fields _ hfl, pure, apply_bitmask, hm]

theorem tvb_reported_length_remaining_ok (tvb : Tvb) (offset : Int) (hwf : tvb.wf)
    (h0 : 0 ≤ offset) (h : offset ≤ tvb.data.length) :
    tvb_reported_length_remaining tvb offset = (tvb.reported_length : Int) - offset := by
  unfold Tvb.wf at hwf
  unfold tvb_reported_length_remaining
  rw [compute_offset_ok tvb offset h0 h]
  have h1 : offset.toNat ≤ tvb.reported_length := by omega
  simp only [h1, if_true]
  omega

theorem tvb_get_ptr_ok (tvb : Tvb) (offset len : Int) (h0 : 0 ≤ offset) (hl : 0 ≤ len)
    (h : offset + len ≤ tvb.data.length) :
    tvb_get_ptr tvb offset len = .ok ((tvb.data.drop offset.toNat).take len.toNat) := by
  simp [tvb_get_ptr, check_offset_length_ok tvb offset len h0 hl h]

theorem proto_tree_add_bytes_format_ok (hf : Hf) (tvb : Tvb) (start length : Int)
    (t : List Item) (hty : (hfinfo hf).ftype = .FT_BYTES) (h0 : 0 ≤ start) (hl : 0 ≤ length)
    (h : start + length ≤ tvb.data.length) :
    proto_tree_add_bytes_format hf tvb start length t =
      ⟨t ++ [⟨hf, start, length, .bytes ((tvb.data.drop start.toNat).take length.toNat)⟩],
        .ok ()⟩ := by
  have hg : get_hfi_length (hfinfo hf) tvb start length = .ok length := by
    unfold get_hfi_length
    have h1 : ¬ length = -1 := by omega
    have h2 : ¬ length < 0 := by omega
    simp [h1, h2, hty]
  simp [proto_tree_add_bytes_format, bind, Dis.bind, Dis.lift, Dis.add, hg,
    tvb_get_ptr_ok tvb start length h0 hl h, tvb_ensure_bytes_exist_ok tvb start length h0 hl h]

theorem read_uint_1 (tvb : Tvb) (o : Nat) (encoding : Enc) :
    read_uint tvb o 1 encoding = tvb.byte o := by
  simp [read_uint]

theorem read_uint_2le (tvb : Tvb) (o : Nat) :
    read_uint tvb o 2 .ENC_LITTLE_ENDIAN = tvb.byte o + 256 * tvb.byte (o + 1) := by
  simp [read_uint]

theorem read_uint_2be (tvb : Tvb) (o : Nat) :
    read_uint tvb o 2 .ENC_BIG_ENDIAN = tvb.byte o * 256 + tvb.byte (o + 1) := by
  simp [read_uint]

theorem read_uint_4be (tvb : Tvb) (o : Nat) :
    read_uint tvb o 4 .ENC_BIG_ENDIAN =
      tvb.byte o * 16777216 + tvb.byte (o + 1) * 65536 + tvb.byte (o + 2) * 256
        + tvb.byte (o + 3) := by
  simp [read_uint]

set_option maxRecDepth 100000 in
theorem flag_bit (m : Nat) (hm : m ∈ [1, 4, 8, 16, 32, 64, 128]) (v : Fin 256) :
    decide (apply_bitmask m v.val ≠ 0) = decide (v.val &&& m ≠ 0) := by
  revert v m
  decide

theorem flag_bit_byte (tvb : Tvb) (i m : Nat) (hm : m ∈ [1, 4, 8, 16, 32, 64, 128]) :
    decide (apply_bitmask m (tvb.byte i) ≠ 0) = decide (tvb.byte i &&& m ≠ 0) :=
  flag_bit m hm _

theorem dissect_axisp_ok (tvb : Tvb) (n : Nat) (t : List Item)
    (hL : tvb.reported_length = n + 16) (hc : n + 14 ≤ tvb.data.length) (hwf : tvb.wf) :
    dissect_axisp tvb t = ⟨t ++ axisp_items tvb n, .ok (n + 16)⟩ := by
  have hrem : tvb_reported_length_remaining tvb 8 = (n : Int) + 8 := by
    rw [tvb_reported_length_remaining_ok tvb 8 hwf (by omega) (by omega), hL]; push_cast; omega
  have e1 : ((n : Int) + 8).toNat = n + 8 := by omega
  have e2 : ((n : Int) + 9).toNat = n + 9 := by omega
  have e3 : ((n : Int) + 10).toNat = n + 10 := by omega
  have e4 : ((n : Int) + 12).toNat = n + 12 := by omega
  simp (disch := first | omega | decide) only [dissect_axisp, bind, Dis.bind, Dis.lift,
    Int.reduceAdd, hrem, add_sub_cancel_right,
    proto_tree_add_item_proto_ok, proto_tree_add_uint_ok, proto_tree_add_item_uint_ok,
    proto_tree_add_bitmask_ok, proto_tree_add_bytes_format_ok, tvb_get_guint8,
    check_offset_length_ok]
  have i1 : (8 : Int) + n = n + 8 := by omega
  simp only [axisp_items, axisp_header_items, axisp_tail_items, read_uint_1, read_uint_2le, flag_item, header_flags, tail_flags, pure,
    tvb_reported_length, hL, hfinfo, axisp_FLAG_SOF, axisp_FLAG_EOF, List.map,
    flag_bit_byte _ _ _ (by decide : (128 : Nat) ∈ [1, 4, 8, 16, 32, 64, 128]),
    flag_bit_byte _ _ _ (by decide : (1 : Nat) ∈ [1, 4, 8, 16, 32, 64, 128]),
    List.append_assoc, List.cons_append, List.nil_append, i1, add_assoc, Int.reduceAdd,
    Nat.reduceAdd, Int.toNat_ofNat, Int.reduceToNat, Nat.cast_add, Nat.cast_ofNat,
    e1, e2, e3, e4]


/-! ### Failing range checks -/

theorem check_offset_length_fail (tvb : Tvb) (offset len : Int) (h0 : 0 ≤ offset)
    (hl : 0 ≤ len) (h : (tvb.data.length : Int) < offset + len) :
    check_offset_length tvb offset len = .error (range_exn tvb offset len) := by
  unfold check_offset_length compute_offset range_exn
  rw [if_pos h0]
  by_cases h1 : offset.toNat ≤ tvb.data.length
  · have h2 : ¬ len < -1 := by omega
    have h3 : ¬ len = -1 := by omega
    have h4 : ¬ offset.toNat + len.toNat ≤ tvb.data.length := by omega
    simp [h1, h2, h3, h4, validate_offset]
  · simp [h1]

theorem tvb_ensure_bytes_exist_fail (tvb : Tvb) (offset len : Int) (h0 : 0 ≤ offset)
    (hl : 0 ≤ len) (h : (tvb.data.length : Int) < offset + len) :
    tvb_ensure_bytes_exist tvb offset len = .error (range_exn tvb offset len) := by
  unfold tvb_ensure_bytes_exist
  rw [if_neg (by omega), check_offset_length_fail tvb offset len h0 hl h]

theorem range_exn_isBounds (tvb : Tvb) (offset len : Int) :
    (range_exn tvb offset len).isBounds = true := by
  unfold range_exn bounds_exception
  split <;> split <;> rfl

theorem range_exn_reported (tvb : Tvb) (offset len : Int) (h0 : 0 ≤ offset) (hl : 0 ≤ len)
    (hfull : tvb.data.length = tvb.reported_length)
    (h : (tvb.data.length : Int) < offset + len) :
    range_exn tvb offset len = .ReportedBoundsError := by
  unfold range_exn bounds_exception
  by_cases h1 : offset.toNat ≤ tvb.data.length
  · have h2 : ¬ offset.toNat + len.toNat ≤ tvb.reported_length := by omega
    simp [h1, h2]
  · have h2 : ¬ offset.toNat ≤ tvb.reported_length := by omega
    simp [h1, h2]

theorem get_hfi_length_uint (hf : Hf) (tvb : Tvb) (start length : Int)
    (hty : (hfinfo hf).ftype ≠ .FT_PROTOCOL) (hl : 0 ≤ length) :
    get_hfi_length (hfinfo hf) tvb start length = .ok length := by
  unfold get_hfi_length
  have h1 : ¬ length = -1 := by omega
  have h2 : ¬ length < 0 := by omega
  simp [h1, h2, hty]

theorem proto_tree_add_item_uint_fail (hf : Hf) (tvb : Tvb) (start length : Int)
    (encoding : Enc) (t : List Item) (hty : (hfinfo hf).ftype ≠ .FT_PROTOCOL)
    (h0 : 0 ≤ start) (hl : 0 ≤ length) (h : (tvb.data.length : Int) < start + length) :
    proto_tree_add_item hf tvb start length encoding t =
      ⟨t, .error (range_exn tvb start length)⟩ := by
  simp [proto_tree_add_item, bind, Dis.bind, Dis.lift,
    get_hfi_length_uint hf tvb start length hty hl,
    tvb_ensure_bytes_exist_fail tvb start length h0 hl h]

theorem proto_tree_add_bitmask_fail (tvb : Tvb) (offset : Int) (hf_hdr : Hf)
    (fields : List Hf) (encoding : Enc) (t : List Item)
    (hty : (hfinfo hf_hdr).ftype = .FT_UINT8) (h0 : 0 ≤ offset)
    (h : (tvb.data.length : Int) < offset + 1) :
    proto_tree_add_bitmask tvb offset hf_hdr fields encoding t =
      ⟨t, .error (range_exn tvb offset 1)⟩ := by
  simp [proto_tree_add_bitmask, bind, Dis.bind, hty, ftype_wire_size,
    proto_tree_add_item_uint_fail hf_hdr tvb offset 1 encoding t (by simp [hty]) h0
      (by omega) h]

theorem proto_tree_add_bitmask_ret_uint64_fail (tvb : Tvb) (offset : Int) (hf_hdr : Hf)
    (fields : List Hf) (encoding : Enc) (t : List Item)
    (hty : (hfinfo hf_hdr).ftype = .FT_UINT8) (h0 : 0 ≤ offset)
    (h : (tvb.data.length : Int) < offset + 1) :
    proto_tree_add_bitmask_ret_uint64 tvb offset hf_hdr fields encoding t =
      ⟨t, .error (range_exn tvb offset 1)⟩ := by
  simp [proto_tree_add_bitmask_ret_uint64, bind, Dis.bind, Dis.lift, hty, ftype_wire_size,
    get_uint_value, tvb_get_guint8, check_offset_length_fail tvb offset 1 h0 (by omega) h]

theorem proto_tree_add_item_ret_uint_ok (hf : Hf) (tvb : Tvb) (start : Int) (encoding : Enc)
    (t : List Item) (hm : (hfinfo hf).bitmask = 0) (h0 : 0 ≤ start)
    (h : start + 1 ≤ tvb.data.length) :
    proto_tree_add_item_ret_uint hf tvb start 1 encoding t =
      ⟨t ++ [⟨hf, start, 1, .uint (tvb.byte start.toNat)⟩], .ok (tvb.byte start.toNat)⟩ := by
  simp [proto_tree_add_item_ret_uint, bind, Dis.bind, Dis.lift, Dis.add, pure, apply_bitmask, hm,
    get_uint_value, tvb_get_guint8, check_offset_length_ok tvb start 1 h0 (by omega) h]

theorem proto_tree_add_item_ret_uint_fail (hf : Hf) (tvb : Tvb) (start : Int)
    (encoding : Enc) (t : List Item) (h0 : 0 ≤ start)
    (h : (tvb.data.length : Int) < start + 1) :
    proto_tree_add_item_ret_uint hf tvb start 1 encoding t =
      ⟨t, .error (range_exn tvb start 1)⟩ := by
  simp [proto_tree_add_item_ret_uint, bind, Dis.bind, Dis.lift, pure,
    get_uint_value, tvb_get_guint8, check_offset_length_fail tvb start 1 h0 (by omega) h]

theorem proto_tree_add_bytes_format_neg (hf : Hf) (tvb : Tvb) (start length : Int)
    (t : List Item) (h0 : 0 ≤ start) (h : start ≤ tvb.data.length) (hl : length < -1) :
    proto_tree_add_bytes_format hf tvb start length t = ⟨t, .error .BoundsError⟩ := by
  simp [proto_tree_add_bytes_format, bind, Dis.bind, Dis.lift, tvb_get_ptr,
    check_offset_length, compute_offset_ok tvb start h0 h, hl]

theorem proto_tree_add_bytes_format_rest (hf : Hf) (tvb : Tvb) (start : Int) (t : List Item)
    (hty : (hfinfo hf).ftype = .FT_BYTES) (h0 : 0 ≤ start) (h : start < tvb.data.length) :
    proto_tree_add_bytes_format hf tvb start (-1) t =
      ⟨t ++ [⟨hf, start, (tvb.data.length : Int) - start, .bytes (tvb.data.drop start.toNat)⟩],
        .ok ()⟩ := by
  have hco : compute_offset tvb start = .ok start.toNat := compute_offset_ok tvb start h0 (by omega)
  have hlen : ((tvb.data.length - start.toNat : Nat) : Int) = (tvb.data.length : Int) - start := by
    omega
  have hne : ¬ tvb.data.length = 0 := by omega
  have hne2 : ¬ tvb.data.length - start.toNat = 0 := by omega
  have hg : get_hfi_length (hfinfo hf) tvb start (-1) = .ok ((tvb.data.length : Int) - start) := by
    simp [get_hfi_length, hty, hne, tvb_ensure_captured_length_remaining, hco, hne2, hlen]
  have hv : start.toNat + (tvb.data.length - start.toNat) ≤ tvb.data.length := by omega
  have hp : tvb_get_ptr tvb start (-1) = .ok (tvb.data.drop start.toNat) := by
    simp [tvb_get_ptr, check_offset_length, hco, validate_offset, hv]
  have hp2 : tvb_get_ptr tvb start ((tvb.data.length : Int) - start)
      = .ok (tvb.data.drop start.toNat) := by
    rw [tvb_get_ptr_ok tvb start _ h0 (by omega) (by omega)]
    simp
    omega
  simp [proto_tree_add_bytes_format, bind, Dis.bind, Dis.lift, Dis.add, hg, hp, hp2,
    tvb_ensure_bytes_exist_ok tvb start ((tvb.data.length : Int) - start) h0 (by omega)
      (by omega)]

theorem proto_tree_add_bytes_format_rest_fail (hf : Hf) (tvb : Tvb) (start : Int)
    (t : List Item) (hty : (hfinfo hf).ftype = .FT_BYTES) (h0 : 0 < start)
    (h : start = tvb.data.length) (hr : tvb.data.length < tvb.reported_length) :
    proto_tree_add_bytes_format hf tvb start (-1) t = ⟨t, .error .BoundsError⟩ := by
  have hco : compute_offset tvb start = .ok start.toNat :=
    compute_offset_ok tvb start (by omega) (by omega)
  have hne : ¬ tvb.data.length = 0 := by omega
  have hz : tvb.data.length - start.toNat = 0 := by omega
  have hlt : start.toNat < tvb.reported_length := by omega
  have hg : get_hfi_length (hfinfo hf) tvb start (-1) = .error .BoundsError := by
    simp [get_hfi_length, hty, hne, tvb_ensure_captured_length_remaining, hco, hz, hlt]
  have hv : start ≤ tvb.data.length := by omega
  have hd : tvb.data.drop start.toNat = [] := List.drop_eq_nil_of_le (by omega)
  have hp : tvb_get_ptr tvb start (-1) = .ok (tvb.data.drop start.toNat) := by
    simp [tvb_get_ptr, check_offset_length, hco, validate_offset, hz, hv, hd]
  simp [proto_tree_add_bytes_format, bind, Dis.bind, Dis.lift, hg, hp]

theorem tvb_new_subset_remaining_ok (tvb : Tvb) (offset : Int) (h0 : 0 ≤ offset)
    (h : offset ≤ tvb.data.length) :
    tvb_new_subset_remaining tvb offset =
      .ok ⟨tvb.data.drop offset.toNat, tvb.reported_length - offset.toNat,
        tvb.raw_offset + offset.toNat⟩ := by
  have hco : compute_offset tvb offset = .ok offset.toNat := compute_offset_ok tvb offset h0 h
  have hv : offset.toNat + (tvb.data.length - offset.toNat) ≤ tvb.data.length := by omega
  simp [tvb_new_subset_remaining, check_offset_length, hco, validate_offset, hv]


/-! ### Monad laws and the split of the dissectors -/

theorem Dis.bind_assoc {α β γ : Type} (m : Dis α) (f : α → Dis β) (g : β → Dis γ) :
    (Bind.bind (Bind.bind m f) g : Dis γ) = Bind.bind m (fun a => Bind.bind (f a) g) := by
  funext t
  show Dis.bind (Dis.bind m f) g t = Dis.bind m (fun a => Dis.bind (f a) g) t
  unfold Dis.bind
  rcases m t with ⟨t1, _ | a⟩ <;> rfl

theorem Dis.pure_bind {α β : Type} (a : α) (f : α → Dis β) :
    (Bind.bind (Pure.pure a) f : Dis β) = f a := by
  funext t
  rfl

theorem dissect_axisp_split (tvb : Tvb) :
    dissect_axisp tvb = Bind.bind (axisp_header_part tvb) (fun _ => axisp_tail_part tvb) := by
  simp only [dissect_axisp, axisp_header_part, axisp_tail_part, Dis.bind_assoc, Int.reduceAdd]

theorem dissect_rssi_split (asp_handle : Option Dissector) (tvb : Tvb) :
    dissect_rssi asp_handle tvb = Bind.bind (rssi_common_header tvb) (fun is_syn_packet =>
      if is_syn_packet = true then dissect_syn_rssi_packet tvb 4
      else rssi_regular_branch asp_handle tvb 4) := by
  simp only [dissect_rssi, rssi_common_header, rssi_regular_branch, Dis.bind_assoc,
    Dis.pure_bind, Int.reduceAdd]


/-! ### Dissection only appends to the tree -/

theorem Adds.mono {S T : Hf → Prop} {α : Type} {m : Dis α} (hm : Adds S m)
    (h : ∀ x, S x → T x) : Adds T m := by
  intro t
  obtain ⟨post, h1, h2⟩ := hm t
  exact ⟨post, h1, fun it hit => h _ (h2 it hit)⟩

theorem Adds.pure_ {S : Hf → Prop} {α : Type} (a : α) : Adds S (Pure.pure a : Dis α) := by
  intro t
  exact ⟨[], by simp [pure], by simp⟩

theorem Adds.lift {S : Hf → Prop} {α : Type} (r : Except Exn α) : Adds S (Dis.lift r) := by
  intro t
  exact ⟨[], by simp [Dis.lift], by simp⟩

theorem Adds.add {S : Hf → Prop} (it : Item) (h : S it.hf) : Adds S (Dis.add it) := by
  intro t
  exact ⟨[it], by simp [Dis.add], by simpa using h⟩

theorem Adds.call {S : Hf → Prop} {α : Type} (o : Outcome α) (h : ∀ it ∈ o.tree, S it.hf) :
    Adds S (Dis.call o) := by
  intro t
  exact ⟨o.tree, by simp [Dis.call], h⟩

theorem Adds.bind {S : Hf → Prop} {α β : Type} {m : Dis α} {f : α → Dis β} (hm : Adds S m)
    (hf : ∀ a, Adds S (f a)) : Adds S (Bind.bind m f) := by
  intro t
  obtain ⟨p1, h1, h2⟩ := hm t
  show ∃ post, (Dis.bind m f t).tree = t ++ post ∧ _
  unfold Dis.bind
  rcases hmt : m t with ⟨t1, e | a⟩
  · rw [hmt] at h1
    exact ⟨p1, h1, h2⟩
  · rw [hmt] at h1
    obtain ⟨p2, h3, h4⟩ := hf a t1
    simp only at h1
    subst h1
    refine ⟨p1 ++ p2, ?_, ?_⟩
    · simp only [h3, List.append_assoc]
    · intro it hit
      rcases List.mem_append.mp hit with h | h
      · exact h2 it h
      · exact h4 it h

theorem adds_proto_tree_add_item {S : Hf → Prop} (hf : Hf) (tvb : Tvb) (start length : Int)
    (encoding : Enc) (h : S hf) : Adds S (proto_tree_add_item hf tvb start length encoding) := by
  unfold proto_tree_add_item
  exact Adds.bind (Adds.lift _) fun _ => Adds.bind (Adds.lift _) fun _ =>
    Adds.bind (Adds.lift _) fun _ => Adds.add ⟨hf, _, _, _⟩ h

theorem adds_proto_tree_add_item_ret_uint {S : Hf → Prop} (hf : Hf) (tvb : Tvb)
    (start length : Int) (encoding : Enc) (h : S hf) :
    Adds S (proto_tree_add_item_ret_uint hf tvb start length encoding) := by
  unfold proto_tree_add_item_ret_uint
  have hrest : ∀ y : PUnit, Adds S (do
      let value ← Dis.lift (get_uint_value tvb start length encoding)
      Dis.add ⟨hf, start, length, .uint (apply_bitmask (hfinfo hf).bitmask value)⟩
      pure (apply_bitmask (hfinfo hf).bitmask value) : Dis Nat) := fun _ =>
    Adds.bind (Adds.lift _) fun _ => Adds.bind (Adds.add ⟨hf, _, _, _⟩ h) fun _ => Adds.pure_ _
  dsimp only
  split
  · exact Adds.bind (Adds.lift _) hrest
  · exact Adds.bind (Adds.pure_ _) hrest

theorem adds_proto_tree_add_uint {S : Hf → Prop} (hf : Hf) (tvb : Tvb) (start length : Int)
    (value : Nat) (h : S hf) : Adds S (proto_tree_add_uint hf tvb start length value) := by
  unfold proto_tree_add_uint
  exact Adds.bind (Adds.lift _) fun _ => Adds.add ⟨hf, _, _, _⟩ h

theorem adds_proto_tree_add_boolean64 {S : Hf → Prop} (hf : Hf) (tvb : Tvb)
    (start length : Int) (value : Nat) (h : S hf) :
    Adds S (proto_tree_add_boolean64 hf tvb start length value) := by
  unfold proto_tree_add_boolean64
  exact Adds.bind (Adds.lift _) fun _ => Adds.add ⟨hf, _, _, _⟩ h

theorem adds_proto_item_add_bitmask_tree {S : Hf → Prop} (tvb : Tvb) (offset len : Int)
    (value : Nat) (fields : List Hf) (h : ∀ f ∈ fields, S f) :
    Adds S (proto_item_add_bitmask_tree tvb offset len value fields) := by
  induction fields with
  | nil => exact Adds.pure_ _
  | cons f fs ih =>
    unfold proto_item_add_bitmask_tree
    have hf : S f := h f (List.mem_cons_self f fs)
    have hrest := ih fun g hg => h g (List.mem_cons_of_mem f hg)
    dsimp only
    by_cases hfit : (if 0 < len then 2 ^ (8 * len.toNat) - 1 else 2 ^ 64 - 1) &&&
        (hfinfo f).bitmask = (hfinfo f).bitmask
    · rw [if_pos hfit]
      split
      · exact Adds.bind (adds_proto_tree_add_boolean64 _ _ _ _ _ hf) fun _ => hrest
      · exact Adds.bind (adds_proto_tree_add_uint _ _ _ _ _ hf) fun _ => hrest
    · rw [if_neg hfit]
      exact Adds.bind (Adds.pure_ _) fun _ => hrest

theorem adds_proto_tree_add_bitmask {S : Hf → Prop} (tvb : Tvb) (offset : Int) (hf_hdr : Hf)
    (fields : List Hf) (encoding : Enc) (h0 : S hf_hdr) (h : ∀ f ∈ fields, S f) :
    Adds S (proto_tree_add_bitmask tvb offset hf_hdr fields encoding) := by
  unfold proto_tree_add_bitmask
  exact Adds.bind (adds_proto_tree_add_item _ _ _ _ _ h0) fun _ =>
    Adds.bind (Adds.lift _) fun _ => adds_proto_item_add_bitmask_tree _ _ _ _ _ h

theorem adds_proto_tree_add_bitmask_ret_uint64 {S : Hf → Prop} (tvb : Tvb) (offset : Int)
    (hf_hdr : Hf) (fields : List Hf) (encoding : Enc) (h0 : S hf_hdr)
    (h : ∀ f ∈ fields, S f) :
    Adds S (proto_tree_add_bitmask_ret_uint64 tvb offset hf_hdr fields encoding) := by
  unfold proto_tree_add_bitmask_ret_uint64
  exact Adds.bind (Adds.lift _) fun _ => Adds.bind (adds_proto_tree_add_item _ _ _ _ _ h0)
    fun _ => Adds.bind (adds_proto_item_add_bitmask_tree _ _ _ _ _ h) fun _ => Adds.pure_ _

theorem adds_proto_tree_add_bytes_format {S : Hf → Prop} (hf : Hf) (tvb : Tvb)
    (start length : Int) (h : S hf) : Adds S (proto_tree_add_bytes_format hf tvb start length) := by
  unfold proto_tree_add_bytes_format
  exact Adds.bind (Adds.lift _) fun _ => Adds.bind (Adds.lift _) fun _ =>
    Adds.bind (Adds.lift _) fun _ => Adds.bind (Adds.lift _) fun _ =>
      Adds.add ⟨hf, _, _, _⟩ h

theorem adds_dissect_syn_rssi_packet (tvb : Tvb) (offset0 : Int) :
    Adds (fun x => x ∈ rssi_syn_fields) (dissect_syn_rssi_packet tvb offset0) := by
  unfold dissect_syn_rssi_packet
  refine Adds.bind (adds_proto_tree_add_bitmask_ret_uint64 _ _ _ _ _ (by decide) (by decide))
    fun _ => ?_
  refine Adds.bind (adds_proto_tree_add_uint _ _ _ _ _ (by decide)) fun _ => ?_
  iterate 10 refine Adds.bind (adds_proto_tree_add_item _ _ _ _ _ (by decide)) fun _ => ?_
  exact Adds.pure_ _

theorem adds_rssi_common_header (tvb : Tvb) :
    Adds (fun x => x ∈ rssi_header_fields) (rssi_common_header tvb) := by
  unfold rssi_common_header
  refine Adds.bind (adds_proto_tree_add_item _ _ _ _ _ (by decide)) fun _ => ?_
  refine Adds.bind (adds_proto_tree_add_bitmask_ret_uint64 _ _ _ _ _ (by decide) (by decide))
    fun _ => ?_
  refine Adds.bind (adds_proto_tree_add_item_ret_uint _ _ _ _ _ (by decide)) fun _ => ?_
  iterate 2 refine Adds.bind (adds_proto_tree_add_item _ _ _ _ _ (by decide)) fun _ => ?_
  exact Adds.pure_ _

theorem adds_axisp_tail_part (tvb : Tvb) :
    Adds (fun x => x ∈ axisp_tail_fields) (axisp_tail_part tvb) := by
  unfold axisp_tail_part
  refine Adds.bind (adds_proto_tree_add_bytes_format _ _ _ _ (by decide)) fun _ => ?_
  refine Adds.bind (adds_proto_tree_add_item _ _ _ _ _ (by decide)) fun _ => ?_
  refine Adds.bind (adds_proto_tree_add_bitmask _ _ _ _ _ (by decide) (by decide)) fun _ => ?_
  iterate 2 refine Adds.bind (adds_proto_tree_add_item _ _ _ _ _ (by decide)) fun _ => ?_
  exact Adds.pure_ _

theorem adds_call_dissector (asp_handle : Option Dissector) (tvb : Tvb) :
    Adds (fun _ => True) (call_dissector asp_handle tvb) := by
  unfold call_dissector
  cases asp_handle with
  | none => exact Adds.lift _
  | some h =>
    refine Adds.bind (Adds.call _ fun _ _ => trivial) fun ret => ?_
    split
    · refine Adds.bind ?_ fun _ => Adds.pure_ _
      unfold dissect_data
      split
      · exact Adds.bind (Adds.add _ trivial) fun _ =>
          Adds.bind (Adds.add _ trivial) fun _ => Adds.add _ trivial
      · exact Adds.pure_ _
    · exact Adds.pure_ _

theorem adds_dissect_regular_rssi_packet (tvb : Tvb) (offset0 : Int) :
    Adds (fun _ => True) (dissect_regular_rssi_packet tvb offset0) := by
  unfold dissect_regular_rssi_packet
  refine Adds.bind (adds_proto_tree_add_item _ _ _ _ _ trivial) fun _ => ?_
  dsimp only
  split
  · exact Adds.bind (adds_proto_tree_add_bytes_format _ _ _ _ trivial) fun _ => Adds.pure_ _
  · exact Adds.bind (Adds.pure_ _) fun _ => Adds.pure_ _

theorem adds_rssi_regular_branch (asp_handle : Option Dissector) (tvb : Tvb) (offset0 : Int) :
    Adds (fun _ => True) (rssi_regular_branch asp_handle tvb offset0) := by
  unfold rssi_regular_branch
  refine Adds.bind (adds_dissect_regular_rssi_packet _ _) fun _ => ?_
  refine Adds.bind (Adds.lift _) fun next_tvb => ?_
  split
  · exact adds_call_dissector _ _
  · exact Adds.pure_ _

theorem Dis.bind_error {α β : Type} (m : Dis α) (f : α → Dis β) (t t1 : List Item) (e : Exn)
    (h : m t = ⟨t1, .error e⟩) : (Bind.bind m f : Dis β) t = ⟨t1, .error e⟩ := by
  show Dis.bind m f t = _
  unfold Dis.bind
  rw [h]

theorem Dis.bind_ok {α β : Type} (m : Dis α) (f : α → Dis β) (t t1 : List Item) (a : α)
    (h : m t = ⟨t1, .ok a⟩) : (Bind.bind m f : Dis β) t = f a t1 := by
  show Dis.bind m f t = _
  unfold Dis.bind
  rw [h]


/-! ### Evaluation of the parts of the dissectors -/

theorem flag_items_rssi (tvb : Tvb) :
    flags.map (flag_item 0 (tvb.byte 0)) = (rssi_flag_items (tvb.byte 0)).tail := by
  simp only [flags, rssi_flag_items, List.map, flag_item, hfinfo, RSSI_FLAG_BUSY, RSSI_FLAG_NULL,
    RSSI_FLAG_RST, RSSI_FLAG_EAC, RSSI_FLAG_ACK, RSSI_FLAG_SYN, Nat.reduceShiftLeft, List.tail,
    flag_bit_byte _ _ _ (by decide : (1 : Nat) ∈ [1, 4, 8, 16, 32, 64, 128]),
    flag_bit_byte _ _ _ (by decide : (8 : Nat) ∈ [1, 4, 8, 16, 32, 64, 128]),
    flag_bit_byte _ _ _ (by decide : (16 : Nat) ∈ [1, 4, 8, 16, 32, 64, 128]),
    flag_bit_byte _ _ _ (by decide : (32 : Nat) ∈ [1, 4, 8, 16, 32, 64, 128]),
    flag_bit_byte _ _ _ (by decide : (64 : Nat) ∈ [1, 4, 8, 16, 32, 64, 128]),
    flag_bit_byte _ _ _ (by decide : (128 : Nat) ∈ [1, 4, 8, 16, 32, 64, 128])]

theorem rssi_common_header_ok (tvb : Tvb) (t : List Item) (hc : 4 ≤ tvb.data.length) :
    rssi_common_header tvb t =
      ⟨t ++ rssi_header_items tvb, .ok (decide (tvb.byte 0 &&& 0x80 ≠ 0))⟩ := by
  simp (disch := first | omega | decide) only [rssi_common_header, bind, Dis.bind,
    proto_tree_add_item_proto_ok, proto_tree_add_item_uint_ok,
    proto_tree_add_bitmask_ret_uint64_ok, proto_tree_add_item_ret_uint_ok]
  simp only [rssi_header_items, rssi_flag_items, flag_items_rssi, List.tail, read_uint_1, pure,
    Int.toNat_ofNat, Int.reduceToNat, List.append_assoc, List.cons_append, List.nil_append,
    RSSI_FLAG_SYN, Nat.reduceShiftLeft]

theorem rssi_common_header_short (tvb : Tvb) (t : List Item) (hc : tvb.data.length < 4) :
    ∃ t1 e, rssi_common_header tvb t = ⟨t1, .error e⟩ ∧ e.isBounds = true ∧
      (tvb.data.length = tvb.reported_length → e = .ReportedBoundsError) := by
  have hcases : tvb.data.length < 1 ∨ tvb.data.length = 1 ∨ tvb.data.length = 2 ∨
      tvb.data.length = 3 := by omega
  rcases hcases with h | h | h | h
  all_goals
    simp (disch := first | omega | decide) only [rssi_common_header, bind, Dis.bind,
      proto_tree_add_item_proto_ok, proto_tree_add_item_uint_ok, proto_tree_add_item_uint_fail,
      proto_tree_add_bitmask_ret_uint64_ok, proto_tree_add_bitmask_ret_uint64_fail,
      proto_tree_add_item_ret_uint_ok, proto_tree_add_item_ret_uint_fail]
  all_goals
    exact ⟨_, _, rfl, range_exn_isBounds _ _ _,
      fun hfull => range_exn_reported _ _ _ (by omega) (by omega) hfull (by omega)⟩

theorem syn_flag_items (tvb : Tvb) :
    syn_flags.map (flag_item 4 (tvb.byte 4)) =
      [⟨.hf_rssi_syn_checksum_flag, 4, 1, .boolean (decide (tvb.byte 4 &&& 0x04 ≠ 0))⟩] := by
  simp only [syn_flags, List.map, flag_item, hfinfo, RSSI_SYN_FLAG_CHECKSUM,
    Nat.reduceShiftLeft,
    flag_bit_byte _ _ _ (by decide : (4 : Nat) ∈ [1, 4, 8, 16, 32, 64, 128])]

theorem byte_lt (tvb : Tvb) (i : Nat) : tvb.byte i < 256 := by
  unfold Tvb.byte
  exact (tvb.data.getD i 0).isLt

theorem dissect_syn_rssi_packet_ok (tvb : Tvb) (t : List Item) (hc : 22 ≤ tvb.data.length) :
    dissect_syn_rssi_packet tvb 4 t =
      ⟨t ++ rssi_syn_items tvb, .ok (tvb.reported_length : Int)⟩ := by
  have hmod : tvb.byte 4 % 2 ^ 32 = tvb.byte 4 := Nat.mod_eq_of_lt (by
    have := byte_lt tvb 4
    omega)
  simp (disch := first | omega | decide) only [dissect_syn_rssi_packet, bind, Dis.bind,
    Int.reduceAdd, proto_tree_add_item_uint_ok, proto_tree_add_uint_ok,
    proto_tree_add_bitmask_ret_uint64_ok]
  simp only [rssi_syn_items, syn_flag_items, read_uint_1, read_uint_2be, read_uint_4be, pure,
    Int.toNat_ofNat, Int.reduceToNat, List.append_assoc, List.cons_append, List.nil_append,
    Nat.reduceAdd, tvb_reported_length, hmod]

theorem dissect_syn_rssi_packet_short (tvb : Tvb) (t : List Item)
    (hc : tvb.data.length < 22) :
    ∃ t1 e, dissect_syn_rssi_packet tvb 4 t = ⟨t1, .error e⟩ ∧ e.isBounds = true ∧
      (tvb.data.length = tvb.reported_length → e = .ReportedBoundsError) := by
  have hcases : tvb.data.length < 5 ∨ tvb.data.length = 5 ∨
      (6 ≤ tvb.data.length ∧ tvb.data.length < 8) ∨
      (8 ≤ tvb.data.length ∧ tvb.data.length < 10) ∨
      (10 ≤ tvb.data.length ∧ tvb.data.length < 12) ∨
      (12 ≤ tvb.data.length ∧ tvb.data.length < 14) ∨
      tvb.data.length = 14 ∨ tvb.data.length = 15 ∨ tvb.data.length = 16 ∨
      tvb.data.length = 17 ∨ (18 ≤ tvb.data.length ∧ tvb.data.length < 22) := by omega
  rcases hcases with h | h | h | h | h | h | h | h | h | h | h
  all_goals
    simp (disch := first | omega | decide) only [dissect_syn_rssi_packet, bind, Dis.bind,
      Int.reduceAdd, proto_tree_add_item_uint_ok, proto_tree_add_item_uint_fail,
      proto_tree_add_uint_ok, proto_tree_add_bitmask_ret_uint64_ok,
      proto_tree_add_bitmask_ret_uint64_fail]
  all_goals
    exact ⟨_, _, rfl, range_exn_isBounds _ _ _,
      fun hfull => range_exn_reported _ _ _ (by omega) (by omega) hfull (by omega)⟩

theorem axisp_header_part_ok (tvb : Tvb) (t : List Item) (hc : 8 ≤ tvb.data.length) :
    axisp_header_part tvb t = ⟨t ++ axisp_header_items tvb, .ok ()⟩ := by
  simp (disch := first | omega | decide) only [axisp_header_part, bind, Dis.bind, Dis.lift,
    proto_tree_add_item_proto_ok, proto_tree_add_uint_ok, proto_tree_add_item_uint_ok,
    proto_tree_add_bitmask_ok, tvb_get_guint8, check_offset_length_ok]
  simp only [axisp_header_items, read_uint_1, read_uint_2le, flag_item, header_flags,
    hfinfo, axisp_FLAG_SOF, List.map,
    flag_bit_byte _ _ _ (by decide : (128 : Nat) ∈ [1, 4, 8, 16, 32, 64, 128]),
    List.append_assoc, List.cons_append, List.nil_append, Nat.reduceAdd, Int.toNat_ofNat,
    Int.reduceToNat]

theorem dissect_regular_rssi_packet_empty (tvb : Tvb) (t : List Item)
    (hc : 8 ≤ tvb.data.length) (hL : tvb.reported_length = 8) :
    dissect_regular_rssi_packet tvb 4 t =
      ⟨t ++ [⟨.hf_rssi_checksum, 6, 2, .uint (tvb.byte 6 * 256 + tvb.byte 7)⟩], .ok 8⟩ := by
  have hrem : tvb_reported_length_remaining tvb 8 = 0 := by
    unfold tvb_reported_length_remaining
    rw [compute_offset_ok tvb 8 (by omega) (by omega)]
    simp [hL]
  simp (disch := first | omega | decide) only [dissect_regular_rssi_packet, bind, Dis.bind,
    Int.reduceAdd, proto_tree_add_item_uint_ok, hrem]
  simp only [read_uint_2be, Int.reduceToNat, Nat.reduceAdd, pure, gt_iff_lt, lt_self_iff_false,
    if_false]
  rfl

theorem dissect_regular_rssi_packet_payload (tvb : Tvb) (t : List Item) (hwf : tvb.wf)
    (hc : 8 < tvb.data.length) :
    dissect_regular_rssi_packet tvb 4 t =
      ⟨t ++ [⟨.hf_rssi_checksum, 6, 2, .uint (tvb.byte 6 * 256 + tvb.byte 7)⟩,
        ⟨.hf_rssi_payload, 8, (tvb.data.length : Int) - 8, .bytes (tvb.data.drop 8)⟩],
        .ok 8⟩ := by
  have hrem : tvb_reported_length_remaining tvb 8 = (tvb.reported_length : Int) - 8 :=
    tvb_reported_length_remaining_ok tvb 8 hwf (by omega) (by omega)
  unfold Tvb.wf at hwf
  have hpos : (tvb.reported_length : Int) - 8 > 0 := by omega
  simp (disch := first | omega | decide) only [dissect_regular_rssi_packet, bind, Dis.bind,
    Int.reduceAdd, proto_tree_add_item_uint_ok, proto_tree_add_bytes_format_rest, hrem, hpos,
    if_true]
  simp only [read_uint_2be, Int.reduceToNat, Nat.reduceAdd, pure, List.append_assoc,
    List.cons_append, List.nil_append]


theorem dissect_rssi_branch (asp_handle : Option Dissector) (tvb : Tvb) (t : List Item)
    (hc : 4 ≤ tvb.data.length) :
    (tvb.byte 0 &&& 0x80 ≠ 0 →
      dissect_rssi asp_handle tvb t =
        dissect_syn_rssi_packet tvb 4 (t ++ rssi_header_items tvb)) ∧
    (tvb.byte 0 &&& 0x80 = 0 →
      dissect_rssi asp_handle tvb t =
        rssi_regular_branch asp_handle tvb 4 (t ++ rssi_header_items tvb)) := by
  rw [dissect_rssi_split]
  constructor
  · intro h
    rw [Dis.bind_ok _ _ _ _ _ (rssi_common_header_ok tvb t hc)]
    simp [h]
  · intro h
    rw [Dis.bind_ok _ _ _ _ _ (rssi_common_header_ok tvb t hc)]
    simp [h]

theorem rssi_header_items_fields (tvb : Tvb) :
    ∀ it ∈ rssi_header_items tvb, it.hf ∈ rssi_header_fields := by
  simp [rssi_header_items, rssi_flag_items, rssi_header_fields]

theorem rssi_syn_items_fields (tvb : Tvb) :
    ∀ it ∈ rssi_syn_items tvb, it.hf ∈ rssi_syn_fields := by
  simp [rssi_syn_items, rssi_syn_fields]

/-- The run of `dissect_rssi` on a buffer whose SYN bit is set: the same for
every handle, with header and SYN items only. -/
theorem dissect_rssi_syn_run (asp_handle : Option Dissector) (tvb : Tvb)
    (hsyn : tvb.byte 0 &&& 0x80 ≠ 0) :
    dissect_rssi asp_handle tvb [] = dissect_rssi none tvb [] ∧
    (∀ it ∈ (dissect_rssi asp_handle tvb []).tree,
      it.hf ∈ rssi_header_fields ∨ it.hf ∈ rssi_syn_fields) ∧
    (22 ≤ tvb.data.length →
      dissect_rssi asp_handle tvb [] =
        ⟨rssi_header_items tvb ++ rssi_syn_items tvb, .ok (tvb.reported_length : Int)⟩) ∧
    (tvb.data.length < 22 → ∃ e, (dissect_rssi asp_handle tvb []).result = .error e ∧
      e.isBounds = true ∧ (tvb.data.length = tvb.reported_length → e = .ReportedBoundsError)) := by
  by_cases hc : 4 ≤ tvb.data.length
  · have h1 := (dissect_rssi_branch asp_handle tvb [] hc).1 hsyn
    have h2 := (dissect_rssi_branch none tvb [] hc).1 hsyn
    rw [h1, h2]
    refine ⟨rfl, ?_, ?_, ?_⟩
    · obtain ⟨post, hp, hS⟩ := adds_dissect_syn_rssi_packet tvb 4 ([] ++ rssi_header_items tvb)
      rw [hp]
      intro it hit
      simp only [List.nil_append, List.mem_append] at hit
      rcases hit with h | h
      · exact Or.inl (rssi_header_items_fields tvb it h)
      · exact Or.inr (hS it h)
    · intro h22
      rw [dissect_syn_rssi_packet_ok tvb _ h22]
      simp
    · intro h22
      obtain ⟨t1, e, he, hb, hr⟩ := dissect_syn_rssi_packet_short tvb ([] ++ rssi_header_items tvb) h22
      exact ⟨e, by rw [he], hb, hr⟩
  · obtain ⟨t1, e, he, hb, hr⟩ := rssi_common_header_short tvb [] (by omega)
    have hall : ∀ h : Option Dissector, dissect_rssi h tvb [] = ⟨t1, .error e⟩ := by
      intro h
      rw [dissect_rssi_split]
      exact Dis.bind_error _ _ _ _ _ he
    rw [hall asp_handle, hall none]
    refine ⟨rfl, ?_, fun h22 => absurd h22 (by omega), fun _ => ⟨e, rfl, hb, hr⟩⟩
    obtain ⟨post, hp, hS⟩ := adds_rssi_common_header tvb []
    rw [he] at hp
    simp only [List.nil_append] at hp
    intro it hit
    exact Or.inl (hS it (by simpa [hp] using hit))


/-! ### The regular branch and the hand-off -/

theorem call_dissector_some (h : Dissector) (tvb : Tvb) (t : List Item)
    (hret : (h tvb).result ≠ .ok 0) :
    call_dissector (some h) tvb t = ⟨t ++ (h tvb).tree, (h tvb).result⟩ := by
  show Dis.bind (Dis.call (h tvb)) _ t = _
  unfold Dis.bind Dis.call
  rcases hr : (h tvb).result with e | ret
  · simp only
  · have hne : ret ≠ 0 := by
      intro h0
      rw [hr, h0] at hret
      exact hret rfl
    simp only [hne, if_false, pure]

theorem rssi_regular_branch_empty (asp_handle : Option Dissector) (tvb : Tvb) (t : List Item)
    (hc : 8 ≤ tvb.data.length) (hL : tvb.reported_length = 8) :
    rssi_regular_branch asp_handle tvb 4 t =
      ⟨t ++ [⟨.hf_rssi_checksum, 6, 2, .uint (tvb.byte 6 * 256 + tvb.byte 7)⟩], .ok 8⟩ := by
  unfold rssi_regular_branch
  rw [Dis.bind_ok _ _ _ _ _ (dissect_regular_rssi_packet_empty tvb t hc hL)]
  simp only [tvb_new_subset_remaining_ok tvb 8 (by omega) (by omega), bind, Dis.bind, Dis.lift,
    tvb_reported_length, hL, pure, Int.reduceToNat, Nat.sub_self, Nat.cast_zero, gt_iff_lt,
    lt_self_iff_false, if_false, Nat.cast_ofNat]

theorem rssi_regular_branch_payload (asp_handle : Option Dissector) (tvb : Tvb) (t : List Item)
    (hwf : tvb.wf) (hc : 8 < tvb.data.length) :
    rssi_regular_branch asp_handle tvb 4 t =
      call_dissector asp_handle (rssi_next_tvb tvb)
        (t ++ [⟨.hf_rssi_checksum, 6, 2, .uint (tvb.byte 6 * 256 + tvb.byte 7)⟩,
          ⟨.hf_rssi_payload, 8, (tvb.data.length : Int) - 8, .bytes (tvb.data.drop 8)⟩]) := by
  unfold rssi_regular_branch
  rw [Dis.bind_ok _ _ _ _ _ (dissect_regular_rssi_packet_payload tvb t hwf hc)]
  unfold Tvb.wf at hwf
  have hpos : (0 : Int) < ((tvb.reported_length - 8 : Nat) : Int) := by omega
  simp only [tvb_new_subset_remaining_ok tvb 8 (by omega) (by omega), bind, Dis.bind, Dis.lift,
    tvb_reported_length, Int.reduceToNat, gt_iff_lt, hpos, if_true, rssi_next_tvb]

theorem bind_tree_extends {α β : Type} (m : Dis α) (f : α → Dis β) (t : List Item)
    (hf : ∀ a, Adds (fun _ => True) (f a)) :
    ∃ post, ((Bind.bind m f : Dis β) t).tree = (m t).tree ++ post := by
  show ∃ post, (Dis.bind m f t).tree = _
  unfold Dis.bind
  rcases m t with ⟨t1, e | a⟩
  · exact ⟨[], by simp⟩
  · obtain ⟨post, hp, _⟩ := hf a t1
    exact ⟨post, hp⟩

theorem rssi_common_header_flags (tvb : Tvb) (t : List Item) (hc : 1 ≤ tvb.data.length) :
    ∃ post, (rssi_common_header tvb t).tree =
      t ++ ⟨.proto_asp, 0, tvb.data.length, .none⟩ :: rssi_flag_items (tvb.byte 0) ++ post := by
  have hcases : tvb.data.length = 1 ∨ tvb.data.length = 2 ∨ tvb.data.length = 3 ∨
      4 ≤ tvb.data.length := by omega
  rcases hcases with h | h | h | h
  iterate 3
    simp (disch := first | omega | decide) only [rssi_common_header, bind, Dis.bind,
      proto_tree_add_item_proto_ok, proto_tree_add_item_uint_ok, proto_tree_add_item_uint_fail,
      proto_tree_add_bitmask_ret_uint64_ok, proto_tree_add_item_ret_uint_ok,
      proto_tree_add_item_ret_uint_fail]
    simp only [flag_items_rssi, rssi_flag_items, List.tail, Int.toNat_ofNat, Int.reduceToNat,
      List.append_assoc, List.cons_append, List.nil_append]
    exact ⟨_, rfl⟩
  rw [rssi_common_header_ok tvb t h]
  simp only [rssi_header_items, List.cons_append, List.append_assoc]
  exact ⟨_, rfl⟩

theorem dissect_syn_rssi_packet_first (tvb : Tvb) (t : List Item)
    (hc : 5 ≤ tvb.data.length) :
    ∃ post, (dissect_syn_rssi_packet tvb 4 t).tree =
      t ++ [⟨.hf_rssi_syn_flags, 4, 1, .uint (tvb.byte 4)⟩,
        ⟨.hf_rssi_syn_checksum_flag, 4, 1, .boolean (decide (tvb.byte 4 &&& 0x04 ≠ 0))⟩,
        ⟨.hf_rssi_version, 4, 1, .uint (tvb.byte 4 >>> 4)⟩] ++ post := by
  have hmod : tvb.byte 4 % 2 ^ 32 = tvb.byte 4 := Nat.mod_eq_of_lt (by
    have := byte_lt tvb 4
    omega)
  have hcases : tvb.data.length = 5 ∨
      (6 ≤ tvb.data.length ∧ tvb.data.length < 8) ∨
      (8 ≤ tvb.data.length ∧ tvb.data.length < 10) ∨
      (10 ≤ tvb.data.length ∧ tvb.data.length < 12) ∨
      (12 ≤ tvb.data.length ∧ tvb.data.length < 14) ∨
      tvb.data.length = 14 ∨ tvb.data.length = 15 ∨ tvb.data.length = 16 ∨
      tvb.data.length = 17 ∨ (18 ≤ tvb.data.length ∧ tvb.data.length < 22) ∨
      22 ≤ tvb.data.length := by omega
  rcases hcases with h | h | h | h | h | h | h | h | h | h | h
  all_goals
    simp (disch := first | omega | decide) only [dissect_syn_rssi_packet, bind, Dis.bind,
      Int.reduceAdd, proto_tree_add_item_uint_ok, proto_tree_add_item_uint_fail,
      proto_tree_add_uint_ok, proto_tree_add_bitmask_ret_uint64_ok, pure]
  all_goals
    simp only [syn_flag_items, Int.toNat_ofNat, Int.reduceToNat, List.append_assoc,
      List.cons_append, List.nil_append, hmod]
  all_goals exact ⟨_, rfl⟩

set_option maxRecDepth 100000 in
theorem high_nibble_fin (s : Fin 256) : s.val >>> 4 = (s.val &&& 0xF0) >>> 4 := by
  revert s
  decide

theorem high_nibble (tvb : Tvb) (i : Nat) :
    tvb.byte i >>> 4 = (tvb.byte i &&& 0xF0) >>> 4 :=
  high_nibble_fin _


/-! ### Buffers that agree on their octets -/

theorem take_drop_congr (l1 l2 : List Byte) (k n : Nat) (hlen : l1.length = l2.length)
    (h : ∀ i, k ≤ i → i < k + n → l1.getD i 0 = l2.getD i 0) :
    (l1.drop k).take n = (l2.drop k).take n := by
  apply List.ext_getElem?
  intro i
  simp only [List.getElem?_take, List.getElem?_drop]
  split
  · rename_i hi
    have hg := h (k + i) (by omega) (by omega)
    simp only [List.getD_eq_getElem?_getD] at hg
    by_cases hk : k + i < l1.length
    · have hk2 : k + i < l2.length := by omega
      rw [List.getElem?_eq_getElem hk, List.getElem?_eq_getElem hk2] at hg ⊢
      simpa using hg
    · have hk2 : ¬ k + i < l2.length := by omega
      rw [List.getElem?_eq_none (by omega), List.getElem?_eq_none (by omega)]
  · rfl

theorem byte_congr (tvb tvb2 : Tvb) (i : Nat) (h : tvb2.data.getD i 0 = tvb.data.getD i 0) :
    tvb2.byte i = tvb.byte i := by
  unfold Tvb.byte
  rw [h]

theorem rssi_next_tvb_byte (tvb : Tvb) (i : Nat) :
    (rssi_next_tvb tvb).byte i = tvb.byte (8 + i) := by
  simp [rssi_next_tvb, Tvb.byte, List.getD_eq_getElem?_getD, List.getElem?_drop]


/-! ### When the dissectors end with an exception -/

theorem proto_tree_add_bytes_format_fail (hf : Hf) (tvb : Tvb) (start length : Int)
    (t : List Item) (h0 : 0 ≤ start) (hl : 0 ≤ length)
    (h : (tvb.data.length : Int) < start + length) :
    proto_tree_add_bytes_format hf tvb start length t =
      ⟨t, .error (range_exn tvb start length)⟩ := by
  simp [proto_tree_add_bytes_format, bind, Dis.bind, Dis.lift, tvb_get_ptr,
    check_offset_length_fail tvb start length h0 hl h]

theorem dissect_axisp_ok15 (tvb : Tvb) (t : List Item) (hL : tvb.reported_length = 15)
    (hc : 13 ≤ tvb.data.length) (hwf : tvb.wf) :
    dissect_axisp tvb t =
      ⟨t ++ (axisp_header_items tvb ++ axisp_tail_items15 tvb), .ok 15⟩ := by
  have hrem : tvb_reported_length_remaining tvb 8 = 7 := by
    rw [tvb_reported_length_remaining_ok tvb 8 hwf (by omega) (by omega), hL]; rfl
  simp (disch := first | omega | decide) only [dissect_axisp, bind, Dis.bind, Dis.lift,
    Int.reduceAdd, Int.reduceSub, hrem, Int.reduceNeg,
    proto_tree_add_item_proto_ok, proto_tree_add_uint_ok, proto_tree_add_item_uint_ok,
    proto_tree_add_bitmask_ok, proto_tree_add_bytes_format_rest, tvb_get_guint8,
    check_offset_length_ok]
  simp only [axisp_header_items, axisp_tail_items15, read_uint_1, read_uint_2le, flag_item,
    header_flags, tail_flags, pure, tvb_reported_length, hL, hfinfo, axisp_FLAG_SOF,
    axisp_FLAG_EOF, List.map,
    flag_bit_byte _ _ _ (by decide : (128 : Nat) ∈ [1, 4, 8, 16, 32, 64, 128]),
    flag_bit_byte _ _ _ (by decide : (1 : Nat) ∈ [1, 4, 8, 16, 32, 64, 128]),
    List.append_assoc, List.cons_append, List.nil_append, Nat.reduceAdd, Int.toNat_ofNat,
    Int.reduceToNat, Nat.cast_ofNat]

theorem dissect_axisp_error (tvb : Tvb) (t : List Item) (hwf : tvb.wf)
    (h : ¬ ((16 ≤ tvb.reported_length ∧ tvb.reported_length ≤ tvb.data.length + 2) ∨
      (tvb.reported_length = 15 ∧ 13 ≤ tvb.data.length))) :
    ∃ t1 e, dissect_axisp tvb t = ⟨t1, .error e⟩ := by
  have hwf' := hwf
  unfold Tvb.wf at hwf'
  by_cases hc8 : tvb.data.length < 8
  · have hcases : tvb.data.length < 1 ∨ tvb.data.length = 1 ∨ tvb.data.length = 2 ∨
        tvb.data.length = 3 ∨ (4 ≤ tvb.data.length ∧ tvb.data.length < 6) ∨
        (6 ≤ tvb.data.length ∧ tvb.data.length < 8) := by omega
    rcases hcases with h1 | h1 | h1 | h1 | h1 | h1
    all_goals
      simp (disch := first | omega | decide) only [dissect_axisp, bind, Dis.bind, Dis.lift,
        Int.reduceAdd, proto_tree_add_item_proto_ok, proto_tree_add_uint_ok,
        proto_tree_add_item_uint_ok, proto_tree_add_item_uint_fail, proto_tree_add_bitmask_ok,
        proto_tree_add_bitmask_fail, tvb_get_guint8, check_offset_length_ok,
        check_offset_length_fail]
    all_goals exact ⟨_, _, rfl⟩
  · have hrem : tvb_reported_length_remaining tvb 8 = (tvb.reported_length : Int) - 8 :=
      tvb_reported_length_remaining_ok tvb 8 hwf (by omega) (by omega)
    by_cases h14 : tvb.reported_length ≤ 14
    · simp (disch := first | omega | decide) only [dissect_axisp, bind, Dis.bind, Dis.lift,
        Int.reduceAdd, proto_tree_add_item_proto_ok, proto_tree_add_uint_ok,
        proto_tree_add_item_uint_ok, proto_tree_add_bitmask_ok, tvb_get_guint8,
        check_offset_length_ok, hrem, proto_tree_add_bytes_format_neg]
      exact ⟨_, _, rfl⟩
    by_cases h15 : tvb.reported_length = 15
    · have hrem7 : tvb_reported_length_remaining tvb 8 = 7 := by
        rw [hrem, h15]; rfl
      have hcases : tvb.data.length = 8 ∨ tvb.data.length = 9 ∨
          (10 ≤ tvb.data.length ∧ tvb.data.length < 13) := by omega
      rcases hcases with h1 | h1 | h1
      all_goals
        simp (disch := first | omega | decide) only [dissect_axisp, bind, Dis.bind, Dis.lift,
          Int.reduceAdd, Int.reduceSub, Int.reduceNeg, hrem7, proto_tree_add_item_proto_ok,
          proto_tree_add_uint_ok, proto_tree_add_item_uint_ok, proto_tree_add_item_uint_fail,
          proto_tree_add_bitmask_ok, proto_tree_add_bitmask_fail, tvb_get_guint8,
          check_offset_length_ok, proto_tree_add_bytes_format_rest,
          proto_tree_add_bytes_format_rest_fail]
      all_goals exact ⟨_, _, rfl⟩
    · obtain ⟨n, hn⟩ : ∃ n, tvb.reported_length = n + 16 :=
        ⟨tvb.reported_length - 16, by omega⟩
      have hremn : tvb_reported_length_remaining tvb 8 = (n : Int) + 8 := by
        rw [hrem, hn]; push_cast; omega
      have hcases : tvb.data.length < n + 8 ∨ tvb.data.length = n + 8 ∨
          tvb.data.length = n + 9 ∨ tvb.data.length = n + 10 ∨
          (n + 11 ≤ tvb.data.length ∧ tvb.data.length < n + 14) := by omega
      rcases hcases with h1 | h1 | h1 | h1 | h1
      all_goals
        simp (disch := first | omega | decide) only [dissect_axisp, bind, Dis.bind, Dis.lift,
          Int.reduceAdd, hremn, add_sub_cancel_right, proto_tree_add_item_proto_ok,
          proto_tree_add_uint_ok, proto_tree_add_item_uint_ok, proto_tree_add_item_uint_fail,
          proto_tree_add_bitmask_ok, proto_tree_add_bitmask_fail, tvb_get_guint8,
          check_offset_length_ok, proto_tree_add_bytes_format_ok,
          proto_tree_add_bytes_format_fail]
      all_goals exact ⟨_, _, rfl⟩

theorem dissect_regular_rssi_packet_short (tvb : Tvb) (t : List Item)
    (hc : tvb.data.length < 8) :
    dissect_regular_rssi_packet tvb 4 t = ⟨t, .error (range_exn tvb 6 2)⟩ := by
  simp (disch := first | omega | decide) only [dissect_regular_rssi_packet, bind, Dis.bind,
    Int.reduceAdd, proto_tree_add_item_uint_fail]

theorem dissect_regular_rssi_packet_cut (tvb : Tvb) (t : List Item) (hwf : tvb.wf)
    (hc : tvb.data.length = 8) (hL : 8 < tvb.reported_length) :
    dissect_regular_rssi_packet tvb 4 t =
      ⟨t ++ [⟨.hf_rssi_checksum, 6, 2, .uint (tvb.byte 6 * 256 + tvb.byte 7)⟩],
        .error .BoundsError⟩ := by
  have hrem : tvb_reported_length_remaining tvb 8 = (tvb.reported_length : Int) - 8 :=
    tvb_reported_length_remaining_ok tvb 8 hwf (by omega) (by omega)
  have hpos : (tvb.reported_length : Int) - 8 > 0 := by omega
  simp (disch := first | omega | decide) only [dissect_regular_rssi_packet, bind, Dis.bind,
    Int.reduceAdd, proto_tree_add_item_uint_ok, proto_tree_add_bytes_format_rest_fail, hrem,
    hpos, if_true]
  simp only [read_uint_2be, Int.reduceToNat, Nat.reduceAdd]

theorem rssi_regular_branch_error (asp_handle : Option Dissector) (tvb : Tvb) (t : List Item)
    (hwf : tvb.wf)
    (hc : tvb.data.length < 8 ∨ (tvb.data.length = 8 ∧ 8 < tvb.reported_length)) :
    ∃ t1 e, rssi_regular_branch asp_handle tvb 4 t = ⟨t1, .error e⟩ := by
  unfold rssi_regular_branch
  rcases hc with hc | ⟨hc, hL⟩
  · exact ⟨_, _, Dis.bind_error _ _ _ _ _ (dissect_regular_rssi_packet_short tvb t hc)⟩
  · exact ⟨_, _, Dis.bind_error _ _ _ _ _ (dissect_regular_rssi_packet_cut tvb t hwf hc hL)⟩

theorem call_dissector_frame (handle : Option Dissector) (tvb : Tvb) (t : List Item) :
    call_dissector handle tvb t =
      ⟨t ++ (call_dissector handle tvb []).tree, (call_dissector handle tvb []).result⟩ := by
  rcases handle with _ | h
  · simp [call_dissector, Dis.lift]
  · show Dis.bind (Dis.call (h tvb)) _ t = ⟨t ++ (Dis.bind (Dis.call (h tvb)) _ []).tree,
      (Dis.bind (Dis.call (h tvb)) _ []).result⟩
    unfold Dis.bind Dis.call
    rcases (h tvb).result with e | ret
    · simp
    · by_cases h0 : ret = 0
      · by_cases hd : tvb.data.length = 0
        · simp [h0, dissect_data, hd, pure, bind, Dis.bind]
        · simp [h0, dissect_data, hd, pure, bind, Dis.bind, Dis.add]
      · simp [h0, pure]

theorem axisp_items_in_range (tvb : Tvb) (n : Nat) (hwf : tvb.wf)
    (hL : tvb.reported_length = n + 16) :
    ∀ it ∈ axisp_items tvb n, it.in_range tvb.reported_length := by
  unfold Tvb.wf at hwf
  intro it hit
  simp only [axisp_items, axisp_header_items, axisp_tail_items, List.mem_append, List.mem_cons,
    List.mem_singleton, List.not_mem_nil, or_false] at hit
  rcases hit with (h | h | h | h | h | h | h | h | h) | (h | h | h | h | h | h)
  all_goals
    subst h
    simp only [Item.in_range]
    omega

theorem axisp_items15_in_range (tvb : Tvb) (hwf : tvb.wf) (hL : tvb.reported_length = 15)
    (hc : 13 ≤ tvb.data.length) :
    ∀ it ∈ axisp_header_items tvb ++ axisp_tail_items15 tvb,
      it.in_range tvb.reported_length := by
  unfold Tvb.wf at hwf
  intro it hit
  simp only [axisp_header_items, axisp_tail_items15, List.mem_append, List.mem_cons,
    List.mem_singleton, List.not_mem_nil, or_false] at hit
  rcases hit with (h | h | h | h | h | h | h | h | h) | (h | h | h | h | h | h)
  all_goals
    subst h
    simp only [Item.in_range]
    omega

theorem rssi_header_items_in_range (tvb : Tvb) (hwf : tvb.wf) (hc : 4 ≤ tvb.data.length) :
    ∀ it ∈ rssi_header_items tvb, it.in_range tvb.reported_length := by
  unfold Tvb.wf at hwf
  intro it hit
  simp only [rssi_header_items, rssi_flag_items, List.mem_append, List.mem_cons,
    List.cons_append, List.nil_append, List.mem_singleton, List.not_mem_nil, or_false] at hit
  rcases hit with h | h | h | h | h | h | h | h | h | h | h
  all_goals
    subst h
    simp only [Item.in_range]
    omega

theorem rssi_syn_items_in_range (tvb : Tvb) (hwf : tvb.wf) (hc : 22 ≤ tvb.data.length) :
    ∀ it ∈ rssi_syn_items tvb, it.in_range tvb.reported_length := by
  unfold Tvb.wf at hwf
  intro it hit
  simp only [rssi_syn_items, List.mem_cons, List.mem_singleton, List.not_mem_nil,
    or_false] at hit
  rcases hit with h | h | h | h | h | h | h | h | h | h | h | h | h
  all_goals
    subst h
    simp only [Item.in_range]
    omega

/-- A run of `dissect_axisp` either ends with an exception or returns the
reported length with every item inside the buffer. -/
theorem dissect_axisp_ok_or_error (tvb : Tvb) (hwf : tvb.wf) :
    (∃ t1 e, dissect_axisp tvb [] = ⟨t1, .error e⟩) ∨
    (∃ items, dissect_axisp tvb [] = ⟨items, .ok (tvb.reported_length : Int)⟩ ∧
      15 ≤ tvb.reported_length ∧ ∀ it ∈ items, it.in_range tvb.reported_length) := by
  by_cases h : (16 ≤ tvb.reported_length ∧ tvb.reported_length ≤ tvb.data.length + 2) ∨
      (tvb.reported_length = 15 ∧ 13 ≤ tvb.data.length)
  · right
    rcases h with ⟨h16, hc⟩ | ⟨h15, hc⟩
    · obtain ⟨n, hn⟩ : ∃ n, tvb.reported_length = n + 16 :=
        ⟨tvb.reported_length - 16, by omega⟩
      refine ⟨axisp_items tvb n, ?_, by omega, axisp_items_in_range tvb n hwf hn⟩
      rw [dissect_axisp_ok tvb n [] hn (by omega) hwf, hn]
      simp
    · refine ⟨axisp_header_items tvb ++ axisp_tail_items15 tvb, ?_, by omega,
        axisp_items15_in_range tvb hwf h15 hc⟩
      rw [dissect_axisp_ok15 tvb [] h15 hc hwf, h15]
      simp
  · exact Or.inl (dissect_axisp_error tvb [] hwf h)

/-- The four ways a run of `dissect_rssi` can go. -/
theorem dissect_rssi_cases (asp_handle : Option Dissector) (tvb : Tvb) (hwf : tvb.wf) :
    (∃ t1 e, dissect_rssi asp_handle tvb [] = ⟨t1, .error e⟩) ∨
    (tvb.byte 0 &&& 0x80 ≠ 0 ∧ 22 ≤ tvb.data.length ∧
      dissect_rssi asp_handle tvb [] =
        ⟨rssi_header_items tvb ++ rssi_syn_items tvb, .ok (tvb.reported_length : Int)⟩) ∨
    (tvb.byte 0 &&& 0x80 = 0 ∧ tvb.data.length = 8 ∧ tvb.reported_length = 8 ∧
      dissect_rssi asp_handle tvb [] =
        ⟨rssi_header_items tvb ++
          [⟨.hf_rssi_checksum, 6, 2, .uint (tvb.byte 6 * 256 + tvb.byte 7)⟩], .ok 8⟩) ∨
    (tvb.byte 0 &&& 0x80 = 0 ∧ 8 < tvb.data.length ∧
      dissect_rssi asp_handle tvb [] =
        ⟨rssi_regular_items tvb ++ (call_dissector asp_handle (rssi_next_tvb tvb) []).tree,
          (call_dissector asp_handle (rssi_next_tvb tvb) []).result⟩) := by
  have hwf' := hwf
  unfold Tvb.wf at hwf'
  by_cases hc4 : tvb.data.length < 4
  · obtain ⟨t1, e, he, _⟩ := rssi_common_header_short tvb [] hc4
    left
    exact ⟨t1, e, by rw [dissect_rssi_split, Dis.bind_error _ _ _ _ _ he]⟩
  have hbr := dissect_rssi_branch asp_handle tvb [] (by omega)
  by_cases hsyn : tvb.byte 0 &&& 0x80 = 0
  · rw [hbr.2 hsyn]
    by_cases hc8 : 8 < tvb.data.length
    · right; right; right
      refine ⟨hsyn, hc8, ?_⟩
      rw [rssi_regular_branch_payload asp_handle tvb _ hwf hc8, call_dissector_frame]
      simp [rssi_regular_items]
    · by_cases hempty : tvb.data.length = 8 ∧ tvb.reported_length = 8
      · right; right; left
        refine ⟨hsyn, hempty.1, hempty.2, ?_⟩
        rw [rssi_regular_branch_empty asp_handle tvb _ (by omega) hempty.2]
        simp
      · left
        exact rssi_regular_branch_error asp_handle tvb _ hwf (by omega)
  · rw [hbr.1 hsyn]
    by_cases hc22 : 22 ≤ tvb.data.length
    · right; left
      refine ⟨hsyn, hc22, ?_⟩
      rw [dissect_syn_rssi_packet_ok tvb _ hc22]
      simp
    · obtain ⟨t1, e, he, _⟩ := dissect_syn_rssi_packet_short tvb ([] ++ rssi_header_items tvb)
        (by omega)
      left
      exact ⟨t1, e, he⟩

theorem rssi_regular_items_in_range (tvb : Tvb) (hwf : tvb.wf) (hc : 8 ≤ tvb.data.length) :
    ∀ it ∈ rssi_regular_items tvb, it.in_range tvb.reported_length := by
  intro it hit
  simp only [rssi_regular_items, List.mem_append, List.mem_cons, List.mem_singleton,
    List.not_mem_nil, or_false] at hit
  rcases hit with h | h | h
  · exact rssi_header_items_in_range tvb hwf (by omega) it h
  all_goals
    unfold Tvb.wf at hwf
    subst h
    simp only [Item.in_range]
    omega

/-- Handing a buffer to the AXISP handle: the call ends as `dissect_axisp` does
on that buffer, and on success every item lies inside the buffer. -/
theorem call_axisp_in_range (tvb : Tvb) (hwf : tvb.wf) (v : Int)
    (hv : (call_dissector (some (create_dissector_handle dissect_axisp)) tvb []).result =
      .ok v) :
    ∀ it ∈ (call_dissector (some (create_dissector_handle dissect_axisp)) tvb []).tree,
      it.in_range tvb.reported_length := by
  rcases dissect_axisp_ok_or_error tvb hwf with ⟨t1, e, he⟩ | ⟨items, hi, h15, hr⟩
  · have hne : (create_dissector_handle dissect_axisp tvb).result ≠ .ok 0 := by
      simp [create_dissector_handle, Dis.run, he]
    rw [call_dissector_some _ tvb [] hne] at hv
    simp [create_dissector_handle, Dis.run, he] at hv
  · have hne : (create_dissector_handle dissect_axisp tvb).result ≠ .ok 0 := by
      simp only [create_dissector_handle, Dis.run, hi, ne_eq, Except.ok.injEq]
      omega
    rw [call_dissector_some _ tvb [] hne]
    simpa [create_dissector_handle, Dis.run, hi] using hr

theorem rssi_next_tvb_wf (tvb : Tvb) (hwf : tvb.wf) : (rssi_next_tvb tvb).wf := by
  unfold Tvb.wf at *
  simp only [rssi_next_tvb, List.length_drop]
  omega


/-! ### The log of `offset` -/

theorem Tr.erase_pure {α : Type} (a : α) : Tr.erase (Pure.pure a : Tr α) = Pure.pure a := rfl

theorem Tr.erase_lift {α : Type} (m : Dis α) : Tr.erase (Tr.lift m) = m := rfl

theorem Tr.erase_bind {α β : Type} (m : Tr α) (f : α → Tr β) :
    Tr.erase (Bind.bind m f) = Bind.bind (Tr.erase m) (fun a => Tr.erase (f a)) := by
  funext t
  show (Tr.bind m f t).2 = Dis.bind (Tr.erase m) (fun a => Tr.erase (f a)) t
  unfold Tr.bind Dis.bind Tr.erase
  rcases m t with ⟨c1, t1, e | a⟩ <;> rfl

theorem Tr.erase_cursor (x : Int) : Tr.erase (Tr.cursor x) = Pure.pure () := rfl

theorem Tr.erase_ite {α : Type} (c : Prop) [Decidable c] (a b : Tr α) :
    Tr.erase (if c then a else b) = if c then Tr.erase a else Tr.erase b := by
  split <;> rfl

theorem dissect_axisp_cursor_erase (tvb : Tvb) :
    Tr.erase (dissect_axisp_cursor tvb) = dissect_axisp tvb := by
  simp only [dissect_axisp_cursor, dissect_axisp, Tr.erase_cursor, Tr.erase_bind, Dis.pure_bind,
    Tr.erase_lift, Tr.erase_pure]

theorem dissect_syn_rssi_packet_cursor_erase (tvb : Tvb) (offset0 : Int) :
    Tr.erase (dissect_syn_rssi_packet_cursor tvb offset0) =
      dissect_syn_rssi_packet tvb offset0 := by
  simp only [dissect_syn_rssi_packet_cursor, dissect_syn_rssi_packet, Tr.erase_cursor, Dis.pure_bind,
    Tr.erase_bind, Tr.erase_lift, Tr.erase_pure]

theorem dissect_regular_rssi_packet_cursor_erase (tvb : Tvb) (offset0 : Int) :
    Tr.erase (dissect_regular_rssi_packet_cursor tvb offset0) =
      dissect_regular_rssi_packet tvb offset0 := by
  simp only [dissect_regular_rssi_packet_cursor, dissect_regular_rssi_packet,
    Tr.erase_cursor, Tr.erase_bind, Dis.pure_bind, Tr.erase_lift, Tr.erase_pure, Tr.erase_ite]

theorem dissect_rssi_cursor_erase (asp_handle : Option Dissector) (tvb : Tvb) :
    Tr.erase (dissect_rssi_cursor asp_handle tvb) = dissect_rssi asp_handle tvb := by
  simp only [dissect_rssi_cursor, dissect_rssi, Tr.erase_cursor, Tr.erase_bind, Dis.pure_bind,
    Tr.erase_lift, Tr.erase_pure, Tr.erase_ite, dissect_syn_rssi_packet_cursor_erase,
    dissect_regular_rssi_packet_cursor_erase]

theorem Tr.Mono.of_pure {α : Type} (lo : Int) (a : α) : Tr.Mono lo (Pure.pure a : Tr α) := by
  intro t
  exact ⟨List.Pairwise.nil, fun x hx => by cases hx⟩

theorem Tr.Mono.of_lift {α : Type} (lo : Int) (m : Dis α) : Tr.Mono lo (Tr.lift m) := by
  intro t
  exact ⟨List.Pairwise.nil, fun x hx => by cases hx⟩

theorem Tr.Mono.lift_bind {α β : Type} (lo : Int) (m : Dis α) (f : α → Tr β)
    (hf : ∀ a, (∃ t, (m t).result = .ok a) → Tr.Mono lo (f a)) :
    Tr.Mono lo (Bind.bind (Tr.lift m) f) := by
  intro t
  show (Tr.bind (Tr.lift m) f t).1.Pairwise _ ∧ ∀ x ∈ (Tr.bind (Tr.lift m) f t).1, lo ≤ x
  unfold Tr.bind Tr.lift
  rcases hm : m t with ⟨t1, e | a⟩
  · exact ⟨List.Pairwise.nil, fun x hx => by cases hx⟩
  · have h := hf a ⟨t, by rw [hm]⟩ t1
    simpa using h

theorem Tr.Mono.cursor_bind {β : Type} (lo x : Int) (f : Unit → Tr β) (hx : lo ≤ x)
    (hf : Tr.Mono x (f ())) : Tr.Mono lo (Bind.bind (Tr.cursor x) f) := by
  intro t
  show (Tr.bind (Tr.cursor x) f t).1.Pairwise _ ∧ ∀ y ∈ (Tr.bind (Tr.cursor x) f t).1, lo ≤ y
  obtain ⟨hp, hlo⟩ := hf t
  simp only [Tr.bind, Tr.cursor, List.singleton_append, List.pairwise_cons, List.mem_cons]
  refine ⟨⟨hlo, hp⟩, ?_⟩
  rintro y (rfl | hy)
  · exact hx
  · exact le_trans hx (hlo y hy)

theorem Tr.Mono.bind_ret {β : Type} (lo : Int) (m : Tr Int) (f : Int → Tr β)
    (hm : Tr.Mono lo m)
    (hret : ∀ t a, (m t).2.result = .ok a → lo ≤ a ∧ ∀ x ∈ (m t).1, x ≤ a)
    (hf : ∀ a, Tr.Mono a (f a)) : Tr.Mono lo (Bind.bind m f) := by
  intro t
  show (Tr.bind m f t).1.Pairwise _ ∧ ∀ y ∈ (Tr.bind m f t).1, lo ≤ y
  have h1 := hm t
  have h2 := hret t
  unfold Tr.bind
  rcases hmt : m t with ⟨c1, t1, e | a⟩
  · rw [hmt] at h1
    exact h1
  · rw [hmt] at h1 h2
    obtain ⟨hla, hub⟩ := h2 a rfl
    obtain ⟨hp, hlo⟩ := hf a t1
    simp only [List.pairwise_append, List.mem_append]
    refine ⟨⟨h1.1, hp, fun x hx y hy => le_trans (hub x hx) (hlo y hy)⟩, ?_⟩
    rintro y (hy | hy)
    · exact h1.2 y hy
    · exact le_trans hla (hlo y hy)

theorem proto_tree_add_bytes_format_length (hf : Hf) (tvb : Tvb) (start length : Int)
    (t : List Item) (a : Unit)
    (h : (proto_tree_add_bytes_format hf tvb start length t).result = .ok a) :
    -1 ≤ length := by
  by_contra hlt
  have hlt' : length < -1 := by omega
  unfold proto_tree_add_bytes_format tvb_get_ptr check_offset_length at h
  rcases hco : compute_offset tvb start with e | abs
  · simp [bind, Dis.bind, Dis.lift, hco] at h
  · simp [bind, Dis.bind, Dis.lift, hco, hlt'] at h

theorem tvb_reported_length_remaining_seven (tvb : Tvb)
    (h : tvb_reported_length_remaining tvb 8 = 7) : tvb.reported_length = 15 := by
  unfold tvb_reported_length_remaining compute_offset at h
  simp only [Int.reduceToNat, show (0 : Int) ≤ 8 by decide, if_true] at h
  split at h
  · rename_i e he
    omega
  · rename_i abs he
    split at he
    · cases he
      split at h <;> omega
    · cases he

theorem dissect_syn_rssi_packet_cursor_mono (tvb : Tvb) (offset0 : Int) :
    Tr.Mono offset0 (dissect_syn_rssi_packet_cursor tvb offset0) := by
  simp only [dissect_syn_rssi_packet_cursor]
  repeat first
    | refine Tr.Mono.cursor_bind _ _ _ (by omega) ?_
    | (refine Tr.Mono.lift_bind _ _ _ ?_; intro a ha)
    | exact Tr.Mono.of_pure _ _

theorem dissect_regular_rssi_packet_cursor_mono (tvb : Tvb) (offset0 : Int) :
    Tr.Mono offset0 (dissect_regular_rssi_packet_cursor tvb offset0) := by
  simp only [dissect_regular_rssi_packet_cursor]
  repeat first
    | refine Tr.Mono.cursor_bind _ _ _ (by omega) ?_
    | (refine Tr.Mono.lift_bind _ _ _ ?_; intro a ha)
    | exact Tr.Mono.of_pure _ _
  split
  · refine Tr.Mono.lift_bind _ _ _ ?_
    intro a ha
    exact Tr.Mono.of_pure _ _
  · exact Tr.Mono.of_pure _ _

theorem dissect_regular_rssi_packet_cursor_ret (tvb : Tvb) (offset0 : Int) (t : List Item)
    (a : Int) (h : (dissect_regular_rssi_packet_cursor tvb offset0 t).2.result = .ok a) :
    offset0 ≤ a ∧ ∀ x ∈ (dissect_regular_rssi_packet_cursor tvb offset0 t).1, x ≤ a := by
  simp only [dissect_regular_rssi_packet_cursor, bind, Tr.bind, Tr.cursor, Tr.lift, pure]
    at h ⊢
  rcases h1 : proto_tree_add_item .hf_rssi_checksum tvb (offset0 + 2) 2 .ENC_BIG_ENDIAN t
    with ⟨t1, e | u⟩
  · simp [h1] at h
  · simp only [h1] at h ⊢
    by_cases hpos : tvb_reported_length_remaining tvb (offset0 + 2 + 2) > 0
    · simp only [hpos, if_true] at h ⊢
      rcases h2 : proto_tree_add_bytes_format .hf_rssi_payload tvb (offset0 + 2 + 2) (-1) t1
        with ⟨t2, e | u2⟩
      · simp [Tr.bind, Tr.lift, h2] at h
      · simp only [Tr.bind, Tr.lift, h2] at h ⊢
        cases h
        simp
        omega
    · simp only [hpos, if_false, Tr.bind] at h ⊢
      cases h
      simp
      omega

theorem dissect_rssi_cursor_mono (asp_handle : Option Dissector) (tvb : Tvb) :
    Tr.Mono 0 (dissect_rssi_cursor asp_handle tvb) := by
  simp only [dissect_rssi_cursor]
  repeat first
    | refine Tr.Mono.cursor_bind _ _ _ (by omega) ?_
    | (refine Tr.Mono.lift_bind _ _ _ ?_; intro a ha)
    | exact Tr.Mono.of_pure _ _
  split
  · exact dissect_syn_rssi_packet_cursor_mono tvb _
  · refine Tr.Mono.bind_ret _ _ _ (dissect_regular_rssi_packet_cursor_mono tvb _)
      (dissect_regular_rssi_packet_cursor_ret tvb _) ?_
    intro off
    refine Tr.Mono.cursor_bind _ _ _ (le_refl _) ?_
    refine Tr.Mono.lift_bind _ _ _ ?_
    intro next _
    split
    · exact Tr.Mono.of_lift _ _
    · exact Tr.Mono.of_pure _ _

theorem dissect_axisp_cursor_mono (tvb : Tvb) (hL : tvb.reported_length ≠ 15) :
    Tr.Mono 0 (dissect_axisp_cursor tvb) := by
  have hrem : tvb_reported_length_remaining tvb 8 ≠ 7 :=
    fun h => hL (tvb_reported_length_remaining_seven tvb h)
  simp only [dissect_axisp_cursor, Int.reduceAdd]
  repeat first
    | refine Tr.Mono.cursor_bind _ _ _ (by omega) ?_
    | (refine Tr.Mono.lift_bind _ _ _ ?_; intro a ha)
    | exact Tr.Mono.of_pure _ _
  obtain ⟨t, ht⟩ := ha
  have hlen := proto_tree_add_bytes_format_length _ _ _ _ _ _ ht
  repeat first
    | refine Tr.Mono.cursor_bind _ _ _ (by omega) ?_
    | (refine Tr.Mono.lift_bind _ _ _ ?_; intro a ha)
    | exact Tr.Mono.of_pure _ _


/-! ### The tree of a run that ends with an exception -/

/-- C1, counterexample: of a frame of reported length 20 only the first 10
octets are captured. `dissect_axisp` does not succeed: it ends with
`BoundsError` at the payload, and the tree holds no payload item and no
`tuser_last` item. -/
theorem axisp_truncated_capture_fails :
    axisp_cut10.wf ∧ 16 ≤ axisp_cut10.reported_length ∧ axisp_cut10.data.length = 10 ∧
    (dissect_axisp axisp_cut10).run.result = .error .BoundsError ∧
    fields_of .hf_axisp_payload (dissect_axisp axisp_cut10).run.tree = [] ∧
    fields_of .hf_axisp_tuser_last (dissect_axisp axisp_cut10).run.tree = [] := by
  refine ⟨by decide, by decide, rfl, rfl, rfl, rfl⟩

/-- C1, amended: for a buffer of reported length `L ≥ 16` of which at least the
first `L - 2` octets are captured, `dissect_axisp` returns `L`, adds exactly one
payload item, at offset 8 with length `L - 16` taken from the reported length,
and reads `tuser_last` at offset `L - 8`; for `L = 16` the payload item has
length 0. -/
theorem axisp_payload_range (tvb : Tvb) (hwf : tvb.wf) (hL : 16 ≤ tvb.reported_length)
    (hc : tvb.reported_length ≤ tvb.data.length + 2) :
    (dissect_axisp tvb).run.result = .ok (tvb.reported_length : Int) ∧
    fields_of .hf_axisp_payload (dissect_axisp tvb).run.tree =
      [⟨.hf_axisp_payload, 8, (tvb.reported_length : Int) - 16,
        .bytes ((tvb.data.drop 8).take (tvb.reported_length - 16))⟩] ∧
    fields_of .hf_axisp_tuser_last (dissect_axisp tvb).run.tree =
      [⟨.hf_axisp_tuser_last, (tvb.reported_length : Int) - 8, 1,
        .uint (tvb.byte (tvb.reported_length - 8))⟩] ∧
    (tvb.reported_length = 16 →
      fields_of .hf_axisp_payload (dissect_axisp tvb).run.tree =
        [⟨.hf_axisp_payload, 8, 0, .bytes []⟩]) := by
  obtain ⟨n, hn⟩ : ∃ n, tvb.reported_length = n + 16 := ⟨tvb.reported_length - 16, by omega⟩
  have h := dissect_axisp_ok tvb n [] hn (by omega) hwf
  have e1 : ((n : Int) + 16 - 16) = n := by omega
  have e2 : ((n : Int) + 16 - 8) = n + 8 := by omega
  have e3 : n + 16 - 8 = n + 8 := by omega
  simp only [Dis.run, h, hn, fields_of, axisp_items, axisp_header_items, axisp_tail_items,
    List.nil_append, List.cons_append, Nat.cast_add, Nat.cast_ofNat, e1, e2, e3,
    Nat.add_sub_cancel]
  refine ⟨trivial, by simp [List.filter], by simp [List.filter], ?_⟩
  intro h16
  have hn0 : n = 0 := by omega
  subst hn0
  simp [List.filter]

/-- C1 (amended) at a concrete input: an 18-octet capture of a 20-octet frame. -/
theorem axisp_payload_range_witness :
    axisp_cut18.wf ∧ 16 ≤ axisp_cut18.reported_length ∧
    axisp_cut18.reported_length ≤ axisp_cut18.data.length + 2 ∧
    (dissect_axisp axisp_cut18).run.result = .ok (axisp_cut18.reported_length : Int) ∧
    fields_of .hf_axisp_payload (dissect_axisp axisp_cut18).run.tree =
      [⟨.hf_axisp_payload, 8, (axisp_cut18.reported_length : Int) - 16,
        .bytes ((axisp_cut18.data.drop 8).take (axisp_cut18.reported_length - 16))⟩] :=
  ⟨by decide, by decide, by decide,
    (axisp_payload_range axisp_cut18 (by decide) (by decide) (by decide)).1,
    (axisp_payload_range axisp_cut18 (by decide) (by decide) (by decide)).2.1⟩

/-- C2, the failing input: on a completely captured buffer of reported length
15 `dissect_axisp` does not fail. The unchecked payload length
`remaining_len - 8 = -1` is taken as "to the end of the buffer": the payload
item covers offsets 8 to 14, the cursor goes back to 7, `tuser_last` is read
from the header-flags octet at offset 7 and the crc from the payload octets 11
and 12, and 15 is returned. -/
theorem axisp_length15_succeeds :
    axisp_frame15.reported_length = 15 ∧
    (dissect_axisp axisp_frame15).run.result = .ok 15 ∧
    fields_of .hf_axisp_payload (dissect_axisp axisp_frame15).run.tree =
      [⟨.hf_axisp_payload, 8, 7, .bytes [1, 2, 3, 4, 5, 6, 7]⟩] ∧
    fields_of .hf_axisp_tuser_last (dissect_axisp axisp_frame15).run.tree =
      [⟨.hf_axisp_tuser_last, 7, 1, .uint 0x80⟩] ∧
    fields_of .hf_axisp_crc (dissect_axisp axisp_frame15).run.tree =
      [⟨.hf_axisp_crc, 11, 2, .uint 0x0504⟩] := by
  refine ⟨rfl, rfl, rfl, rfl, rfl⟩

/-- Below reported length 15 short frames do fail: for every buffer of
reported length at most 14, `dissect_axisp` ends with a bounds exception, and
the tree holds no payload item and no tail item (`tuser_last`, tail flags,
end-of-frame, last byte count, crc). -/
theorem axisp_short_frame_fails (tvb : Tvb) (hwf : tvb.wf) (hL : tvb.reported_length ≤ 14) :
    failsBounds (dissect_axisp tvb).run.result ∧
    ∀ it ∈ (dissect_axisp tvb).run.tree, it.hf ∉ axisp_tail_fields := by
  unfold Tvb.wf at hwf
  have hcases : tvb.data.length < 1 ∨ tvb.data.length = 1 ∨ tvb.data.length = 2 ∨
      tvb.data.length = 3 ∨ (4 ≤ tvb.data.length ∧ tvb.data.length < 6) ∨
      (6 ≤ tvb.data.length ∧ tvb.data.length < 8) ∨ 8 ≤ tvb.data.length := by omega
  rcases hcases with h | h | h | h | h | h | h
  all_goals
    simp (disch := first | omega | decide) only [dissect_axisp, bind, Dis.bind, Dis.lift, Dis.run,
      Int.reduceAdd, proto_tree_add_item_proto_ok, proto_tree_add_uint_ok,
      proto_tree_add_item_uint_ok, proto_tree_add_item_uint_fail, proto_tree_add_bitmask_ok,
      proto_tree_add_bitmask_fail, tvb_get_guint8, check_offset_length_ok,
      check_offset_length_fail]
  all_goals first
    | exact ⟨⟨_, rfl, range_exn_isBounds _ _ _⟩, by simp [axisp_tail_fields]⟩
    | skip
  have hrem : tvb_reported_length_remaining tvb 8 = (tvb.reported_length : Int) - 8 :=
    tvb_reported_length_remaining_ok tvb 8 hwf (by omega) (by omega)
  simp (disch := omega) only [hrem, proto_tree_add_bytes_format_neg]
  exact ⟨⟨_, rfl, rfl⟩, by simp [axisp_tail_fields, header_flags, flag_item]⟩


/-- The short-frame failure at a concrete input: 9 captured octets of a 12-octet
frame. -/
theorem axisp_short_frame_fails_witness :
    axisp_short12.wf ∧ axisp_short12.reported_length ≤ 14 ∧
    (failsBounds (dissect_axisp axisp_short12).run.result ∧
      ∀ it ∈ (dissect_axisp axisp_short12).run.tree, it.hf ∉ axisp_tail_fields) :=
  ⟨by decide, by decide, axisp_short_frame_fails axisp_short12 (by decide) (by decide)⟩


/-! ## The RSSI variant (C3, C4, C5) -/

/-- C3: for every buffer with at least 4 captured octets, `dissect_rssi` adds the
common header and then continues as `dissect_syn_rssi_packet` at offset 4 when
bit 7 of octet 0 is set, and as the regular branch when it is clear.  The
continuation is a function of that bit alone: a second buffer that agrees on
bit 7 of octet 0 takes the same branch, whatever its other bits and octets. -/
theorem rssi_variant_by_syn_bit (asp_handle : Option Dissector) (tvb : Tvb) (t : List Item)
    (hc : 4 ≤ tvb.data.length) :
    (tvb.byte 0 &&& 0x80 ≠ 0 →
      dissect_rssi asp_handle tvb t =
        dissect_syn_rssi_packet tvb 4 (t ++ rssi_header_items tvb)) ∧
    (tvb.byte 0 &&& 0x80 = 0 →
      dissect_rssi asp_handle tvb t =
        rssi_regular_branch asp_handle tvb 4 (t ++ rssi_header_items tvb)) ∧
    (∀ (tvb2 : Tvb) (t2 : List Item), 4 ≤ tvb2.data.length →
      tvb2.byte 0 &&& 0x80 = tvb.byte 0 &&& 0x80 →
      (dissect_rssi asp_handle tvb t =
          dissect_syn_rssi_packet tvb 4 (t ++ rssi_header_items tvb) ∧
        dissect_rssi asp_handle tvb2 t2 =
          dissect_syn_rssi_packet tvb2 4 (t2 ++ rssi_header_items tvb2)) ∨
      (dissect_rssi asp_handle tvb t =
          rssi_regular_branch asp_handle tvb 4 (t ++ rssi_header_items tvb) ∧
        dissect_rssi asp_handle tvb2 t2 =
          rssi_regular_branch asp_handle tvb2 4 (t2 ++ rssi_header_items tvb2))) := by
  have key := fun (b : Tvb) (s : List Item) (hb : 4 ≤ b.data.length) =>
    dissect_rssi_branch asp_handle b s hb
  refine ⟨(key tvb t hc).1, (key tvb t hc).2, ?_⟩
  intro tvb2 t2 hc2 hbit
  by_cases h : tvb.byte 0 &&& 0x80 = 0
  · exact Or.inr ⟨(key tvb t hc).2 h, (key tvb2 t2 hc2).2 (hbit.trans h)⟩
  · exact Or.inl ⟨(key tvb t hc).1 h, (key tvb2 t2 hc2).1 (fun h2 => h (hbit.symm.trans h2))⟩

/-- C3 at a concrete input: a SYN packet of 22 octets takes the SYN branch. -/
theorem rssi_variant_by_syn_bit_witness :
    4 ≤ rssi_syn22.data.length ∧
    dissect_rssi none rssi_syn22 [] =
      dissect_syn_rssi_packet rssi_syn22 4 ([] ++ rssi_header_items rssi_syn22) :=
  ⟨by decide, (rssi_variant_by_syn_bit none rssi_syn22 [] (by decide)).1 (by decide)⟩

/-- C4, counterexample: a completely captured SYN packet of 21 octets. The run
of `dissect_rssi` ends with `ReportedBoundsError` at the connection id and
reports nothing as consumed. -/
theorem rssi_syn21_not_consumed :
    rssi_syn21.byte 0 &&& 0x80 ≠ 0 ∧ rssi_syn21.data.length = 21 ∧
    rssi_syn21.reported_length = 21 ∧
    (dissect_rssi none rssi_syn21).run.result = .error .ReportedBoundsError ∧
    (dissect_rssi none rssi_syn21).run.result ≠ .ok (rssi_syn21.reported_length : Int) := by
  refine ⟨by decide, rfl, rfl, rfl, ?_⟩
  have h : (dissect_rssi none rssi_syn21).run.result = .error .ReportedBoundsError := rfl
  rw [h]
  exact fun hc => by cases hc

/-- C4, amended: on every buffer whose SYN bit (bit 7 of octet 0) is set,
`dissect_rssi` does the same for every handle, registered or not, so the next
dissector is never called, and it adds items of the common header and of the
SYN branch only. When at least 22 octets are captured, however many follow, it
returns the reported length; when fewer are captured it ends with a bounds
exception and returns nothing. -/
theorem rssi_syn_terminal (asp_handle : Option Dissector) (tvb : Tvb)
    (hsyn : tvb.byte 0 &&& 0x80 ≠ 0) :
    (∀ other : Option Dissector,
      (dissect_rssi other tvb).run = (dissect_rssi asp_handle tvb).run) ∧
    (∀ it ∈ (dissect_rssi asp_handle tvb).run.tree,
      it.hf ∈ rssi_header_fields ∨ it.hf ∈ rssi_syn_fields) ∧
    (∀ v, (dissect_rssi asp_handle tvb).run.result = .ok v → v = tvb.reported_length) ∧
    (22 ≤ tvb.data.length →
      (dissect_rssi asp_handle tvb).run.result = .ok (tvb.reported_length : Int)) ∧
    (tvb.data.length < 22 → failsBounds (dissect_rssi asp_handle tvb).run.result) := by
  have h := dissect_rssi_syn_run asp_handle tvb hsyn
  refine ⟨fun other => ?_, h.2.1, ?_, ?_, ?_⟩
  · show dissect_rssi other tvb [] = dissect_rssi asp_handle tvb []
    rw [(dissect_rssi_syn_run other tvb hsyn).1, h.1]
  · intro v hv
    by_cases h22 : 22 ≤ tvb.data.length
    · have := h.2.2.1 h22
      simp only [Dis.run, this] at hv
      injection hv with hv
      exact hv.symm
    · obtain ⟨e, he, _⟩ := h.2.2.2 (by omega)
      simp only [Dis.run, he] at hv
      cases hv
  · intro h22
    simp only [Dis.run, h.2.2.1 h22]
  · intro h22
    obtain ⟨e, he, hb, _⟩ := h.2.2.2 h22
    exact ⟨e, he, hb⟩

/-- C4 (amended) at a concrete input: a SYN packet of 22 octets followed by 3
more. -/
theorem rssi_syn_terminal_witness :
    rssi_syn25.byte 0 &&& 0x80 ≠ 0 ∧
    (∀ it ∈ (dissect_rssi (some (create_dissector_handle dissect_axisp)) rssi_syn25).run.tree,
      it.hf ∈ rssi_header_fields ∨ it.hf ∈ rssi_syn_fields) ∧
    (dissect_rssi (some (create_dissector_handle dissect_axisp)) rssi_syn25).run.result =
      .ok (rssi_syn25.reported_length : Int) :=
  ⟨by decide,
    (rssi_syn_terminal (some (create_dissector_handle dissect_axisp)) rssi_syn25
      (by decide)).2.1,
    (rssi_syn_terminal (some (create_dissector_handle dissect_axisp)) rssi_syn25
      (by decide)).2.2.2.1 (by decide)⟩

/-- C5, counterexample: a completely captured SYN packet of reported length 20
ends with a `ReportedBoundsError`; the connection id is not decoded. -/
theorem rssi_syn20_fails :
    rssi_syn20.byte 0 &&& 0x80 ≠ 0 ∧ rssi_syn20.reported_length = 20 ∧
    rssi_syn20.data.length = 20 ∧
    (dissect_rssi none rssi_syn20).run.result = .error .ReportedBoundsError ∧
    fields_of .hf_rssi_conn_id (dissect_rssi none rssi_syn20).run.tree = [] := by
  refine ⟨by decide, rfl, rfl, rfl, rfl⟩

/-- C5, amended: with the SYN bit set and at least 22 captured octets,
`dissect_rssi` returns the reported length, and the tree is the common header
followed by the complete set of SYN items: syn flags, checksum flag, version,
max outstanding segments, max segment size, retransmission timeout, cumulative
ack timeout, null timeout, max retransmissions, max cumulative acks, max
out-of-sequence acks, timeout unit and connection id. -/
theorem rssi_syn_complete (asp_handle : Option Dissector) (tvb : Tvb)
    (hsyn : tvb.byte 0 &&& 0x80 ≠ 0) (hc : 22 ≤ tvb.data.length) :
    (dissect_rssi asp_handle tvb).run =
      ⟨rssi_header_items tvb ++ rssi_syn_items tvb, .ok (tvb.reported_length : Int)⟩ ∧
    (rssi_syn_items tvb).map (fun it => it.hf) = rssi_syn_fields :=
  ⟨(dissect_rssi_syn_run asp_handle tvb hsyn).2.2.1 hc, rfl⟩

/-- C5 (amended) at a concrete input: a SYN packet of exactly 22 octets. -/
theorem rssi_syn_complete_witness :
    rssi_syn22.byte 0 &&& 0x80 ≠ 0 ∧ 22 ≤ rssi_syn22.data.length ∧
    (dissect_rssi none rssi_syn22).run =
      ⟨rssi_header_items rssi_syn22 ++ rssi_syn_items rssi_syn22,
        .ok (rssi_syn22.reported_length : Int)⟩ :=
  ⟨by decide, by decide, (rssi_syn_complete none rssi_syn22 (by decide) (by decide)).1⟩


/-! ## The regular branch and the failures of RSSI (C6, C7) -/

/-- C6, counterexample: a completely captured regular packet of reported length
9, with `dissect_axisp` registered as next dissector, does not succeed: the
one-octet residual view is handed over and the exception of the AXISP decode
ends `dissect_rssi`. -/
theorem rssi_regular_nested_failure :
    rssi_reg9.byte 0 &&& 0x80 = 0 ∧ rssi_reg9.reported_length = 9 ∧
    rssi_reg9.data.length = 9 ∧
    (dissect_rssi (some (create_dissector_handle dissect_axisp)) rssi_reg9).run.result =
      .error .ReportedBoundsError := by
  refine ⟨by decide, rfl, rfl, rfl⟩

/-- C6, amended: for a buffer with the SYN bit clear, reported length `L ≥ 8`
and its octets captured (the 8 header octets and, for `L > 8`, at least one
more), the own part of `dissect_rssi` raises no exception: no item is added for
the spare octets 4 and 5, the checksum item is the big-endian value of octets 6
and 7, and `dissect_regular_rssi_packet` returns the cursor 8.  For `L = 8` no
payload item is added, no handle is called and 8 is returned.  For `L > 8` the
run is `call_dissector` on the residual view that starts at offset 8 and has
reported length `L - 8`, called once, after the payload item; what a
registered dissector adds and returns on that view (a value or an exception)
is what `dissect_rssi` adds and returns. -/
theorem rssi_regular_handoff (asp_handle : Option Dissector) (tvb : Tvb) (hwf : tvb.wf)
    (hsyn : tvb.byte 0 &&& 0x80 = 0) (hc : 8 ≤ tvb.data.length)
    (hpay : 8 < tvb.reported_length → 8 < tvb.data.length) :
    (∀ t, (dissect_regular_rssi_packet tvb 4 t).result = .ok 8) ∧
    (∀ it ∈ rssi_regular_items tvb, it.hf ≠ .proto_asp → ¬ it.covers 4 ∧ ¬ it.covers 5) ∧
    (tvb.reported_length = 8 →
      (dissect_rssi asp_handle tvb).run =
        ⟨rssi_header_items tvb ++
          [⟨.hf_rssi_checksum, 6, 2, .uint (tvb.byte 6 * 256 + tvb.byte 7)⟩], .ok 8⟩) ∧
    (8 < tvb.reported_length →
      (dissect_rssi asp_handle tvb).run =
        call_dissector asp_handle (rssi_next_tvb tvb) (rssi_regular_items tvb) ∧
      (rssi_next_tvb tvb).reported_length = tvb.reported_length - 8 ∧
      (rssi_next_tvb tvb).data = tvb.data.drop 8 ∧
      (rssi_next_tvb tvb).raw_offset = tvb.raw_offset + 8 ∧
      ∀ h : Dissector, asp_handle = some h → (h (rssi_next_tvb tvb)).result ≠ .ok 0 →
        (dissect_rssi asp_handle tvb).run =
          ⟨rssi_regular_items tvb ++ (h (rssi_next_tvb tvb)).tree,
            (h (rssi_next_tvb tvb)).result⟩) := by
  have hbr := (dissect_rssi_branch asp_handle tvb [] (by omega)).2 hsyn
  refine ⟨?_, ?_, ?_, ?_⟩
  · intro t
    by_cases hL : 8 < tvb.reported_length
    · rw [dissect_regular_rssi_packet_payload tvb t hwf (hpay hL)]
    · have hL8 : tvb.reported_length = 8 := by
        unfold Tvb.wf at hwf
        omega
      rw [dissect_regular_rssi_packet_empty tvb t hc hL8]
  · intro it hit hne
    simp only [rssi_regular_items, rssi_header_items, rssi_flag_items, List.cons_append,
      List.nil_append, List.mem_cons, List.mem_singleton, List.not_mem_nil, or_false] at hit
    rcases hit with h | h | h | h | h | h | h | h | h | h | h | h | h <;> subst h <;>
      first
      | exact absurd rfl hne
      | (simp only [Item.covers]; omega)
  · intro hL
    show dissect_rssi asp_handle tvb [] = _
    rw [hbr, rssi_regular_branch_empty asp_handle tvb _ hc hL]
    simp
  · intro hL
    have hrun : (dissect_rssi asp_handle tvb).run =
        call_dissector asp_handle (rssi_next_tvb tvb) (rssi_regular_items tvb) := by
      show dissect_rssi asp_handle tvb [] = _
      rw [hbr, rssi_regular_branch_payload asp_handle tvb _ hwf (hpay hL)]
      simp [rssi_regular_items]
    refine ⟨hrun, rfl, rfl, rfl, ?_⟩
    intro h hh hret
    rw [hrun, hh, call_dissector_some h _ _ hret]

/-- C6 (amended) at a concrete input: the regular packet that carries the
20-octet AXISP frame, with `dissect_axisp` registered; the AXISP decode of the
residual view returns 20. -/
theorem rssi_regular_handoff_witness :
    rssi_reg28.wf ∧ rssi_reg28.byte 0 &&& 0x80 = 0 ∧ 8 ≤ rssi_reg28.data.length ∧
    (8 < rssi_reg28.reported_length → 8 < rssi_reg28.data.length) ∧
    (rssi_next_tvb rssi_reg28).reported_length = rssi_reg28.reported_length - 8 ∧
    (dissect_rssi (some (create_dissector_handle dissect_axisp)) rssi_reg28).run =
      ⟨rssi_regular_items rssi_reg28 ++
          (create_dissector_handle dissect_axisp (rssi_next_tvb rssi_reg28)).tree,
        (create_dissector_handle dissect_axisp (rssi_next_tvb rssi_reg28)).result⟩ ∧
    (create_dissector_handle dissect_axisp (rssi_next_tvb rssi_reg28)).result = .ok 20 :=
  ⟨by decide, by decide, by decide, by decide, rfl,
    ((rssi_regular_handoff (some (create_dissector_handle dissect_axisp)) rssi_reg28
      (by decide) (by decide) (by decide) (by decide)).2.2.2 (by decide)).2.2.2.2
        (create_dissector_handle dissect_axisp) rfl
        (fun h => by
          have h20 : (Except.ok 20 : Except Exn Int) = .ok 0 := h
          injection h20 with h20
          exact absurd h20 (by decide)),
    rfl⟩

/-- C7: `dissect_rssi` ends with a bounds exception on every buffer of reported
length below 4, and on every buffer with the SYN bit set and reported length
below 20; on a completely captured buffer the exception is
`ReportedBoundsError`, which is reported as a malformed packet. -/
theorem rssi_short_fails (asp_handle : Option Dissector) (tvb : Tvb) (hwf : tvb.wf)
    (hshort : tvb.reported_length < 4 ∨
      (tvb.byte 0 &&& 0x80 ≠ 0 ∧ tvb.reported_length < 20)) :
    ∃ e, (dissect_rssi asp_handle tvb).run.result = .error e ∧ e.isBounds = true ∧
      (tvb.data.length = tvb.reported_length → e = .ReportedBoundsError) := by
  unfold Tvb.wf at hwf
  rcases hshort with h4 | ⟨hsyn, h20⟩
  · obtain ⟨t1, e, he, hb, hr⟩ := rssi_common_header_short tvb [] (by omega)
    refine ⟨e, ?_, hb, hr⟩
    show (dissect_rssi asp_handle tvb []).result = _
    rw [dissect_rssi_split, Dis.bind_error _ _ _ _ _ he]
  · exact (dissect_rssi_syn_run asp_handle tvb hsyn).2.2.2 (by omega)

/-- C7 at a concrete input: a buffer of 3 octets. -/
theorem rssi_short_fails_witness :
    rssi_short3.wf ∧ rssi_short3.reported_length < 4 ∧
    ∃ e, (dissect_rssi none rssi_short3).run.result = .error e ∧ e.isBounds = true ∧
      (rssi_short3.data.length = rssi_short3.reported_length → e = .ReportedBoundsError) :=
  ⟨by decide, by decide, rssi_short_fails none rssi_short3 (by decide) (Or.inl (by decide))⟩


/-! ## Flag and header values (C8, C9, C10) -/

set_option maxRecDepth 100000 in
theorem or_masks_flag_items (b : Fin 256) (hb : b.val &&& 0x06 = 0) :
    or_masks (rssi_flag_items b.val) = b.val := by
  revert b
  decide

/-- C8: for every buffer whose octet 0 is captured and has only defined flag
bits (`b &&& 0x06 = 0`), the tree of `dissect_rssi` starts with the protocol
item and the seven items of the control flags: the raw value `b` and the six
flags, each `(b &&& mask) ≠ 0` for its mask, all with byte range offset 0,
length 1; OR-ing the masks of the flags decoded as true gives `b` again. -/
theorem rssi_flags_round_trip (asp_handle : Option Dissector) (tvb : Tvb)
    (hc : 1 ≤ tvb.data.length) (hb : tvb.byte 0 &&& 0x06 = 0) :
    (∃ post, (dissect_rssi asp_handle tvb).run.tree =
      ⟨.proto_asp, 0, tvb.data.length, .none⟩ :: rssi_flag_items (tvb.byte 0) ++ post) ∧
    rssi_flag_items (tvb.byte 0) =
      [⟨.hf_rssi_control_flags, 0, 1, .uint (tvb.byte 0)⟩,
       ⟨.hf_rssi_flag_busy, 0, 1, .boolean (decide (tvb.byte 0 &&& RSSI_FLAG_BUSY ≠ 0))⟩,
       ⟨.hf_rssi_flag_null, 0, 1, .boolean (decide (tvb.byte 0 &&& RSSI_FLAG_NULL ≠ 0))⟩,
       ⟨.hf_rssi_flag_rst, 0, 1, .boolean (decide (tvb.byte 0 &&& RSSI_FLAG_RST ≠ 0))⟩,
       ⟨.hf_rssi_flag_eac, 0, 1, .boolean (decide (tvb.byte 0 &&& RSSI_FLAG_EAC ≠ 0))⟩,
       ⟨.hf_rssi_flag_ack, 0, 1, .boolean (decide (tvb.byte 0 &&& RSSI_FLAG_ACK ≠ 0))⟩,
       ⟨.hf_rssi_flag_syn, 0, 1, .boolean (decide (tvb.byte 0 &&& RSSI_FLAG_SYN ≠ 0))⟩] ∧
    or_masks (rssi_flag_items (tvb.byte 0)) = tvb.byte 0 := by
  refine ⟨?_, rfl, or_masks_flag_items _ hb⟩
  obtain ⟨p1, h1⟩ := rssi_common_header_flags tvb [] hc
  obtain ⟨p2, h2⟩ := bind_tree_extends (rssi_common_header tvb) (fun is_syn_packet =>
      if is_syn_packet = true then dissect_syn_rssi_packet tvb 4
      else rssi_regular_branch asp_handle tvb 4) [] (fun a => by
    dsimp only
    split
    · exact (adds_dissect_syn_rssi_packet tvb 4).mono fun _ _ => trivial
    · exact adds_rssi_regular_branch asp_handle tvb 4)
  refine ⟨p1 ++ p2, ?_⟩
  show (dissect_rssi asp_handle tvb []).tree = _
  rw [dissect_rssi_split, h2, h1]
  simp

/-- C8 at a concrete input: the flag octet `0x40` (ACK) of the 8-octet packet. -/
theorem rssi_flags_round_trip_witness :
    1 ≤ rssi_reg8.data.length ∧ rssi_reg8.byte 0 &&& 0x06 = 0 ∧
    or_masks (rssi_flag_items (rssi_reg8.byte 0)) = rssi_reg8.byte 0 :=
  ⟨by decide, by decide,
    (rssi_flags_round_trip none rssi_reg8 (by decide) (by decide)).2.2⟩

/-- C9: for every buffer with its first 8 octets `b0..b7` captured, the tree of
`dissect_axisp` starts with the protocol item and the header items crc_type
`b0 >> 4`, version `b0 & 0x0F`, tuser `b1`, channel `b2`, tid `b3`, sequence
number `b4 + 256 * b5`, header flags `b7` and Start-Of-Frame
`(b7 & 0x80) ≠ 0`; only payload and tail items follow; `crc_type * 16 +
version = b0`; no header field covers the reserved octet 6, and in a complete
decode (reported length at least 16, octets captured) no field at all does. -/
theorem axisp_header_values (tvb : Tvb) (hc : 8 ≤ tvb.data.length) :
    (∃ post, (dissect_axisp tvb).run.tree = axisp_header_items tvb ++ post ∧
      ∀ it ∈ post, it.hf ∈ axisp_tail_fields) ∧
    axisp_header_items tvb =
      [⟨.proto_axisp, 0, tvb.data.length, .none⟩,
       ⟨.hf_axisp_crc_type, 0, 1, .uint (tvb.byte 0 >>> 4)⟩,
       ⟨.hf_axisp_version, 0, 1, .uint (tvb.byte 0 &&& 0x0F)⟩,
       ⟨.hf_axisp_tuser, 1, 1, .uint (tvb.byte 1)⟩,
       ⟨.hf_axisp_channel, 2, 1, .uint (tvb.byte 2)⟩,
       ⟨.hf_axisp_tid, 3, 1, .uint (tvb.byte 3)⟩,
       ⟨.hf_axisp_seq, 4, 2, .uint (tvb.byte 4 + 256 * tvb.byte 5)⟩,
       ⟨.hf_axisp_header_flags, 7, 1, .uint (tvb.byte 7)⟩,
       ⟨.hf_axisp_sof, 7, 1, .boolean (decide (tvb.byte 7 &&& 0x80 ≠ 0))⟩] ∧
    (tvb.byte 0 >>> 4) * 16 + (tvb.byte 0 &&& 0x0F) = tvb.byte 0 ∧
    (∀ it ∈ axisp_header_items tvb, it.hf ≠ .proto_axisp → ¬ it.covers 6) ∧
    (tvb.wf → 16 ≤ tvb.reported_length → tvb.reported_length ≤ tvb.data.length + 2 →
      ∀ it ∈ (dissect_axisp tvb).run.tree, it.hf ≠ .proto_axisp → ¬ it.covers 6) := by
  refine ⟨?_, rfl, ?_, ?_, ?_⟩
  · obtain ⟨post, hp, hS⟩ := adds_axisp_tail_part tvb ([] ++ axisp_header_items tvb)
    refine ⟨post, ?_, hS⟩
    show (dissect_axisp tvb []).tree = _
    rw [dissect_axisp_split, Dis.bind_ok _ _ _ _ _ (axisp_header_part_ok tvb [] hc), hp]
    simp
  · have h16 : (16 : Nat) = 2 ^ 4 := rfl
    have h15 : (0x0F : Nat) = 2 ^ 4 - 1 := rfl
    rw [Nat.shiftRight_eq_div_pow, h15, Nat.and_pow_two_sub_one_eq_mod, h16]
    exact Nat.div_add_mod' _ _
  · intro it hit hne
    simp only [axisp_header_items, List.mem_cons, List.mem_singleton, List.not_mem_nil,
      or_false] at hit
    rcases hit with h | h | h | h | h | h | h | h | h <;> subst h <;>
      first
      | exact absurd rfl hne
      | (simp only [Item.covers]; omega)
  · intro hwf hL hcap it hit hne
    obtain ⟨n, hn⟩ : ∃ n, tvb.reported_length = n + 16 := ⟨tvb.reported_length - 16, by omega⟩
    have hrun : (dissect_axisp tvb).run = ⟨[] ++ axisp_items tvb n, .ok (n + 16)⟩ :=
      dissect_axisp_ok tvb n [] hn (by omega) hwf
    rw [hrun] at hit
    simp only [axisp_items, axisp_header_items, axisp_tail_items, List.nil_append,
      List.cons_append, List.mem_cons, List.mem_singleton, List.not_mem_nil, or_false] at hit
    rcases hit with h | h | h | h | h | h | h | h | h | h | h | h | h | h | h <;> subst h <;>
      first
      | exact absurd rfl hne
      | (simp only [Item.covers]; omega)

/-- C9 at a concrete input: the header of the specification's 20-octet frame. -/
theorem axisp_header_values_witness :
    8 ≤ axisp_frame20.data.length ∧
    (axisp_frame20.byte 0 >>> 4) * 16 + (axisp_frame20.byte 0 &&& 0x0F) =
      axisp_frame20.byte 0 ∧
    (∃ post, (dissect_axisp axisp_frame20).run.tree = axisp_header_items axisp_frame20 ++ post ∧
      ∀ it ∈ post, it.hf ∈ axisp_tail_fields) :=
  ⟨by decide, (axisp_header_values axisp_frame20 (by decide)).2.2.1,
    (axisp_header_values axisp_frame20 (by decide)).1⟩

/-- C10, the code at the failing input: on the specification's 20-octet frame
(tail `00 01 00 00 00 00 12 34` at offsets 12 to 19) the last byte count item
has the byte range `[14, 15)` and the crc item the range `[16, 18)` with the
16-bit value of octets 16 and 17; no field covers the octets 15, 18 and 19,
although the field table declares the last byte count as `FT_UINT16` and the crc
as `FT_UINT32`. -/
theorem axisp_tail_layout_at_frame20 :
    (dissect_axisp axisp_frame20).run.result = .ok 20 ∧
    fields_of .hf_axisp_tuser_last (dissect_axisp axisp_frame20).run.tree =
      [⟨.hf_axisp_tuser_last, 12, 1, .uint 0⟩] ∧
    fields_of .hf_axisp_tail_flags (dissect_axisp axisp_frame20).run.tree =
      [⟨.hf_axisp_tail_flags, 13, 1, .uint 1⟩] ∧
    fields_of .hf_axisp_last_byte_cnt (dissect_axisp axisp_frame20).run.tree =
      [⟨.hf_axisp_last_byte_cnt, 14, 1, .uint 0⟩] ∧
    fields_of .hf_axisp_crc (dissect_axisp axisp_frame20).run.tree =
      [⟨.hf_axisp_crc, 16, 2, .uint 0⟩] ∧
    (∀ it ∈ (dissect_axisp axisp_frame20).run.tree, it.hf ≠ .proto_axisp →
      ¬ it.covers 15 ∧ ¬ it.covers 18 ∧ ¬ it.covers 19) ∧
    (hfinfo .hf_axisp_last_byte_cnt).ftype = .FT_UINT16 ∧
    (hfinfo .hf_axisp_crc).ftype = .FT_UINT32 := by
  refine ⟨rfl, rfl, rfl, rfl, rfl, ?_, rfl, rfl⟩
  decide


/-! ## Tail flags, the scenario of the specification, the missing handle and the
SYN octet (C11 to C14) -/

/-- C12, counterexample: on the 20-octet scenario the tid item is not 1 and the
End-Of-Frame item is not false. -/
theorem axisp_scenario_tid_eof :
    fields_of .hf_axisp_tid (dissect_axisp axisp_frame20).run.tree ≠
      [⟨.hf_axisp_tid, 3, 1, .uint 1⟩] ∧
    fields_of .hf_axisp_eof (dissect_axisp axisp_frame20).run.tree ≠
      [⟨.hf_axisp_eof, 13, 1, .boolean false⟩] := by
  decide

/-- C12, amended: on the 20-octet input `14 00 00 00 01 23 00 80 | AA BB CC DD |
00 01 00 00 00 00 12 34`, `dissect_axisp` returns 20 and yields crc_type 1,
version 4, tuser 0, channel 0, tid 0 (octet 3), sequence number `0x2301`
(octets 4 and 5, little-endian), Start-Of-Frame true, a payload of exactly the
octets `AA BB CC DD` at offsets 8 to 11, tuser_last 0, tail flags 1 and
End-Of-Frame true (bit 0 of octet 13). -/
theorem axisp_scenario_values :
    (dissect_axisp axisp_frame20).run =
      ⟨[⟨.proto_axisp, 0, 20, .none⟩,
        ⟨.hf_axisp_crc_type, 0, 1, .uint 1⟩,
        ⟨.hf_axisp_version, 0, 1, .uint 4⟩,
        ⟨.hf_axisp_tuser, 1, 1, .uint 0⟩,
        ⟨.hf_axisp_channel, 2, 1, .uint 0⟩,
        ⟨.hf_axisp_tid, 3, 1, .uint 0⟩,
        ⟨.hf_axisp_seq, 4, 2, .uint 0x2301⟩,
        ⟨.hf_axisp_header_flags, 7, 1, .uint 0x80⟩,
        ⟨.hf_axisp_sof, 7, 1, .boolean true⟩,
        ⟨.hf_axisp_payload, 8, 4, .bytes [0xAA, 0xBB, 0xCC, 0xDD]⟩,
        ⟨.hf_axisp_tuser_last, 12, 1, .uint 0⟩,
        ⟨.hf_axisp_tail_flags, 13, 1, .uint 1⟩,
        ⟨.hf_axisp_eof, 13, 1, .boolean true⟩,
        ⟨.hf_axisp_last_byte_cnt, 14, 1, .uint 0⟩,
        ⟨.hf_axisp_crc, 16, 2, .uint 0⟩], .ok 20⟩ := by
  rfl

/-- C13, the failing input: with no dissector named "axisp" in the registry, the
regular packet that carries the 20-octet AXISP frame does not decode
successfully. `proto_reg_handoff_rssi` leaves the handle null, `dissect_rssi`
passes it to `call_dissector` untested, and the run ends with the failed
assertion on the handle (`DissectorError`). -/
theorem rssi_unresolved_handoff_fails :
    rssi_reg28.byte 0 &&& 0x80 = 0 ∧ 8 < rssi_reg28.reported_length ∧
    (dissect_rssi (proto_reg_handoff_rssi (fun _ => none)) rssi_reg28).run.result =
      .error .DissectorError := by
  refine ⟨by decide, by decide, rfl⟩

/-- The unresolved hand-off in general: for every regular (SYN clear) buffer of
reported length above 8 with a captured payload octet, when no dissector named
"axisp" is registered (`find_dissector` yields no handle), `dissect_rssi` adds the common header, the
checksum and the payload item over the residual octets, and then ends with the
failed assertion of `call_dissector` on the missing handle
(`DissectorError`); it returns no value. -/
theorem rssi_unresolved_handoff (find_dissector : String → Option Dissector) (tvb : Tvb)
    (hwf : tvb.wf) (hnone : find_dissector "axisp" = none)
    (hsyn : tvb.byte 0 &&& 0x80 = 0) (hc : 8 < tvb.data.length) :
    8 < tvb.reported_length ∧
    (dissect_rssi (proto_reg_handoff_rssi find_dissector) tvb).run =
      ⟨rssi_regular_items tvb, .error .DissectorError⟩ ∧
    fields_of .hf_rssi_payload (dissect_rssi (proto_reg_handoff_rssi find_dissector) tvb).run.tree =
      [⟨.hf_rssi_payload, 8, (tvb.data.length : Int) - 8, .bytes (tvb.data.drop 8)⟩] := by
  have hrun : (dissect_rssi (proto_reg_handoff_rssi find_dissector) tvb).run =
      ⟨rssi_regular_items tvb, .error .DissectorError⟩ := by
    show dissect_rssi (proto_reg_handoff_rssi find_dissector) tvb [] = _
    rw [(dissect_rssi_branch _ tvb [] (by omega)).2 hsyn,
      rssi_regular_branch_payload _ tvb _ hwf hc]
    simp [proto_reg_handoff_rssi, hnone, call_dissector, Dis.lift, rssi_regular_items]
  refine ⟨?_, hrun, ?_⟩
  · unfold Tvb.wf at hwf
    omega
  · rw [hrun]
    simp [fields_of, rssi_regular_items, rssi_header_items, rssi_flag_items, List.filter]

/-- The unresolved hand-off at a concrete input: the regular packet with one
payload octet and an empty registry. -/
theorem rssi_unresolved_handoff_witness :
    rssi_reg9.wf ∧ rssi_reg9.byte 0 &&& 0x80 = 0 ∧ 8 < rssi_reg9.data.length ∧
    (dissect_rssi (proto_reg_handoff_rssi (fun _ => none)) rssi_reg9).run =
      ⟨rssi_regular_items rssi_reg9, .error .DissectorError⟩ :=
  ⟨by decide, by decide, by decide,
    (rssi_unresolved_handoff (fun _ => none) rssi_reg9 (by decide) rfl (by decide)
      (by decide)).2.1⟩

/-- C14: for every buffer whose octet 4 (value `s`) is captured,
`dissect_syn_rssi_packet` at offset 4 starts with the syn flags item of value
`s`, the checksum-enabled item `(s &&& 0x04) ≠ 0` and the version item
`s >> 4`, all three with byte range offset 4, length 1; the version is below
16 and depends on the high nibble of `s` only. -/
theorem rssi_syn_packed_byte (tvb : Tvb) (t : List Item) (hc : 5 ≤ tvb.data.length) :
    (∃ post, (dissect_syn_rssi_packet tvb 4 t).tree =
      t ++ [⟨.hf_rssi_syn_flags, 4, 1, .uint (tvb.byte 4)⟩,
        ⟨.hf_rssi_syn_checksum_flag, 4, 1,
          .boolean (decide (tvb.byte 4 &&& RSSI_SYN_FLAG_CHECKSUM ≠ 0))⟩,
        ⟨.hf_rssi_version, 4, 1, .uint (tvb.byte 4 >>> 4)⟩] ++ post) ∧
    tvb.byte 4 >>> 4 < 16 ∧
    tvb.byte 4 >>> 4 = (tvb.byte 4 &&& 0xF0) >>> 4 ∧
    (∀ tvb2 : Tvb, tvb2.byte 4 &&& 0xF0 = tvb.byte 4 &&& 0xF0 →
      tvb2.byte 4 >>> 4 = tvb.byte 4 >>> 4) := by
  have hlt := byte_lt tvb 4
  refine ⟨dissect_syn_rssi_packet_first tvb t hc, ?_, high_nibble tvb 4, ?_⟩
  · rw [Nat.shiftRight_eq_div_pow]
    omega
  · intro tvb2 h2
    rw [high_nibble tvb2 4, high_nibble tvb 4, h2]

/-- C14 at a concrete input: octet 4 of the 22-octet SYN packet is `0x14`. -/
theorem rssi_syn_packed_byte_witness :
    5 ≤ rssi_syn22.data.length ∧ rssi_syn22.byte 4 >>> 4 < 16 ∧
    ∃ post, (dissect_syn_rssi_packet rssi_syn22 4 []).tree =
      [] ++ [⟨.hf_rssi_syn_flags, 4, 1, .uint (rssi_syn22.byte 4)⟩,
        ⟨.hf_rssi_syn_checksum_flag, 4, 1,
          .boolean (decide (rssi_syn22.byte 4 &&& RSSI_SYN_FLAG_CHECKSUM ≠ 0))⟩,
        ⟨.hf_rssi_version, 4, 1, .uint (rssi_syn22.byte 4 >>> 4)⟩] ++ post :=
  ⟨by decide, (rssi_syn_packed_byte rssi_syn22 [] (by decide)).2.1,
    (rssi_syn_packed_byte rssi_syn22 [] (by decide)).1⟩


/-! ## The crc boundary, the SYN block and the two layers (C18, C19, C20) -/

/-- C18: for a buffer of reported length `L ≥ 16` whose octets are captured (the
last two may be missing), the last byte count item has width 1 and the value of
the octet at `L - 6`; the crc item starts 2 octets later, at `L - 4`, has width
2 and the value `byte[L-4] + 256 * byte[L-3]`; no field covers the octets at
`L - 5`, `L - 2` and `L - 1`, and a buffer that differs in these three octets
only gives the same tree and result. -/
theorem axisp_last_byte_crc_boundary (tvb : Tvb) (hwf : tvb.wf)
    (hL : 16 ≤ tvb.reported_length) (hc : tvb.reported_length ≤ tvb.data.length + 2) :
    fields_of .hf_axisp_last_byte_cnt (dissect_axisp tvb).run.tree =
      [⟨.hf_axisp_last_byte_cnt, (tvb.reported_length : Int) - 6, 1,
        .uint (tvb.byte (tvb.reported_length - 6))⟩] ∧
    fields_of .hf_axisp_crc (dissect_axisp tvb).run.tree =
      [⟨.hf_axisp_crc, (tvb.reported_length : Int) - 6 + 2, 2,
        .uint (tvb.byte (tvb.reported_length - 4) +
          256 * tvb.byte (tvb.reported_length - 3))⟩] ∧
    (∀ it ∈ (dissect_axisp tvb).run.tree, it.hf ≠ .proto_axisp →
      ¬ it.covers ((tvb.reported_length : Int) - 5) ∧
      ¬ it.covers ((tvb.reported_length : Int) - 2) ∧
      ¬ it.covers ((tvb.reported_length : Int) - 1)) ∧
    (∀ tvb2 : Tvb, tvb2.reported_length = tvb.reported_length →
      tvb2.data.length = tvb.data.length →
      (∀ i, i ≠ tvb.reported_length - 5 → i ≠ tvb.reported_length - 2 →
        i ≠ tvb.reported_length - 1 → tvb2.data.getD i 0 = tvb.data.getD i 0) →
      (dissect_axisp tvb2).run = (dissect_axisp tvb).run) := by
  obtain ⟨n, hn⟩ : ∃ n, tvb.reported_length = n + 16 := ⟨tvb.reported_length - 16, by omega⟩
  have h : (dissect_axisp tvb).run = ⟨[] ++ axisp_items tvb n, .ok (n + 16)⟩ :=
    dissect_axisp_ok tvb n [] hn (by omega) hwf
  have e1 : ((n : Int) + 16 - 6) = n + 10 := by omega
  have e2 : ((n : Int) + 10 + 2) = n + 12 := by omega
  have e3 : n + 16 - 6 = n + 10 := by omega
  have e4 : n + 16 - 4 = n + 12 := by omega
  have e5 : n + 16 - 3 = n + 13 := by omega
  refine ⟨?_, ?_, ?_, ?_⟩
  · simp only [h, hn, fields_of, axisp_items, axisp_header_items, axisp_tail_items,
      List.nil_append, List.cons_append, Nat.cast_add, Nat.cast_ofNat, e1, e3]
    simp [List.filter]
  · simp only [h, hn, fields_of, axisp_items, axisp_header_items, axisp_tail_items,
      List.nil_append, List.cons_append, Nat.cast_add, Nat.cast_ofNat, e1, e2, e4, e5]
    simp [List.filter]
  · intro it hit hne
    rw [h] at hit
    simp only [axisp_items, axisp_header_items, axisp_tail_items, List.nil_append,
      List.cons_append, List.mem_cons, List.mem_singleton, List.not_mem_nil, or_false] at hit
    rcases hit with h | h | h | h | h | h | h | h | h | h | h | h | h | h | h <;> subst h <;>
      first
      | exact absurd rfl hne
      | (simp only [Item.covers, hn]; omega)
  · intro tvb2 hL2 hlen hagree
    have hwf2 : tvb2.wf := by
      unfold Tvb.wf at hwf ⊢
      omega
    have h2 : (dissect_axisp tvb2).run = ⟨[] ++ axisp_items tvb2 n, .ok (n + 16)⟩ :=
      dissect_axisp_ok tvb2 n [] (by omega) (by omega) hwf2
    have hb : ∀ i, i ≠ n + 11 → i ≠ n + 14 → i ≠ n + 15 → tvb2.byte i = tvb.byte i :=
      fun i h1 h2 h3 => byte_congr tvb tvb2 i (hagree i (by omega) (by omega) (by omega))
    have hpay : (tvb2.data.drop 8).take n = (tvb.data.drop 8).take n :=
      take_drop_congr _ _ 8 n hlen fun i _ _ => hagree i (by omega) (by omega) (by omega)
    rw [h, h2]
    simp only [axisp_items, axisp_header_items, axisp_tail_items, hlen, hpay,
      hb 0 (by omega) (by omega) (by omega), hb 1 (by omega) (by omega) (by omega),
      hb 2 (by omega) (by omega) (by omega), hb 3 (by omega) (by omega) (by omega),
      hb 4 (by omega) (by omega) (by omega), hb 5 (by omega) (by omega) (by omega),
      hb 7 (by omega) (by omega) (by omega), hb (n + 8) (by omega) (by omega) (by omega),
      hb (n + 9) (by omega) (by omega) (by omega), hb (n + 10) (by omega) (by omega) (by omega),
      hb (n + 12) (by omega) (by omega) (by omega), hb (n + 13) (by omega) (by omega) (by omega)]

/-- C18 at a concrete input: the 20-octet frame of the specification. -/
theorem axisp_last_byte_crc_boundary_witness :
    axisp_frame20.wf ∧ 16 ≤ axisp_frame20.reported_length ∧
    axisp_frame20.reported_length ≤ axisp_frame20.data.length + 2 ∧
    fields_of .hf_axisp_crc (dissect_axisp axisp_frame20).run.tree =
      [⟨.hf_axisp_crc, (axisp_frame20.reported_length : Int) - 6 + 2, 2,
        .uint (axisp_frame20.byte (axisp_frame20.reported_length - 4) +
          256 * axisp_frame20.byte (axisp_frame20.reported_length - 3))⟩] :=
  ⟨by decide, by decide, by decide,
    (axisp_last_byte_crc_boundary axisp_frame20 (by decide) (by decide) (by decide)).2.1⟩

/-- C19: the items of the SYN branch start at offset 4 and each begins where the
one before it ends (the syn flags, the checksum flag and the version share the
octet at offset 4), up to the connection id at offsets 18 to 21: 18 octets.  A
completely captured packet with the SYN bit set decodes without an exception
if and only if its length is at least 22. -/
theorem rssi_syn_block_layout (asp_handle : Option Dissector) (tvb : Tvb)
    (hsyn : tvb.byte 0 &&& 0x80 ≠ 0) (hfull : tvb.data.length = tvb.reported_length) :
    (rssi_syn_items tvb).map (fun it => (it.hf, it.start, it.length)) =
      [(.hf_rssi_syn_flags, 4, 1), (.hf_rssi_syn_checksum_flag, 4, 1), (.hf_rssi_version, 4, 1),
       (.hf_rssi_max_outstanding_segments, 5, 1), (.hf_rssi_max_segment_size, 6, 2),
       (.hf_rssi_retransmission_timeout, 8, 2), (.hf_rssi_cumulative_ack_timeout, 10, 2),
       (.hf_rssi_null_timeout, 12, 2), (.hf_rssi_max_retransmissions, 14, 1),
       (.hf_rssi_max_cumulative_acks, 15, 1), (.hf_rssi_max_out_of_seq_ack, 16, 1),
       (.hf_rssi_timeout_unit, 17, 1), (.hf_rssi_conn_id, 18, 4)] ∧
    (rssi_syn_items tvb).Chain' (fun a b =>
      (b.start = a.start ∧ b.length = a.length ∧ a.start = 4) ∨
        b.start = a.start + a.length) ∧
    (∀ it ∈ rssi_syn_items tvb, 4 ≤ it.start ∧ it.start + it.length ≤ 4 + 18) ∧
    ((∃ v, (dissect_rssi asp_handle tvb).run.result = .ok v) ↔ 22 ≤ tvb.reported_length) ∧
    (22 ≤ tvb.reported_length →
      (dissect_rssi asp_handle tvb).run.tree = rssi_header_items tvb ++ rssi_syn_items tvb) := by
  have h := dissect_rssi_syn_run asp_handle tvb hsyn
  refine ⟨rfl, by simp [rssi_syn_items], by simp [rssi_syn_items], ?_, ?_⟩
  · constructor
    · rintro ⟨v, hv⟩
      by_contra hlt
      obtain ⟨e, he, _⟩ := h.2.2.2 (by omega)
      simp only [Dis.run, he] at hv
      cases hv
    · intro h22
      refine ⟨tvb.reported_length, ?_⟩
      simp only [Dis.run, h.2.2.1 (by omega)]
  · intro h22
    simp only [Dis.run, h.2.2.1 (by omega)]

/-- C19 at a concrete input: the completely captured SYN packet of 22 octets. -/
theorem rssi_syn_block_layout_witness :
    rssi_syn22.byte 0 &&& 0x80 ≠ 0 ∧ rssi_syn22.data.length = rssi_syn22.reported_length ∧
    ((∃ v, (dissect_rssi none rssi_syn22).run.result = .ok v) ↔
      22 ≤ rssi_syn22.reported_length) :=
  ⟨by decide, rfl, (rssi_syn_block_layout none rssi_syn22 (by decide) rfl).2.2.2.1⟩

/-- C20: for a regular (SYN clear) buffer of reported length `L ≥ 24` whose octets
are captured (the last two may be missing), with `dissect_axisp` as the next
dissector: the nested decode runs on the view of the octets from 8 on, of
reported length `L - 8`; its header values are the octets 8 to 15 of the
buffer, its payload item has length `L - 24` and holds the octets 16 to
`L - 9`, its tail is read from the octet `L - 8` on; and `dissect_rssi` returns
the result of the nested decode, `L - 8`. -/
theorem rssi_axisp_composition (tvb : Tvb) (hwf : tvb.wf) (hsyn : tvb.byte 0 &&& 0x80 = 0)
    (hL : 24 ≤ tvb.reported_length) (hc : tvb.reported_length ≤ tvb.data.length + 2) :
    (dissect_rssi (some (create_dissector_handle dissect_axisp)) tvb).run =
      ⟨rssi_regular_items tvb ++ axisp_items (rssi_next_tvb tvb) (tvb.reported_length - 24),
        .ok ((tvb.reported_length : Int) - 8)⟩ ∧
    (rssi_next_tvb tvb).data = tvb.data.drop 8 ∧
    (rssi_next_tvb tvb).reported_length = tvb.reported_length - 8 ∧
    (rssi_next_tvb tvb).raw_offset = tvb.raw_offset + 8 ∧
    axisp_items (rssi_next_tvb tvb) (tvb.reported_length - 24) =
      [⟨.proto_axisp, 0, (tvb.data.length : Int) - 8, .none⟩,
       ⟨.hf_axisp_crc_type, 0, 1, .uint (tvb.byte 8 >>> 4)⟩,
       ⟨.hf_axisp_version, 0, 1, .uint (tvb.byte 8 &&& 0xf)⟩,
       ⟨.hf_axisp_tuser, 1, 1, .uint (tvb.byte 9)⟩,
       ⟨.hf_axisp_channel, 2, 1, .uint (tvb.byte 10)⟩,
       ⟨.hf_axisp_tid, 3, 1, .uint (tvb.byte 11)⟩,
       ⟨.hf_axisp_seq, 4, 2, .uint (tvb.byte 12 + 256 * tvb.byte 13)⟩,
       ⟨.hf_axisp_header_flags, 7, 1, .uint (tvb.byte 15)⟩,
       ⟨.hf_axisp_sof, 7, 1, .boolean (decide (tvb.byte 15 &&& 0x80 ≠ 0))⟩,
       ⟨.hf_axisp_payload, 8, (tvb.reported_length : Int) - 24,
         .bytes ((tvb.data.drop 16).take (tvb.reported_length - 24))⟩,
       ⟨.hf_axisp_tuser_last, (tvb.reported_length : Int) - 16, 1,
         .uint (tvb.byte (tvb.reported_length - 8))⟩,
       ⟨.hf_axisp_tail_flags, (tvb.reported_length : Int) - 15, 1,
         .uint (tvb.byte (tvb.reported_length - 7))⟩,
       ⟨.hf_axisp_eof, (tvb.reported_length : Int) - 15, 1,
         .boolean (decide (tvb.byte (tvb.reported_length - 7) &&& 1 ≠ 0))⟩,
       ⟨.hf_axisp_last_byte_cnt, (tvb.reported_length : Int) - 14, 1,
         .uint (tvb.byte (tvb.reported_length - 6))⟩,
       ⟨.hf_axisp_crc, (tvb.reported_length : Int) - 12, 2,
         .uint (tvb.byte (tvb.reported_length - 4) +
           256 * tvb.byte (tvb.reported_length - 3))⟩] := by
  obtain ⟨n, hn⟩ : ∃ n, tvb.reported_length = n + 24 := ⟨tvb.reported_length - 24, by omega⟩
  have hwf' := hwf
  unfold Tvb.wf at hwf'
  have hnext : dissect_axisp (rssi_next_tvb tvb) [] =
      ⟨[] ++ axisp_items (rssi_next_tvb tvb) n, .ok (n + 16)⟩ :=
    dissect_axisp_ok (rssi_next_tvb tvb) n [] (by simp [rssi_next_tvb, hn])
      (by simp [rssi_next_tvb]; omega) (by simp [Tvb.wf, rssi_next_tvb]; omega)
  have hn24 : n + 24 - 24 = n := by omega
  refine ⟨?_, rfl, rfl, rfl, ?_⟩
  · have hrun := (dissect_rssi_branch (some (create_dissector_handle dissect_axisp)) tvb []
      (by omega)).2 hsyn
    show dissect_rssi (some (create_dissector_handle dissect_axisp)) tvb [] = _
    rw [hrun, rssi_regular_branch_payload _ tvb _ hwf (by omega),
      call_dissector_some _ _ _ (by
        simp only [create_dissector_handle, Dis.run, hnext]
        intro h
        injection h with h
        omega)]
    simp only [create_dissector_handle, Dis.run, hnext, hn, hn24, rssi_regular_items,
      List.nil_append, List.append_assoc, List.cons_append, Nat.cast_add, Nat.cast_ofNat]
    congr 1
    · congr 1
      omega
  · have hd : ((tvb.data.drop 8).drop 8) = tvb.data.drop 16 := by
      rw [List.drop_drop]
    have hlen : (((tvb.data.drop 8).length : Nat) : Int) = (tvb.data.length : Int) - 8 := by
      rw [List.length_drop]
      omega
    have e1 : ((n : Int) + 24 - 24) = n := by omega
    have e2 : ((n : Int) + 24 - 16) = n + 8 := by omega
    have e3 : ((n : Int) + 24 - 15) = n + 9 := by omega
    have e4 : ((n : Int) + 24 - 14) = n + 10 := by omega
    have e5 : ((n : Int) + 24 - 12) = n + 12 := by omega
    have f1 : n + 24 - 8 = 8 + (n + 8) := by omega
    have f2 : n + 24 - 7 = 8 + (n + 9) := by omega
    have f3 : n + 24 - 6 = 8 + (n + 10) := by omega
    have f4 : n + 24 - 4 = 8 + (n + 12) := by omega
    have f5 : n + 24 - 3 = 8 + (n + 13) := by omega
    simp only [axisp_items, axisp_header_items, axisp_tail_items, rssi_next_tvb_byte, hn, hn24,
      Nat.cast_add, Nat.cast_ofNat, e1, e2, e3, e4, e5, f1, f2, f3, f4, f5, Nat.reduceAdd,
      List.cons_append, List.nil_append]
    simp only [rssi_next_tvb, hd, hlen]

/-- C20 at a concrete input: the regular packet that carries the 20-octet AXISP
frame returns 20, not 28. -/
theorem rssi_axisp_composition_witness :
    rssi_reg28.wf ∧ rssi_reg28.byte 0 &&& 0x80 = 0 ∧ 24 ≤ rssi_reg28.reported_length ∧
    rssi_reg28.reported_length ≤ rssi_reg28.data.length + 2 ∧
    (dissect_rssi (some (create_dissector_handle dissect_axisp)) rssi_reg28).run =
      ⟨rssi_regular_items rssi_reg28 ++
          axisp_items (rssi_next_tvb rssi_reg28) (rssi_reg28.reported_length - 24),
        .ok ((rssi_reg28.reported_length : Int) - 8)⟩ :=
  ⟨by decide, by decide, by decide, by decide,
    (rssi_axisp_composition rssi_reg28 (by decide) (by decide) (by decide) (by decide)).1⟩


/-! ### C15: item ranges stay inside the buffer -/

/-- C15: on every buffer on which `dissect_axisp` or `dissect_rssi` completes
without an exception, each item in the tree has a non-negative start, a
non-negative length, and start + length at most the reported length of its
buffer. The items `dissect_rssi` adds itself are measured against its own
buffer; the items of the dissector that takes the payload are those of its run
on the view from octet 8 on, and for the AXISP handle they lie inside that
view. -/
theorem field_ranges_within_buffer (tvb : Tvb) (hwf : tvb.wf) :
    (∀ v, (dissect_axisp tvb).run.result = .ok v →
      ∀ it ∈ (dissect_axisp tvb).run.tree, it.in_range tvb.reported_length) ∧
    (∀ asp_handle v, (dissect_rssi asp_handle tvb).run.result = .ok v →
      ∃ own nested, (dissect_rssi asp_handle tvb).run.tree = own ++ nested ∧
        (∀ it ∈ own, it.in_range tvb.reported_length) ∧
        (nested = [] ∨ (8 < tvb.reported_length ∧
          nested = (call_dissector asp_handle (rssi_next_tvb tvb)).run.tree)) ∧
        (asp_handle = some (create_dissector_handle dissect_axisp) →
          ∀ it ∈ nested, it.in_range (rssi_next_tvb tvb).reported_length)) := by
  have hwf' := hwf
  unfold Tvb.wf at hwf'
  constructor
  · intro v hv it hit
    simp only [Dis.run] at hv hit
    rcases dissect_axisp_ok_or_error tvb hwf with ⟨t1, e, he⟩ | ⟨items, hi, _, hr⟩
    · rw [he] at hv
      cases hv
    · rw [hi] at hit
      exact hr it hit
  · intro asp_handle v hv
    simp only [Dis.run] at hv ⊢
    rcases dissect_rssi_cases asp_handle tvb hwf with
      ⟨t1, e, he⟩ | ⟨_, hc, hrun⟩ | ⟨_, hc, hL, hrun⟩ | ⟨_, hc, hrun⟩
    · rw [he] at hv
      cases hv
    · refine ⟨rssi_header_items tvb ++ rssi_syn_items tvb, [], by rw [hrun]; simp, ?_,
        Or.inl rfl, fun _ it hit => by cases hit⟩
      intro it hit
      rcases List.mem_append.1 hit with h | h
      · exact rssi_header_items_in_range tvb hwf (by omega) it h
      · exact rssi_syn_items_in_range tvb hwf hc it h
    · refine ⟨rssi_header_items tvb ++
          [⟨.hf_rssi_checksum, 6, 2, .uint (tvb.byte 6 * 256 + tvb.byte 7)⟩], [],
        by rw [hrun]; simp, ?_, Or.inl rfl, fun _ it hit => by cases hit⟩
      intro it hit
      rcases List.mem_append.1 hit with h | h
      · exact rssi_header_items_in_range tvb hwf (by omega) it h
      · simp only [List.mem_singleton] at h
        subst h
        simp only [Item.in_range]
        omega
    · rw [hrun] at hv
      refine ⟨rssi_regular_items tvb, _, by rw [hrun],
        rssi_regular_items_in_range tvb hwf (by omega), Or.inr ⟨by omega, rfl⟩, ?_⟩
      intro hax
      subst hax
      exact call_axisp_in_range (rssi_next_tvb tvb) (rssi_next_tvb_wf tvb hwf) v hv

/-- C15 at a concrete input: a regular RSSI packet of 28 octets that carries a
complete AXISP frame of 20 octets. -/
theorem field_ranges_within_buffer_witness :
    rssi_reg28.wf ∧
    (∀ v, (dissect_axisp rssi_reg28).run.result = .ok v →
      ∀ it ∈ (dissect_axisp rssi_reg28).run.tree, it.in_range rssi_reg28.reported_length) ∧
    (∀ asp_handle v, (dissect_rssi asp_handle rssi_reg28).run.result = .ok v →
      ∃ own nested, (dissect_rssi asp_handle rssi_reg28).run.tree = own ++ nested ∧
        (∀ it ∈ own, it.in_range rssi_reg28.reported_length) ∧
        (nested = [] ∨ (8 < rssi_reg28.reported_length ∧
          nested = (call_dissector asp_handle (rssi_next_tvb rssi_reg28)).run.tree)) ∧
        (asp_handle = some (create_dissector_handle dissect_axisp) →
          ∀ it ∈ nested, it.in_range (rssi_next_tvb rssi_reg28).reported_length)) :=
  ⟨by decide, field_ranges_within_buffer rssi_reg28 (by decide)⟩


/-! ### C17: the values of the local offset -/

/-- C17, the failing input: on the frame of reported length 15 the run of
`dissect_axisp` completes, and its `offset` goes from 8 back to 7 at the
update `offset += remaining_len - 8` after the payload item. -/
theorem axisp_cursor_steps_back :
    (dissect_axisp_cursor axisp_frame15).log = [0, 1, 2, 3, 4, 6, 7, 8, 7, 8, 9, 11] ∧
    ¬ List.Chain' (fun a b : Int => a ≤ b) (dissect_axisp_cursor axisp_frame15).log ∧
    (Tr.erase (dissect_axisp_cursor axisp_frame15)).run.result = .ok 15 ∧
    (dissect_axisp axisp_frame15).run.result = .ok 15 := by
  have h : (dissect_axisp_cursor axisp_frame15).log = [0, 1, 2, 3, 4, 6, 7, 8, 7, 8, 9, 11] :=
    rfl
  refine ⟨h, ?_, rfl, rfl⟩
  rw [h]
  simp

/-- Away from reported length 15 the cursor only advances: the recording
functions run as the source functions do; on every buffer whose reported length is not 15 the values of `offset` during a
run of `dissect_axisp` are non-decreasing; and on every buffer the values of
`offset` during a run of `dissect_rssi`, those of its two branch helpers
included, are non-decreasing. -/
theorem cursor_non_decreasing (tvb : Tvb) (hL : tvb.reported_length ≠ 15) :
    Tr.erase (dissect_axisp_cursor tvb) = dissect_axisp tvb ∧
    List.Chain' (fun a b : Int => a ≤ b) (dissect_axisp_cursor tvb).log ∧
    ∀ (asp_handle : Option Dissector) (tvb2 : Tvb),
      Tr.erase (dissect_rssi_cursor asp_handle tvb2) = dissect_rssi asp_handle tvb2 ∧
      List.Chain' (fun a b : Int => a ≤ b) (dissect_rssi_cursor asp_handle tvb2).log ∧
      ∀ offset0 : Int,
        Tr.erase (dissect_syn_rssi_packet_cursor tvb2 offset0) =
          dissect_syn_rssi_packet tvb2 offset0 ∧
        Tr.erase (dissect_regular_rssi_packet_cursor tvb2 offset0) =
          dissect_regular_rssi_packet tvb2 offset0 ∧
        List.Chain' (fun a b : Int => a ≤ b) (dissect_syn_rssi_packet_cursor tvb2 offset0).log ∧
        List.Chain' (fun a b : Int => a ≤ b)
          (dissect_regular_rssi_packet_cursor tvb2 offset0).log := by
  refine ⟨dissect_axisp_cursor_erase tvb,
    List.Pairwise.chain' (dissect_axisp_cursor_mono tvb hL []).1, ?_⟩
  intro asp_handle tvb2
  refine ⟨dissect_rssi_cursor_erase asp_handle tvb2,
    List.Pairwise.chain' (dissect_rssi_cursor_mono asp_handle tvb2 []).1, ?_⟩
  intro offset0
  exact ⟨dissect_syn_rssi_packet_cursor_erase tvb2 offset0,
    dissect_regular_rssi_packet_cursor_erase tvb2 offset0,
    List.Pairwise.chain' (dissect_syn_rssi_packet_cursor_mono tvb2 offset0 []).1,
    List.Pairwise.chain' (dissect_regular_rssi_packet_cursor_mono tvb2 offset0 []).1⟩

/-- Cursor values at a concrete input: the AXISP frame of 20 octets. -/
theorem cursor_non_decreasing_witness :
    axisp_frame20.reported_length ≠ 15 ∧
    List.Chain' (fun a b : Int => a ≤ b) (dissect_axisp_cursor axisp_frame20).log ∧
    (dissect_axisp_cursor axisp_frame20).log = [0, 1, 2, 3, 4, 6, 7, 8, 12, 13, 14, 16] :=
  ⟨by decide, (cursor_non_decreasing axisp_frame20 (by decide)).2.1, rfl⟩


/-! ### C16: what is left in the tree after an exception -/

end Slac
